import Mathlib

/-!
# Verification of the rich-presence IPC proxy (discord-ipc.c) and of the activity log (tracker-core.c)

Shallow embedding of `src/discord-ipc.c`: the frame codec, the activity extractor, the
presence store, the synthetic handshake reply, the client data path
(`process_client_buffer`, `on_server_accept`) and the socket takeover and restoration
(`discord_ipc_setup`, `discord_ipc_cleanup`), together with the helper `build_frame` of
`src/test-discord-ipc.c`; and of `src/tracker-core.c`: the writer and the reader of the CSV
log (`csv_escape_to_buffer`, `emit_csv_to_buffer`, `extract_csv_field`, `parse_csv_line`),
`format_duration`, the aggregation of a day (`compute_day_stats`) and its report
(`truncate_label`, `utf8_field_width`, `print_stats_report`).

Conventions of the embedding:
* a byte is a `Fin 256`; memory reachable from a `const guint8 *` or a
  `const gchar *` is the list of bytes starting at the pointer;
* `guint32` values are natural numbers, every 32-bit operation is written with
  an explicit `% 2 ^ 32`; `gsize` values are natural numbers;
* an output parameter is a field of a record holding the caller's variables;
  a function returns its `gboolean` together with the updated record, so that
  "nothing was written" is the statement that the record is unchanged.
* results of system calls and of the JSON parser are parameters of the functions that
  make the calls; the buffers handed to `send` and the calls that change files are
  recorded in the state the functions return;
* a loop that may run forever takes the number of turns it is allowed;
* `long` and `int` values are integers; a sum of `long` values is computed by `long_add`
  and a cast to `int` by `to_int`, which reduce to 64 and 32 bits.
-/

namespace DiscordIpc

/-- One octet of a buffer. -/
abbrev Byte := Fin 256

/-- Protocol constant `DISCORD_OP_HANDSHAKE` (discord-ipc.h). -/
def DISCORD_OP_HANDSHAKE : Nat := 0

/-- Protocol constant `DISCORD_OP_FRAME` (discord-ipc.h). -/
def DISCORD_OP_FRAME : Nat := 1

/-- Protocol constant `DISCORD_HEADER_SIZE` (discord-ipc.h). -/
def DISCORD_HEADER_SIZE : Nat := 8

/-- The byte at index `i` of the memory `data`, as a number. -/
def byteAt (data : List Byte) (i : Nat) : Nat := (data.getD i 0).val

/-- The value of `GUINT32_FROM_LE(*(const guint32 *)(data + off))`: the four bytes at
`off .. off+3` read as a little-endian 32-bit number. -/
def read_le32 (data : List Byte) (off : Nat) : Nat :=
  byteAt data off + 256 * byteAt data (off + 1) + 65536 * byteAt data (off + 2)
    + 16777216 * byteAt data (off + 3)

/-- The four bytes `memcpy` takes from a `guint32` holding `GUINT32_TO_LE(v)`. -/
def write_le32 (v : Nat) : List Byte :=
  [Fin.ofNat (v % 256), Fin.ofNat (v / 256 % 256), Fin.ofNat (v / 65536 % 256),
   Fin.ofNat (v / 16777216 % 256)]

/-- The C string stored in the memory `s`: the bytes before the first NUL byte. -/
def cstr (s : List Byte) : List Byte := s.takeWhile (fun b => b ≠ 0)

/-- The C string `g_strndup (str, n)` returns: at most `n` bytes of `str`, cut before the
first NUL byte. (The allocation of `n + 1` bytes is not part of the model, and a read
beyond the end of the list stops at the end of the list.) -/
def g_strndup (str : List Byte) (n : Nat) : List Byte := cstr (str.take n)

/-- The value of `strlen (s)` for the memory `s`: the number of bytes before the first NUL. -/
def strlen (s : List Byte) : Nat := (cstr s).length

/-- The caller's variables behind the three output parameters of `discord_parse_frame`:
`*opcode`, `*json_out` (`none` is the `NULL` string) and `*consumed`. -/
structure FrameOut where
  opcode : Nat
  json_out : Option (List Byte)
  consumed : Nat
deriving DecidableEq, Repr

/-- Embedding of `discord_parse_frame (data, len, opcode, json_out, consumed)`.
`has_json_out` and `has_consumed` say whether the pointers `json_out` and `consumed` are
non-NULL. `DISCORD_HEADER_SIZE + payload_len` is an `int` plus a `guint32`, hence computed
in 32-bit unsigned arithmetic, both in the comparison with `len` and in `*consumed`. -/
def discord_parse_frame (data : List Byte) (len : Nat) (has_json_out has_consumed : Bool)
    (out : FrameOut) : Bool × FrameOut :=
  if len < DISCORD_HEADER_SIZE then (false, out)
  else
    let op := read_le32 data 0
    let payload_len := read_le32 data 4
    if len < (DISCORD_HEADER_SIZE + payload_len) % 2 ^ 32 then (false, out)
    else
      (true,
        { opcode := op
          json_out :=
            if has_json_out then some (g_strndup (data.drop DISCORD_HEADER_SIZE) payload_len)
            else out.json_out
          consumed :=
            if has_consumed then (DISCORD_HEADER_SIZE + payload_len) % 2 ^ 32
            else out.consumed })

/-- Embedding of the helper `build_frame (opcode, json, out_len)` of test-discord-ipc.c:
the bytes written through `buf` and the value stored in `*out_len`. `json = none` is the
`NULL` pointer. `json_len` is `(guint32) strlen (json)` and `total` is computed in 32-bit
unsigned arithmetic before it is widened to `gsize`. -/
def build_frame (opcode : Nat) (json : Option (List Byte)) : List Byte × Nat :=
  let json_len := match json with
    | some s => strlen s % 2 ^ 32
    | none => 0
  let total := (DISCORD_HEADER_SIZE + json_len) % 2 ^ 32
  let body := match json with
    | some s => s.take json_len
    | none => []
  (write_le32 (opcode % 2 ^ 32) ++ write_le32 json_len ++ body, total)

/-- The tree `json_parser_get_root` hands out (json-glib). A string value is the C string
`json_node_get_string` returns; a floating-point value is represented by the integer
`json_node_get_int` converts it to, the only way this program reads a number. -/
inductive JsonNode where
  | null
  | bool (b : Bool)
  | int (v : Int)
  | double (asInt : Int)
  | string (s : String)
  | array (items : List JsonNode)
  | object (members : List (String × JsonNode))

/-- The members of a `JsonObject`, by name. -/
abbrev JsonObject := List (String × JsonNode)

/-- The node stored under `name` in the object, if any (`json_object_get_member`). -/
def json_object_get_member (obj : JsonObject) (name : String) : Option JsonNode :=
  List.lookup name obj

/-- The library call `json_object_has_member (obj, name)`. -/
def json_object_has_member (obj : JsonObject) (name : String) : Bool :=
  (json_object_get_member obj name).isSome

/-- The library call `json_object_get_string_member (obj, name)`: the string of a string
node, `NULL` (`none`) for a member of any other kind. -/
def json_object_get_string_member (obj : JsonObject) (name : String) : Option String :=
  match json_object_get_member obj name with
  | some (JsonNode.string s) => some s
  | _ => none

/-- The library call `json_object_get_object_member (obj, name)`: the object of an object
node, `NULL` (`none`) for a member of any other kind. -/
def json_object_get_object_member (obj : JsonObject) (name : String) : Option JsonObject :=
  match json_object_get_member obj name with
  | some (JsonNode.object members) => some members
  | _ => none

/-- The library call `json_object_get_int_member (obj, name)`, a `gint64`: the value of an
integer node, the converted value of a floating-point node, 0 or 1 for a boolean node, and
0 for a member of any other kind. -/
def json_object_get_int_member (obj : JsonObject) (name : String) : Int :=
  match json_object_get_member obj name with
  | some (JsonNode.int v) => v
  | some (JsonNode.double v) => v
  | some (JsonNode.bool b) => if b then 1 else 0
  | _ => 0

/-- The cast `(pid_t) v` of a `gint64`: reduction to the signed 32-bit range. -/
def to_pid_t (v : Int) : Int := (v + 2 ^ 31) % 2 ^ 32 - 2 ^ 31

/-- The caller's variables behind the output parameters of `discord_extract_activity`:
`*pid`, `*state` and `*details` (`none` is the `NULL` string). -/
structure ActivityOut where
  pid : Int
  state : Option String
  details : Option String
deriving DecidableEq, Repr

/-- The statements of `discord_extract_activity` that fill the outputs of a `SET_ACTIVITY`
command (from `*pid = 0` to the end of the `args` block), for the root object `obj`. -/
def set_activity_fields (obj : JsonObject) : ActivityOut :=
  let out0 : ActivityOut := { pid := 0, state := none, details := none }
  if json_object_has_member obj "args" then
    match json_object_get_object_member obj "args" with
    | none => out0
    | some args =>
      let out1 : ActivityOut :=
        if json_object_has_member args "pid" then
          { out0 with pid := to_pid_t (json_object_get_int_member args "pid") }
        else out0
      if json_object_has_member args "activity" then
        match json_object_get_object_member args "activity" with
        | none => out1
        | some act =>
          let out2 : ActivityOut :=
            if json_object_has_member act "state" then
              match json_object_get_string_member act "state" with
              | some s => if s ≠ "" then { out1 with state := some s } else out1
              | none => out1
            else out1
          if json_object_has_member act "details" then
            match json_object_get_string_member act "details" with
            | some d => if d ≠ "" then { out2 with details := some d } else out2
            | none => out2
          else out2
      else out1
  else out0

/-- Embedding of `discord_extract_activity (json, pid, state, details)`. The json-glib parser
is a parameter: `json_parser_load_from_data text` is `none` when loading fails and
`some root` otherwise, `root = none` being the `NULL` root. It is called with length `-1`,
that is on the bytes of `json` before the first NUL. `json = none` is the `NULL` pointer.
(The critical message json-glib logs when `cmd`, `args` or `activity` has an unexpected
kind is not part of the model.) -/
def discord_extract_activity (json_parser_load_from_data : List Byte → Option (Option JsonNode))
    (json : Option (List Byte)) (out : ActivityOut) : Bool × ActivityOut :=
  match json with
  | none => (false, out)
  | some j =>
    if byteAt j 0 = 0 then (false, out)
    else
      match json_parser_load_from_data (cstr j) with
      | none => (false, out)
      | some (some (JsonNode.object obj)) =>
        let cmd : Option String :=
          if json_object_has_member obj "cmd" then json_object_get_string_member obj "cmd"
          else none
        if cmd ≠ some "SET_ACTIVITY" then (false, out)
        else (true, set_activity_fields obj)
      | some _ => (false, out)

/-- One record of the presence table (`RichPresenceEntry`, discord-ipc.h). -/
structure RichPresenceEntry where
  state : Option String
  details : Option String
  pid : Int
  last_updated : Int
deriving DecidableEq, Repr

/-- A `GHashTable` with `g_direct_hash` / `g_direct_equal` keys made by `GINT_TO_POINTER`:
the bindings, most recent first. -/
abbrev GHashTable := List (Int × RichPresenceEntry)

/-- The library call `g_hash_table_lookup`. -/
def g_hash_table_lookup (t : GHashTable) (key : Int) : Option RichPresenceEntry :=
  List.lookup key t

/-- The library call `g_hash_table_insert`: a binding of the same key is replaced. -/
def g_hash_table_insert (t : GHashTable) (key : Int) (value : RichPresenceEntry) : GHashTable :=
  (key, value) :: t.filter (fun e => e.1 ≠ key)

/-- The fields of `struct _ClientConnection` (discord-ipc.c) other than the two event
sources and the `ipc_state` pointer; the state that pointer refers to is passed alongside the
connection. -/
structure ClientConnection where
  client_fd : Int
  upstream_fd : Int
  client_buf : List Byte
  upstream_buf : List Byte
  handshake_done : Bool
deriving DecidableEq, Repr

/-- The fields of `DiscordIpcState` (discord-ipc.h) other than the event source.
`presence_by_pid = none` is the `NULL` table and `connections = none` the `NULL` array; an
element of the array is identified with the connection it points to. -/
structure DiscordIpcState where
  ipc_path : Option String := none
  real_ipc_path : Option String := none
  upstream_active : Bool := false
  server_fd : Int := 0
  presence_by_pid : Option GHashTable := none
  connections : Option (List ClientConnection) := none
  active : Bool := false
deriving DecidableEq, Repr

/-- Embedding of `discord_presence_store (state, pid, rp_state, rp_details)`; `now` is the
value of `g_get_monotonic_time ()`. `g_strdup` copies a string and keeps `NULL`; `(gint) pid`
is `pid` itself, `pid_t` being `int`. -/
def discord_presence_store (state : DiscordIpcState) (pid : Int)
    (rp_state rp_details : Option String) (now : Int) : DiscordIpcState :=
  match state.presence_by_pid with
  | none => state
  | some table =>
    if pid ≤ 0 then state
    else
      let entry : RichPresenceEntry :=
        { state := rp_state, details := rp_details, pid := pid, last_updated := now }
      { state with presence_by_pid := some (g_hash_table_insert table pid entry) }

/-- Embedding of `discord_ipc_lookup_pid (state, pid)`; `state = none` is the `NULL`
pointer and the result `none` is `NULL`. -/
def discord_ipc_lookup_pid (state : Option DiscordIpcState) (pid : Int) :
    Option RichPresenceEntry :=
  match state with
  | none => none
  | some st =>
    match st.presence_by_pid with
    | none => none
    | some table => if pid ≤ 0 then none else g_hash_table_lookup table pid

/-- The process id read from the `args` object: `args.pid` converted to `pid_t`, 0 when
`args` has no `pid` member. -/
def args_pid (args : JsonObject) : Int :=
  if json_object_has_member args "pid" then to_pid_t (json_object_get_int_member args "pid")
  else 0

/-- The text read from member `name` of the `activity` object: present only if the member
is a non-empty string. -/
def activity_text (act : JsonObject) (name : String) : Option String :=
  match json_object_get_member act name with
  | some (JsonNode.string s) => if s = "" then none else some s
  | _ => none



/-- The text found at `args.activity.<name>` of the root object `obj`: present only if `args`
and `args.activity` are objects and the member is a non-empty string. -/
def args_activity_text (obj : JsonObject) (name : String) : Option String :=
  match json_object_get_member obj "args" with
  | some (JsonNode.object args) =>
    match json_object_get_member args "activity" with
    | some (JsonNode.object act) => activity_text act name
    | _ => none
  | _ => none

/-- The bytes of an ASCII text. -/
def ascii (s : String) : List Byte := s.toList.map (fun c => Fin.ofNat c.toNat)

/-- The complete frame with opcode `O` and payload bytes `P`: little-endian opcode,
little-endian payload length, payload. -/
def frame (O : Nat) (P : List Byte) : List Byte :=
  write_le32 O ++ write_le32 P.length ++ P

/-- One call `discord_presence_store (state, pid, rp_state, rp_details)`, with the value `now`
that `g_get_monotonic_time ()` returns in it. -/
structure StoreCall where
  pid : Int
  rp_state : Option String
  rp_details : Option String
  now : Int
deriving DecidableEq, Repr

/-- The state after a sequence of `discord_presence_store` calls, made in order. -/
def run_presence_stores (state : DiscordIpcState) (calls : List StoreCall) : DiscordIpcState :=
  calls.foldl (fun st c => discord_presence_store st c.pid c.rp_state c.rp_details c.now) state

/-- The JSON text of the synthetic reply built by `discord_build_ready_response`. -/
def ready_json : List Byte :=
  ascii "\x7b\"cmd\":\"DISPATCH\",\"evt\":\"READY\",\"data\":\x7b\"v\":1,\"user\":\x7b\"id\":\"1\",\"username\":\"Proxy\",\"discriminator\":\"0\"\x7d\x7d\x7d"

/-- Embedding of `discord_build_ready_response (out, out_len)`: the bytes written to `*out`
and the value of `*out_len`. `total` is a `gsize` sum; the length stored in the header is
`(guint32) json_len`. -/
def discord_build_ready_response : List Byte × Nat :=
  let json := ready_json
  let json_len := strlen json
  let total := DISCORD_HEADER_SIZE + json_len
  (write_le32 (DISCORD_OP_FRAME % 2 ^ 32) ++ write_le32 (json_len % 2 ^ 32)
    ++ json.take json_len, total)

/-- What `process_client_buffer` works on: the connection, the proxy state `conn->ipc_state`
points to, and the record of the calls made so far: the buffers handed to `send` on
`client_fd` and on `upstream_fd`, in order, and the number of `g_get_monotonic_time` calls. -/
structure ConnWorld where
  conn : ClientConnection
  ipc_state : DiscordIpcState
  client_sent : List (List Byte)
  upstream_sent : List (List Byte)
  time_calls : Nat
deriving DecidableEq, Repr

/-- The "Intercept SET_ACTIVITY" block of `process_client_buffer` for the decoded `opcode`
and `json`: `discord_extract_activity` and, when it succeeds, `discord_presence_store`.
`g_get_monotonic_time n` is the value of the `n`-th reading of the clock, read by
`discord_presence_store` only when it inserts. The initial values of `pid`, `rp_state` and
`rp_details` are immaterial: they are used only after a successful extraction. -/
def intercept_set_activity (json_parser_load_from_data : List Byte → Option (Option JsonNode))
    (g_get_monotonic_time : Nat → Int) (opcode : Nat) (json : Option (List Byte))
    (w : ConnWorld) : ConnWorld :=
  if opcode = DISCORD_OP_FRAME ∧ json.isSome then
    match discord_extract_activity json_parser_load_from_data json
        { pid := 0, state := none, details := none } with
    | (true, act) =>
      { w with
        ipc_state := discord_presence_store w.ipc_state act.pid act.state act.details
          (g_get_monotonic_time w.time_calls)
        time_calls :=
          if w.ipc_state.presence_by_pid.isSome ∧ 0 < act.pid then w.time_calls + 1
          else w.time_calls }
    | (false, _) => w
  else w

/-- The "Handle handshake in passive mode" block of `process_client_buffer` for the decoded
`opcode`. -/
def answer_handshake (opcode : Nat) (w : ConnWorld) : ConnWorld :=
  if opcode = DISCORD_OP_HANDSHAKE ∧ w.ipc_state.upstream_active = false
      ∧ w.conn.handshake_done = false then
    { w with
      client_sent :=
        if 0 ≤ w.conn.client_fd then
          w.client_sent ++ [discord_build_ready_response.1.take discord_build_ready_response.2]
        else w.client_sent
      conn := { w.conn with handshake_done := true } }
  else w

/-- One turn of the `while` loop of `process_client_buffer`: `none` when the loop ends (fewer
than 8 bytes buffered, or `discord_parse_frame` reports an incomplete frame), otherwise the
world after the body: handshake reply, interception, forwarding of the first `consumed`
bytes when `upstream_fd >= 0`, and `g_byte_array_remove_range (client_buf, 0, consumed)`. -/
def process_client_frame (json_parser_load_from_data : List Byte → Option (Option JsonNode))
    (g_get_monotonic_time : Nat → Int) (w : ConnWorld) : Option ConnWorld :=
  if w.conn.client_buf.length < DISCORD_HEADER_SIZE then none
  else
    match discord_parse_frame w.conn.client_buf w.conn.client_buf.length true true
        { opcode := 0, json_out := none, consumed := 0 } with
    | (false, _) => none
    | (true, out) =>
      let w1 := answer_handshake out.opcode w
      let w2 := intercept_set_activity json_parser_load_from_data g_get_monotonic_time
        out.opcode out.json_out w1
      let w3 : ConnWorld :=
        if 0 ≤ w2.conn.upstream_fd then
          { w2 with upstream_sent := w2.upstream_sent ++ [w2.conn.client_buf.take out.consumed] }
        else w2
      some { w3 with conn := { w3.conn with client_buf := w3.conn.client_buf.drop out.consumed } }

/-- Embedding of `process_client_buffer (conn)`: the world when the loop ends, `none` when
it has not ended after `fuel` turns. -/
def process_client_buffer (json_parser_load_from_data : List Byte → Option (Option JsonNode))
    (g_get_monotonic_time : Nat → Int) : Nat → ConnWorld → Option ConnWorld
  | 0, _ => none
  | fuel + 1, w =>
    match process_client_frame json_parser_load_from_data g_get_monotonic_time w with
    | none => some w
    | some w1 => process_client_buffer json_parser_load_from_data g_get_monotonic_time fuel w1

/-- Embedding of `on_server_accept (fd, cond, state)`: the state and the connection it
creates, `none` when it creates none. `cond_error` says whether `cond` has `G_IO_HUP`,
`G_IO_ERR` or `G_IO_NVAL`; `accept_result`, `socket_result` and `connect_ok` are the results
of `accept`, of `socket` and of `connect` for the upstream dial. The event sources and the
returned `gboolean` are not part of the model. -/
def on_server_accept (state : DiscordIpcState) (cond_error : Bool) (accept_result : Int)
    (socket_result : Int) (connect_ok : Bool) : DiscordIpcState × Option ClientConnection :=
  if cond_error then (state, none)
  else if accept_result < 0 then (state, none)
  else
    let conn : ClientConnection :=
      { client_fd := accept_result, upstream_fd := -1, client_buf := [], upstream_buf := [],
        handshake_done := false }
    let conn1 : ClientConnection :=
      if state.upstream_active = true ∧ state.real_ipc_path.isSome then
        if 0 ≤ socket_result then
          if connect_ok then { conn with upstream_fd := socket_result } else conn
        else conn
      else conn
    ({ state with connections := state.connections.map (fun cs => cs ++ [conn1]) }, some conn1)

/-- The worlds a connection can be in after it started in `w0`: any number of steps, each the
arrival of bytes from the client (`g_byte_array_append` in `on_client_data`), one turn of the
loop of `process_client_buffer`, or a change of the presence table made on behalf of another
connection. The arrival of bytes is allowed between any two turns, which covers every real
schedule. -/
inductive ConnReach (json_parser_load_from_data : List Byte → Option (Option JsonNode))
    (g_get_monotonic_time : Nat → Int) (w0 : ConnWorld) : ConnWorld → Prop where
  | start : ConnReach json_parser_load_from_data g_get_monotonic_time w0 w0
  | recv (w : ConnWorld) (chunk : List Byte) :
      ConnReach json_parser_load_from_data g_get_monotonic_time w0 w →
      ConnReach json_parser_load_from_data g_get_monotonic_time w0
        { w with conn := { w.conn with client_buf := w.conn.client_buf ++ chunk } }
  | turn (w w1 : ConnWorld) :
      ConnReach json_parser_load_from_data g_get_monotonic_time w0 w →
      process_client_frame json_parser_load_from_data g_get_monotonic_time w = some w1 →
      ConnReach json_parser_load_from_data g_get_monotonic_time w0 w1
  | others (w : ConnWorld) (table : Option GHashTable) (time_calls : Nat) :
      ConnReach json_parser_load_from_data g_get_monotonic_time w0 w →
      ConnReach json_parser_load_from_data g_get_monotonic_time w0
        { w with ipc_state := { w.ipc_state with presence_by_pid := table },
                 time_calls := time_calls }

/-- The frames `fs`, each an opcode and a payload, laid end to end. -/
def encode_frames (fs : List (Nat × List Byte)) : List Byte :=
  (fs.map (fun f => frame f.1 f.2)).flatten

/-- The presence update carried by the frame `f`: the outputs of `discord_extract_activity`
on its payload read as a C string when the opcode is `FRAME` and the extraction succeeds. -/
def frame_activity (json_parser_load_from_data : List Byte → Option (Option JsonNode))
    (f : Nat × List Byte) : Option ActivityOut :=
  if f.1 = DISCORD_OP_FRAME then
    match discord_extract_activity json_parser_load_from_data (some (cstr f.2))
        { pid := 0, state := none, details := none } with
    | (true, act) => some act
    | (false, _) => none
  else none

/-- The world after the loop body has handled the complete frame `f` found at the head of the
client buffer, `rest` being the bytes that follow it: reply to a handshake, interception,
forwarding of the frame's bytes, removal of the frame from the buffer. -/
def frame_turn (json_parser_load_from_data : List Byte → Option (Option JsonNode))
    (g_get_monotonic_time : Nat → Int) (w : ConnWorld) (f : Nat × List Byte)
    (rest : List Byte) : ConnWorld :=
  let w2 := intercept_set_activity json_parser_load_from_data g_get_monotonic_time f.1
    (some (cstr f.2)) (answer_handshake f.1 w)
  { w2 with
    conn := { w2.conn with client_buf := rest }
    upstream_sent :=
      if 0 ≤ w2.conn.upstream_fd then w2.upstream_sent ++ [frame f.1 f.2] else w2.upstream_sent }

/-- The world after the complete frames `fs` have been handled one after the other, `rest`
being the bytes that follow the last of them. -/
def run_frames (json_parser_load_from_data : List Byte → Option (Option JsonNode))
    (g_get_monotonic_time : Nat → Int) :
    ConnWorld → List (Nat × List Byte) → List Byte → ConnWorld
  | w, [], rest => { w with conn := { w.conn with client_buf := rest } }
  | w, f :: fs, rest =>
    run_frames json_parser_load_from_data g_get_monotonic_time
      (frame_turn json_parser_load_from_data g_get_monotonic_time w f (encode_frames fs ++ rest))
      fs rest

/-- Who created a socket file of the runtime directory. -/
inductive SocketOwner where
  | service
  | proxy
deriving DecidableEq, Repr

/-- A socket file: its creator and whether a process is listening on it, that is whether
`connect` to it succeeds. -/
structure SocketFile where
  owner : SocketOwner
  listening : Bool
deriving DecidableEq, Repr

/-- A call that changes the files. -/
inductive FsCall where
  | unlink (path : String)
  | rename (src dst : String)
  | bind (path : String)
deriving DecidableEq, Repr

/-- The files of the runtime directory, by path, and the calls made on them so far, in
order. -/
structure FileSystem where
  files : String → Option SocketFile
  calls : List FsCall

/-- The library call `g_file_test (path, G_FILE_TEST_EXISTS)`. -/
def g_file_test_exists (fs : FileSystem) (path : String) : Bool := (fs.files path).isSome

/-- The system call `unlink (path)`. -/
def fs_unlink (fs : FileSystem) (path : String) : FileSystem :=
  { files := fun q => if q = path then none else fs.files q
    calls := fs.calls ++ [FsCall.unlink path] }

/-- The system call `rename (src, dst)`: it fails and changes nothing when `src` does not
exist, otherwise the file is at `dst` afterwards, in place of whatever was there. -/
def fs_rename (fs : FileSystem) (src dst : String) : FileSystem :=
  match fs.files src with
  | none => { fs with calls := fs.calls ++ [FsCall.rename src dst] }
  | some f =>
    { files := fun q => if q = dst then some f else if q = src then none else fs.files q
      calls := fs.calls ++ [FsCall.rename src dst] }

/-- The system call `bind` of a fresh socket to `path`; `ok` is false when it fails for a
reason of its own, and it also fails when the path is taken. On success the socket file
exists, with nobody listening yet. -/
def fs_bind (fs : FileSystem) (path : String) (ok : Bool) : Bool × FileSystem :=
  if ok = true ∧ fs.files path = none then
    (true,
      { files := fun q =>
          if q = path then some { owner := SocketOwner.proxy, listening := false }
          else fs.files q
        calls := fs.calls ++ [FsCall.bind path] })
  else (false, fs)

/-- The effect of a successful `listen` on the socket bound to `path`. -/
def fs_listen (fs : FileSystem) (path : String) : FileSystem :=
  { fs with
    files := fun q =>
      if q = path then (fs.files path).map (fun f => { f with listening := true })
      else fs.files q }

/-- Embedding of `is_discord_socket_alive (path)`; `probe_socket_fd` is the result of its
`socket` call and `path = none` is the `NULL` pointer. -/
def is_discord_socket_alive (fs : FileSystem) (probe_socket_fd : Int) (path : Option String) :
    Bool :=
  match path with
  | none => false
  | some p =>
    match fs.files p with
    | none => false
    | some f => if probe_socket_fd < 0 then false else f.listening

/-- The library call `g_build_filename (dir, name, NULL)` for a directory without trailing
separator. -/
def g_build_filename (dir name : String) : String := dir ++ "/" ++ name

/-- What the environment answers during `discord_ipc_setup`: the value of `XDG_RUNTIME_DIR`,
the user id, the result of `socket` in the liveness probe, whether the hijacking `rename`
succeeds, the result of `socket` for the listening socket, and whether `bind` and `listen`
succeed. -/
structure SetupEnv where
  xdg_runtime_dir : Option String
  uid : Nat
  probe_socket_fd : Int
  hijack_rename_ok : Bool
  server_socket_fd : Int
  bind_ok : Bool
  listen_ok : Bool
deriving DecidableEq, Repr

/-- The `fail:` block of `discord_ipc_setup`. -/
def setup_fail (state : DiscordIpcState) (ipc_path real_ipc_path : String) (fs : FileSystem) :
    Bool × DiscordIpcState × FileSystem :=
  let fs1 :=
    if state.upstream_active = true ∧ g_file_test_exists fs real_ipc_path = true then
      if g_file_test_exists fs ipc_path = false then fs_rename fs real_ipc_path ipc_path
      else fs
    else fs
  let state1 := if 0 ≤ state.server_fd then { state with server_fd := -1 } else state
  (false, state1, fs1)

/-- The part of `discord_ipc_setup` from "Create our listening socket" to the end. The event
source and the `O_NONBLOCK` flag are not part of the model. -/
def setup_listen (env : SetupEnv) (state : DiscordIpcState) (ipc_path real_ipc_path : String)
    (fs : FileSystem) : Bool × DiscordIpcState × FileSystem :=
  let state1 := { state with server_fd := env.server_socket_fd }
  if env.server_socket_fd < 0 then setup_fail state1 ipc_path real_ipc_path fs
  else
    match fs_bind fs ipc_path env.bind_ok with
    | (false, fs2) => setup_fail state1 ipc_path real_ipc_path fs2
    | (true, fs2) =>
      if env.listen_ok = false then setup_fail state1 ipc_path real_ipc_path fs2
      else (true, { state1 with active := true }, fs_listen fs2 ipc_path)

/-- The directory of the two socket paths: `XDG_RUNTIME_DIR`, or `/run/user/<uid>` when it is
not set. -/
def runtime_dir (env : SetupEnv) : String :=
  match env.xdg_runtime_dir with
  | some d => d
  | none => "/run/user/" ++ toString env.uid

/-- The part of `discord_ipc_setup` that follows the computation of `ipc_path` and
`real_ipc_path`: creation of the table and of the connection array, crash recovery, liveness
check with hijacking or removal of a stale file, then the listening socket. -/
def setup_at (env : SetupEnv) (ipc_path real_ipc_path : String) (fs : FileSystem) :
    Bool × DiscordIpcState × FileSystem :=
  let state0 : DiscordIpcState :=
    { ipc_path := some ipc_path, real_ipc_path := some real_ipc_path, upstream_active := false,
      server_fd := -1, presence_by_pid := some [], connections := some [], active := false }
  let fs1 :=
    if g_file_test_exists fs real_ipc_path = true then
      fs_rename
        (if g_file_test_exists fs ipc_path = true then fs_unlink fs ipc_path else fs)
        real_ipc_path ipc_path
    else fs
  if g_file_test_exists fs1 ipc_path = true then
    if is_discord_socket_alive fs1 env.probe_socket_fd (some ipc_path) = true then
      if env.hijack_rename_ok = true then
        setup_listen env { state0 with upstream_active := true } ipc_path real_ipc_path
          (fs_rename fs1 ipc_path real_ipc_path)
      else setup_fail state0 ipc_path real_ipc_path fs1
    else setup_listen env state0 ipc_path real_ipc_path (fs_unlink fs1 ipc_path)
  else setup_listen env state0 ipc_path real_ipc_path fs1

/-- Embedding of `discord_ipc_setup (state)`: the returned `gboolean`, the state it leaves in
`*state` and the files afterwards. -/
def discord_ipc_setup (env : SetupEnv) (fs : FileSystem) : Bool × DiscordIpcState × FileSystem :=
  setup_at env (g_build_filename (runtime_dir env) "discord-ipc-0")
    (g_build_filename (runtime_dir env) "discord-ipc-original") fs

/-- Embedding of `close_connection (conn)` for a connection of `state`: the state without
the connection in its array, and the descriptors closed. `conn = none` is the `NULL`
pointer. -/
def close_connection (state : DiscordIpcState) (conn : Option ClientConnection) :
    DiscordIpcState × List Int :=
  match conn with
  | none => (state, [])
  | some c =>
    ({ state with connections := state.connections.map (fun cs => cs.erase c) },
      (if 0 ≤ c.client_fd then [c.client_fd] else [])
        ++ (if 0 ≤ c.upstream_fd then [c.upstream_fd] else []))

/-- The loop `while (state->connections->len > 0) close_connection (index 0)` of
`discord_ipc_cleanup`, for at most `fuel` turns; `closed` collects the descriptors closed. -/
def close_all_connections : Nat → DiscordIpcState → List Int → DiscordIpcState × List Int
  | 0, state, closed => (state, closed)
  | fuel + 1, state, closed =>
    match state.connections with
    | some (c :: _) =>
      close_all_connections fuel (close_connection state (some c)).1
        (closed ++ (close_connection state (some c)).2)
    | _ => (state, closed)

/-- Embedding of `discord_ipc_cleanup (state)`: the state, the files and the descriptors
closed. `state = none` is the `NULL` pointer. The loop over the connections is given one turn
per connection. -/
def discord_ipc_cleanup (state : Option DiscordIpcState) (fs : FileSystem) :
    Option DiscordIpcState × FileSystem × List Int :=
  match state with
  | none => (none, fs, [])
  | some st =>
    let st1 := { st with active := false }
    let r : DiscordIpcState × List Int :=
      match st1.connections with
      | some cs =>
        ({ (close_all_connections cs.length st1 []).1 with connections := none },
          (close_all_connections cs.length st1 []).2)
      | none => (st1, [])
    let closed := if 0 ≤ r.1.server_fd then r.2 ++ [r.1.server_fd] else r.2
    let st2 := if 0 ≤ r.1.server_fd then { r.1 with server_fd := -1 } else r.1
    let fs1 :=
      match st2.ipc_path with
      | some p => if g_file_test_exists fs p = true then fs_unlink fs p else fs
      | none => fs
    let fs2 :=
      match st2.real_ipc_path with
      | some q =>
        if g_file_test_exists fs1 q = true then
          match st2.ipc_path with
          | some p => fs_rename fs1 q p
          | none => fs1
        else fs1
      | none => fs1
    (some { st2 with presence_by_pid := none, ipc_path := none, real_ipc_path := none },
      fs2, closed)

/-- An environment in which every call of `discord_ipc_setup` succeeds, with
`XDG_RUNTIME_DIR=/run/user/1000`. -/
def sample_env : SetupEnv :=
  { xdg_runtime_dir := some "/run/user/1000", uid := 1000, probe_socket_fd := 3,
    hijack_rename_ok := true, server_socket_fd := 3, bind_ok := true, listen_ok := true }

/-- A runtime directory in which the real service listens at the canonical path and nothing
else exists. -/
def sample_fs : FileSystem :=
  { files := fun r =>
      if r = "/run/user/1000/discord-ipc-0" then
        some { owner := SocketOwner.service, listening := true }
      else none
    calls := [] }

/-- Embedding of `on_client_data (fd, cond, conn)`. `cond_error` says whether `cond` has
`G_IO_HUP`, `G_IO_ERR` or `G_IO_NVAL`; `recv_result` is the value `recv` returns and
`recv_buf` the contents of the local buffer afterwards. The result is the returned
`gboolean` (`G_SOURCE_CONTINUE` is `true`) and the world afterwards, `none` when
`process_client_buffer` has not returned after `fuel` turns. On the closing paths the world
is the one in which `close_connection` has removed the connection from the array. -/
def on_client_data (json_parser_load_from_data : List Byte → Option (Option JsonNode))
    (g_get_monotonic_time : Nat → Int) (fuel : Nat) (cond_error : Bool) (recv_result : Int)
    (recv_buf : List Byte) (w : ConnWorld) : Option (Bool × ConnWorld) :=
  if cond_error then
    some (false, { w with ipc_state := (close_connection w.ipc_state (some w.conn)).1 })
  else if recv_result ≤ 0 then
    some (false, { w with ipc_state := (close_connection w.ipc_state (some w.conn)).1 })
  else
    match process_client_buffer json_parser_load_from_data g_get_monotonic_time fuel
        { w with conn := { w.conn with
            client_buf := w.conn.client_buf ++ recv_buf.take recv_result.toNat } } with
    | none => none
    | some w1 => some (true, w1)

/-- The client's bytes arriving in the successive reads `chunks`: `on_client_data` is called
once per chunk, `recv` returning the chunk, as long as the source stays installed. -/
def client_reads (json_parser_load_from_data : List Byte → Option (Option JsonNode))
    (g_get_monotonic_time : Nat → Int) (fuel : Nat) :
    List (List Byte) → ConnWorld → Option (Bool × ConnWorld)
  | [], w => some (true, w)
  | c :: cs, w =>
    match on_client_data json_parser_load_from_data g_get_monotonic_time fuel false c.length c
        w with
    | some (true, w1) =>
      client_reads json_parser_load_from_data g_get_monotonic_time fuel cs w1
    | r => r

/-- The text of the `SET_ACTIVITY` command of process 7 with state `Testing`. -/
def sample_command : List Byte :=
  ascii "\x7b\"cmd\":\"SET_ACTIVITY\",\"args\":\x7b\"pid\":7,\"activity\":\x7b\"state\":\"Testing\"\x7d\x7d\x7d"

/-- The members of the root object of the JSON text `sample_command`. -/
def sample_command_root : JsonObject :=
  [("cmd", JsonNode.string "SET_ACTIVITY"),
   ("args", JsonNode.object
     [("pid", JsonNode.int 7),
      ("activity", JsonNode.object [("state", JsonNode.string "Testing")])])]

/-- A connection in passive mode on descriptor 4, without upstream, that has not yet seen a
handshake: `buf` is buffered from the client, the presence table is `table` and the clock has
been read `time_calls` times. -/
def passive_world (buf : List Byte) (table : GHashTable) (time_calls : Nat) : ConnWorld :=
  { conn := { client_fd := 4, upstream_fd := -1, client_buf := buf, upstream_buf := [],
              handshake_done := false },
    ipc_state := { presence_by_pid := some table, connections := some [] },
    client_sent := [], upstream_sent := [], time_calls := time_calls }

/-! ### The activity log and its report (tracker-core.c) -/

/-- The decimal digits of `n`, most significant first, as `printf` writes them; `fuel` bounds
the number of digits and `n + 1` is always enough. -/
def dec_digits : Nat → Nat → List Byte
  | 0, _ => []
  | fuel + 1, n =>
    if n < 10 then [Fin.ofNat (48 + n)]
    else dec_digits fuel (n / 10) ++ [Fin.ofNat (48 + n % 10)]

/-- The characters `printf` writes for the conversion `%ld`. -/
def printf_ld (v : Int) : List Byte :=
  if v < 0 then 45 :: dec_digits (v.natAbs + 1) v.natAbs
  else dec_digits (v.natAbs + 1) v.natAbs

/-- The characters `printf` writes for `%*ld` with the field width `width`: the number,
preceded by spaces when it is shorter than the field. A field width is a minimum. -/
def printf_ld_width (width : Nat) (v : Int) : List Byte :=
  List.replicate (width - (printf_ld v).length) 32 ++ printf_ld v

/-- The characters `printf` writes for `%02ld`: the number, with zeros between the sign and
the digits when it is shorter than two characters. -/
def printf_02ld (v : Int) : List Byte :=
  if v < 0 then
    45 :: (List.replicate (2 - (printf_ld v).length) 48 ++ dec_digits (v.natAbs + 1) v.natAbs)
  else List.replicate (2 - (printf_ld v).length) 48 ++ printf_ld v

/-- The constant `DURATION_WIDTH` (tracker-core.c). -/
def DURATION_WIDTH : Nat := 11

/-- Embedding of `format_duration (seconds)` (tracker-core.c): the string it returns. `long`
values are integers; `/` and `%` of C truncate toward zero. -/
def format_duration (seconds : Int) : List Byte :=
  let seconds := if seconds < 0 then 0 else seconds
  let h := seconds.tdiv 3600
  let m := (seconds.tmod 3600).tdiv 60
  let s := seconds.tmod 60
  if h > 0 then
    printf_ld_width (DURATION_WIDTH - 9) h ++ ascii "h " ++ printf_02ld m ++ ascii "m "
      ++ printf_02ld s ++ ascii "s"
  else if m > 0 then
    printf_ld_width (DURATION_WIDTH - 5) m ++ ascii "m " ++ printf_02ld s ++ ascii "s"
  else printf_ld_width (DURATION_WIDTH - 1) s ++ ascii "s"

/-- The two decimal digits of a number below 100, with a leading zero below 10. -/
def two_digits (n : Nat) : List Byte := [Fin.ofNat (48 + n / 10), Fin.ofNat (48 + n % 10)]

/-- A number below 100 right-aligned in two columns: a space and one digit below 10. -/
def right_aligned_two (n : Nat) : List Byte :=
  if n < 10 then [32, Fin.ofNat (48 + n)] else two_digits n

/-- The loop of `csv_escape_to_buffer` from the pointer `p` on: every byte before the
terminating NUL is appended to `buf`, a double quote preceded by another one. -/
def csv_escape_loop : List Byte → List Byte → List Byte
  | buf, [] => buf
  | buf, c :: p =>
    if c = 0 then buf
    else csv_escape_loop ((if c = 34 then buf ++ [34] else buf) ++ [c]) p

/-- Embedding of `csv_escape_to_buffer (buf, field)` (tracker-core.c): the contents of the
`GString` afterwards. -/
def csv_escape_to_buffer (buf field : List Byte) : List Byte :=
  csv_escape_loop (buf ++ [34]) field ++ [34]

/-- The text `f` with every double quote doubled. -/
def double_quotes : List Byte → List Byte
  | [] => []
  | c :: f => if c = 34 then 34 :: 34 :: double_quotes f else c :: double_quotes f

/-- The quoted branch of `extract_csv_field` (tracker-core.c), started on the bytes that
follow the opening quote: the field collected and the number of bytes the index `i` has
advanced when the loop is left. The end of the list is the terminating NUL. -/
def read_quoted_field : List Byte → List Byte × Nat
  | [] => ([], 0)
  | c :: rest =>
    if c = 0 then ([], 0)
    else if c = 34 then
      match rest with
      | d :: rest2 =>
        if d = 34 then (34 :: (read_quoted_field rest2).1, (read_quoted_field rest2).2 + 2)
        else ([], 1)
      | [] => ([], 1)
    else (c :: (read_quoted_field rest).1, (read_quoted_field rest).2 + 1)

/-- The unquoted branch of `extract_csv_field`: the bytes before the first comma, line feed,
carriage return or NUL. -/
def read_plain_field (s : List Byte) : List Byte :=
  s.takeWhile (fun c => c ≠ 0 ∧ c ≠ 44 ∧ c ≠ 10 ∧ c ≠ 13)

/-- Embedding of `extract_csv_field (line, &pos)` (tracker-core.c): the field it returns and
the value it leaves in `*pos`. -/
def extract_csv_field (line : List Byte) (pos : Nat) : List Byte × Nat :=
  let r : List Byte × Nat :=
    if byteAt line pos = 34 then
      ((read_quoted_field (line.drop (pos + 1))).1,
        pos + 1 + (read_quoted_field (line.drop (pos + 1))).2)
    else (read_plain_field (line.drop pos), pos + (read_plain_field (line.drop pos)).length)
  (r.1, if byteAt line r.2 = 44 then r.2 + 1 else r.2)

/-- The library function `isspace` in the C locale. -/
def isspace (c : Byte) : Bool := c = 32 || (9 ≤ c.val && c.val ≤ 13)

/-- The library function `isdigit`. -/
def isdigit (c : Byte) : Bool := 48 ≤ c.val && c.val ≤ 57

/-- The largest value of a `long` (LP64). -/
def LONG_MAX : Int := 2 ^ 63 - 1

/-- The smallest value of a `long` (LP64). -/
def LONG_MIN : Int := -2 ^ 63

/-- The library function `strtol (nptr, &endptr, 10)`: the value returned and the offset of
`endptr` from `nptr`. White space is skipped, an optional sign and the decimal digits are
read; without a digit the value is 0 and `endptr` is `nptr`; a value outside the range of
`long` is replaced by the nearest bound. -/
def strtol (nptr : List Byte) : Int × Nat :=
  let ws := (nptr.takeWhile isspace).length
  let s1 := nptr.drop ws
  let sgn := if s1.head? = some 45 ∨ s1.head? = some 43 then 1 else 0
  let digits := (s1.drop sgn).takeWhile isdigit
  if digits = [] then (0, 0)
  else
    let v : Int := digits.foldl (fun a d => 10 * a + ((d.val : Int) - 48)) 0
    let v1 : Int := if s1.head? = some 45 then -v else v
    (if v1 > LONG_MAX then LONG_MAX else if v1 < LONG_MIN then LONG_MIN else v1,
      ws + sgn + digits.length)

/-- The values `parse_csv_line` stores through its eight output parameters. -/
structure CsvRow where
  timestamp : List Byte
  duration : Int
  status : List Byte
  window_title : List Byte
  wm_class : List Byte
  wm_class_instance : List Byte
  rp_state : List Byte
  rp_details : List Byte
deriving DecidableEq, Repr

/-- Embedding of `parse_csv_line` (tracker-core.c): `none` is the result `FALSE`, with which
no output parameter is written, `some row` the result `TRUE` with the values written.
`line = none` is the `NULL` pointer. -/
def parse_csv_line (line : Option (List Byte)) : Option CsvRow :=
  match line with
  | none => none
  | some line =>
    if byteAt line 0 = 0 then none
    else
      let f_ts := extract_csv_field line 0
      let f_dur := extract_csv_field line f_ts.2
      let f_status := extract_csv_field line f_dur.2
      let f_title := extract_csv_field line f_status.2
      let f_class := extract_csv_field line f_title.2
      let f_instance := extract_csv_field line f_class.2
      let dur := strtol f_dur.1
      if dur.2 = 0 ∨ (byteAt f_dur.1 dur.2 ≠ 0 ∧ byteAt f_dur.1 dur.2 ≠ 10
          ∧ byteAt f_dur.1 dur.2 ≠ 13) then none
      else
        let f_rp_state : Option (List Byte × Nat) :=
          if byteAt line f_instance.2 ≠ 0 then some (extract_csv_field line f_instance.2)
          else none
        let f_rp_details : Option (List Byte × Nat) :=
          match f_rp_state with
          | some r => if byteAt line r.2 ≠ 0 then some (extract_csv_field line r.2) else none
          | none => none
        some
          { timestamp := f_ts.1, duration := dur.1, status := f_status.1,
            window_title := f_title.1, wm_class := f_class.1,
            wm_class_instance := f_instance.1,
            rp_state := match f_rp_state with
              | some r => r.1
              | none => [],
            rp_details := match f_rp_details with
              | some r => r.1
              | none => [] }

/-- The fields of `AppState` (tracker-core.h) that `emit_csv_to_buffer` reads; `none` is the
`NULL` string. -/
structure AppState where
  current_title : Option (List Byte)
  current_wm_class : Option (List Byte)
  current_wm_class_instance : Option (List Byte)
  current_start : Int
  current_wall : Int
  is_locked : Bool
  is_idle : Bool
  current_rp_state : Option (List Byte)
  current_rp_details : Option (List Byte)
deriving DecidableEq, Repr

/-- The constant `G_USEC_PER_SEC` (GLib). -/
def G_USEC_PER_SEC : Int := 1000000

/-- Embedding of `emit_csv_to_buffer (buf, state, now)` (tracker-core.c): the contents of the
`GString` afterwards. `format_iso8601` gives the text written for a wall-clock time, which
depends on the time zone of the process. `gint64` values are integers. -/
def emit_csv_to_buffer (format_iso8601 : Int → List Byte) (buf : List Byte) (state : AppState)
    (now : Int) : List Byte :=
  match state.current_title with
  | none => buf
  | some current_title =>
    let duration_sec := (now - state.current_start).tdiv G_USEC_PER_SEC
    if duration_sec < 1 then buf
    else
      let ts := format_iso8601 state.current_wall
      let away := state.is_locked || state.is_idle
      let title := if away then [] else current_title
      let wm_class := if away then [] else state.current_wm_class.getD []
      let wm_class_instance := if away then [] else state.current_wm_class_instance.getD []
      let status :=
        if state.is_locked then ascii "locked"
        else if state.is_idle then ascii "idle" else ascii "active"
      let rp_state := if away then [] else state.current_rp_state.getD []
      let rp_details := if away then [] else state.current_rp_details.getD []
      let buf1 := buf ++ cstr ts ++ [44] ++ printf_ld duration_sec ++ [44] ++ status ++ [44]
      let buf2 := csv_escape_to_buffer buf1 title ++ [44]
      let buf3 := csv_escape_to_buffer buf2 wm_class ++ [44]
      let buf4 := csv_escape_to_buffer buf3 wm_class_instance ++ [44]
      let buf5 := csv_escape_to_buffer buf4 rp_state ++ [44]
      csv_escape_to_buffer buf5 rp_details ++ [10]

/-- Whether a text can stand as an unquoted CSV field and be read back: it has no NUL, no
double quote, no comma, no line feed and no carriage return. -/
def plain_text (s : List Byte) : Bool :=
  s.all (fun b => b != 0 && b != 34 && b != 44 && b != 10 && b != 13)

/-- The pieces of a text between its line feeds. -/
def split_lines : List Byte → List (List Byte)
  | [] => [[]]
  | c :: rest =>
    if c = 10 then [] :: split_lines rest
    else
      match split_lines rest with
      | p :: ps => (c :: p) :: ps
      | [] => [[c]]

/-- The library call `g_strsplit (string, "\n", -1)`: the pieces of the C string between its
line feeds; the empty string gives no piece at all. -/
def g_strsplit_newline (string : List Byte) : List (List Byte) :=
  if cstr string = [] then [] else split_lines (cstr string)

/-- The fields of `AppStat` (tracker-core.h); the table `titles` is the list of its bindings,
a new key being added at the end. -/
structure AppStat where
  wm_class : List Byte
  total_seconds : Int
  titles : List (List Byte × Int)
deriving DecidableEq, Repr

/-- The fields of `DayStats` (tracker-core.h); `apps` is the array of the records the
pointers refer to. -/
structure DayStats where
  total_active_seconds : Int
  total_locked_seconds : Int
  apps : List AppStat
deriving DecidableEq, Repr

/-- The comparison function `compare_app_stat_desc` (tracker-core.c). -/
def compare_app_stat_desc (sa sb : AppStat) : Int :=
  if sb.total_seconds > sa.total_seconds then 1
  else if sb.total_seconds < sa.total_seconds then -1
  else 0

/-- The key under which `compute_day_stats` counts a row in the table of titles: the rich
presence texts when there are any, otherwise the window title. -/
def display_key (row : CsvRow) : List Byte :=
  if row.rp_state ≠ [] ∧ row.rp_details ≠ [] then row.rp_state ++ ascii " | " ++ row.rp_details
  else if row.rp_state ≠ [] then row.rp_state
  else if row.rp_details ≠ [] then row.rp_details
  else row.window_title

/-- The sum of two `long` values as the machine computes it: the sum of the integers reduced
to 64 bits in two's complement, `(a + b + 2^63) mod 2^64 - 2^63`. It is the sum of the
integers whenever that lies between `LONG_MIN` and `LONG_MAX`; the C standard leaves the
other case undefined. -/
def long_add (a b : Int) : Int :=
  (a + b + 9223372036854775808) % 18446744073709551616 - 9223372036854775808

/-- The update of the table `app->titles` in `compute_day_stats`. -/
def add_title_seconds (titles : List (List Byte × Int)) (key : List Byte) (duration : Int) :
    List (List Byte × Int) :=
  if titles.any (fun e => e.1 = key) then
    titles.map (fun e => if e.1 = key then (e.1, long_add e.2 duration) else e)
  else titles ++ [(key, duration)]

/-- The update of the table `app_map` in `compute_day_stats` for a row that is neither
`locked` nor `idle`: the record of the row's wm_class, created when there is none, gets the
duration added to `total_seconds` and to its table of titles. -/
def add_app_seconds (app_map : List AppStat) (row : CsvRow) : List AppStat :=
  if app_map.any (fun a => a.wm_class = row.wm_class) then
    app_map.map (fun a =>
      if a.wm_class = row.wm_class then
        { a with
          total_seconds := long_add a.total_seconds row.duration
          titles := add_title_seconds a.titles (display_key row) row.duration }
      else a)
  else
    app_map ++ [{ wm_class := row.wm_class, total_seconds := row.duration,
                  titles := [(display_key row, row.duration)] }]

/-- The body of the loop of `compute_day_stats` over the lines: `acc` holds the two totals
and, in `apps`, the records of the table `app_map`. Sums of `long` values are computed by
`long_add`. -/
def day_stats_line (acc : DayStats) (line : List Byte) : DayStats :=
  if byteAt line 0 = 0 then acc
  else
    match parse_csv_line (some line) with
    | none => acc
    | some row =>
      if row.status = ascii "locked" ∨ row.status = ascii "idle" then
        { acc with total_locked_seconds := long_add acc.total_locked_seconds row.duration }
      else
        { acc with
          total_active_seconds := long_add acc.total_active_seconds row.duration
          apps := add_app_seconds acc.apps row }

/-- Embedding of `compute_day_stats (csv_path)` (tracker-core.c). `g_file_get_contents` is
the contents of the file, `none` when it cannot be read, and the result `none` is `NULL`.
`g_hash_table_iter` gives the order in which the iteration over `app_map` yields its
records, which the library leaves open; `g_ptr_array_sort` is a sort by the comparison
function. -/
def compute_day_stats (g_file_get_contents : Option (List Byte))
    (g_hash_table_iter : List AppStat → List AppStat) : Option DayStats :=
  match g_file_get_contents with
  | none => none
  | some contents =>
    let acc := (g_strsplit_newline contents).foldl day_stats_line
      { total_active_seconds := 0, total_locked_seconds := 0, apps := [] }
    some { acc with
           apps := List.insertionSort (fun a b => compare_app_stat_desc a b ≤ 0)
             (g_hash_table_iter acc.apps) }

/-- The rows of a CSV text as `compute_day_stats` reads them: the non-empty lines on which
`parse_csv_line` returns TRUE, in order. -/
def csv_rows (contents : List Byte) : List CsvRow :=
  (g_strsplit_newline contents).filterMap
    (fun line => if byteAt line 0 = 0 then none else parse_csv_line (some line))

/-- Whether a row counts as time away: its status is `locked` or `idle`. -/
def row_is_away (row : CsvRow) : Bool :=
  row.status = ascii "locked" || row.status = ascii "idle"

/-- The sum of the durations of the rows that satisfy `p`. -/
def duration_sum (p : CsvRow → Bool) (rows : List CsvRow) : Int :=
  ((rows.filter p).map (fun r => r.duration)).sum

/-- The sum of the absolute values of the durations of the rows; no sum of durations of some
of the rows is larger in absolute value. -/
def duration_bound (rows : List CsvRow) : Nat := (rows.map (fun r => r.duration.natAbs)).sum

/-- A log of two active rows of the application `A`, each with the duration `LONG_MAX`. -/
def overflow_csv : List Byte :=
  ascii "2026-01-28T10:00:00,9223372036854775807,active,\"t\",\"A\",\"a\"\n"
    ++ ascii "2026-01-28T10:01:00,9223372036854775807,active,\"t\",\"A\",\"a\"\n"

/-- The file of the test `test_compute_day_stats`. -/
def sample_csv : List Byte :=
  ascii "timestamp,duration_seconds,status,window_title,wm_class,wm_class_instance\n"
    ++ ascii "2026-01-28T10:00:00,60,active,\"Tab 1\",\"Firefox\",\"navigator\"\n"
    ++ ascii "2026-01-28T10:01:00,30,active,\"Tab 2\",\"Firefox\",\"navigator\"\n"
    ++ ascii "2026-01-28T10:02:00,120,active,\"Terminal\",\"Gnome-terminal\",\"gnome-terminal\"\n"
    ++ ascii "2026-01-28T10:04:00,45,locked,\"\",\"\",\"\"\n"

/-- A tracking state whose window title holds a line break: title `a`, line feed, `b`, of the
application `App`, started at 0 on the monotonic clock. -/
def two_line_title_state : AppState :=
  { current_title := some (ascii "a\nb"), current_wm_class := some (ascii "App"),
    current_wm_class_instance := some (ascii "app"), current_start := 0,
    current_wall := 1769594400, is_locked := false, is_idle := false,
    current_rp_state := none, current_rp_details := none }

/-- The cast of a value to `int`: reduction to the signed 32-bit range. -/
def to_int (v : Int) : Int := (v + 2147483648) % 4294967296 - 2147483648

/-- The conversion of a value to `guint`: reduction to 32 bits. -/
def to_guint (v : Int) : Nat := (v % 4294967296).toNat

/-- The table `g_utf8_skip` of GLib: the number of bytes of the UTF-8 character that starts
with the byte `b`. -/
def g_utf8_skip (b : Byte) : Nat :=
  if b.val < 192 then 1
  else if b.val < 224 then 2
  else if b.val < 240 then 3
  else if b.val < 248 then 4
  else if b.val < 252 then 5
  else if b.val < 254 then 6
  else 1

/-- The library call `g_utf8_strlen (p, -1)`: the number of steps of `g_utf8_next_char` before
the terminating NUL. `fuel` bounds the number of steps; the number of bytes is enough. A step
that would pass the end of the list stops there. -/
def g_utf8_strlen : Nat → List Byte → Nat
  | 0, _ => 0
  | _ + 1, [] => 0
  | fuel + 1, c :: rest =>
    if c = 0 then 0 else g_utf8_strlen fuel (rest.drop (g_utf8_skip c - 1)) + 1

/-- The number of bytes `g_utf8_offset_to_pointer (str, offset)` advances for
`offset >= 0`: `offset` steps of `g_utf8_next_char`, stopped at the end of the list. -/
def g_utf8_offset_bytes : Nat → List Byte → Nat
  | 0, _ => 0
  | _ + 1, [] => 0
  | offset + 1, c :: rest =>
    g_utf8_skip c + g_utf8_offset_bytes offset (rest.drop (g_utf8_skip c - 1))

/-- The library call `g_utf8_substring (str, 0, end_pos)` for `end_pos >= 0`: the bytes of the
first `end_pos` characters. -/
def g_utf8_substring (str : List Byte) (end_pos : Nat) : List Byte :=
  cstr (str.take (g_utf8_offset_bytes end_pos str))

/-- Embedding of `truncate_label (str, max_chars)` (tracker-core.c): the string returned. The
call of `g_utf8_substring` with `max_chars - 3` is modelled for `max_chars >= 3`, which holds
at every call in this program. -/
def truncate_label (str : List Byte) (max_chars : Int) : List Byte :=
  if to_int (g_utf8_strlen str.length str) ≤ max_chars then cstr str
  else g_utf8_substring str (max_chars - 3).toNat ++ ascii "..."

/-- Embedding of `utf8_field_width (str, desired_columns)` (tracker-core.c): `bytes - chars`
is cast to `int` and the sum is an `int`. -/
def utf8_field_width (str : List Byte) (desired_columns : Int) : Int :=
  to_int (desired_columns
    + to_int ((strlen str : Int) - (g_utf8_strlen str.length str : Int)))

/-- The characters `printf` writes for `%-*s` with the field width `width`: the string,
followed by spaces up to the width counted in bytes; a negative width counts as its absolute
value. -/
def printf_s_left (width : Int) (s : List Byte) : List Byte :=
  cstr s ++ List.replicate (width.natAbs - strlen s) 32

/-- The characters `printf` writes for `%u`. -/
def printf_u (v : Nat) : List Byte := dec_digits (v + 1) v

/-- The characters `printf` writes for `%3u`; the field width is a minimum. -/
def printf_3u (v : Nat) : List Byte :=
  List.replicate (3 - (printf_u v).length) 32 ++ printf_u v

/-- The characters `printf` writes for `%0<width>d`: the number, with zeros between the sign
and the digits when it is shorter than the width. -/
def printf_0d (width : Nat) (v : Int) : List Byte :=
  if v < 0 then
    45 :: (List.replicate (width - (printf_ld v).length) 48
      ++ dec_digits (v.natAbs + 1) v.natAbs)
  else List.replicate (width - (printf_ld v).length) 48 ++ printf_ld v

/-- The fields of `StatsOptions` (tracker-core.h); `grep_pattern = none` is `NULL`. -/
structure StatsOptions where
  top_apps : Int
  top_titles : Int
  grep_pattern : Option (List Byte)
  cols : Int
deriving DecidableEq, Repr

/-- The constant `DEFAULT_COLS` (tracker-core.c). -/
def DEFAULT_COLS : Int := 80

/-- The constant `MIN_COLS` (tracker-core.c). -/
def MIN_COLS : Int := 40

/-- The comparison function `compare_title_entry_desc` (tracker-core.c). -/
def compare_title_entry_desc (ta tb : List Byte × Int) : Int :=
  if tb.2 > ta.2 then 1
  else if tb.2 < ta.2 then -1
  else 0

/-- The local variable `top_apps` of `print_stats_report`; `opts = none` is `NULL`. -/
def stats_top_apps (opts : Option StatsOptions) : Int :=
  match opts with
  | some o => o.top_apps
  | none => 20

/-- The local variable `top_titles` of `print_stats_report`. -/
def stats_top_titles (opts : Option StatsOptions) : Int :=
  match opts with
  | some o => o.top_titles
  | none => 5

/-- The local variable `cols` of `print_stats_report`. -/
def stats_cols (opts : Option StatsOptions) : Int :=
  match opts with
  | some o => if o.cols ≥ MIN_COLS then o.cols else DEFAULT_COLS
  | none => DEFAULT_COLS

/-- The text `fprintf` writes for a format made of `lead` followed by `%-*s %s` and a line
feed, with the field width `utf8_field_width (str, width)`, the string `str` and the duration
of `seconds`. -/
def report_field_line (lead str : List Byte) (width : Int) (seconds : Int) : List Byte :=
  lead ++ printf_s_left (utf8_field_width str width) str ++ [32] ++ format_duration seconds
    ++ [10]

/-- One line of `print_stats_report` for a label and a duration: the label is cut by
`truncate_label` to `width` characters and printed in a field of that width. -/
def report_line (lead label : List Byte) (width : Int) (seconds : Int) : List Byte :=
  report_field_line lead (truncate_label label width) width seconds

/-- The lines `print_stats_report` writes for the sorted array `titles` of one application:
the first `title_display` entries, then the line of the other windows, whose seconds the
loop has summed. The array has fewer than 2^32 entries. -/
def report_titles (label_width : Int) (top_titles : Int) (titles : List (List Byte × Int)) :
    List Byte :=
  let title_count := titles.length
  let title_display := to_guint (min (to_int title_count) top_titles)
  let other_title_seconds :=
    (titles.drop title_display).foldl (fun acc te => long_add acc te.2) 0
  ((titles.take title_display).map
      (fun te => report_line (ascii "       ") te.1 (label_width - 7) te.2)).flatten
    ++ (if title_count > to_guint top_titles then
          report_line (ascii "       ")
            (printf_u (to_guint ((title_count : Int) - (title_display : Int)))
              ++ ascii " other windows")
            (label_width - 7) other_title_seconds
        else [])

/-- The loop of `print_stats_report` over the applications displayed, `i` being the index of
the first of `apps`: per application its numbered line, the lines of its titles and an empty
line. `g_hash_table_iter` gives the order in which the iteration over a table of titles
yields its entries; `g_array_sort` is a sort by the comparison function. -/
def report_apps (label_width : Int) (top_titles : Int)
    (g_hash_table_iter : List (List Byte × Int) → List (List Byte × Int)) :
    Nat → List AppStat → List Byte
  | _, [] => []
  | i, app :: apps =>
    report_line (printf_3u ((i + 1) % 4294967296) ++ ascii ". ") app.wm_class
        (label_width - 5) app.total_seconds
      ++ report_titles label_width top_titles
          (List.insertionSort (fun a b => compare_title_entry_desc a b ≤ 0)
            (g_hash_table_iter app.titles))
      ++ [10]
      ++ report_apps label_width top_titles g_hash_table_iter (i + 1) apps

/-- Embedding of `print_stats_report (out, stats, year, month, day, opts)` (tracker-core.c):
the text written to `out`. `opts = none` is the `NULL` pointer. Sums of `long` values are
computed by `long_add`; the array of applications has fewer than 2^32 entries, and an index
beyond its end reads nothing. -/
def print_stats_report (stats : DayStats) (year month day : Int) (opts : Option StatsOptions)
    (g_hash_table_iter : List (List Byte × Int) → List (List Byte × Int)) : List Byte :=
  let top_apps := stats_top_apps opts
  let top_titles := stats_top_titles opts
  let cols := stats_cols opts
  let label_width : Int := cols - 1 - DURATION_WIDTH
  let total := long_add stats.total_active_seconds stats.total_locked_seconds
  let app_count := stats.apps.length
  let display_count := to_guint (min (to_int app_count) top_apps)
  ascii "Activity Report for " ++ printf_0d 4 year ++ [45] ++ printf_0d 2 month ++ [45]
    ++ printf_0d 2 day ++ [10]
    ++ ascii "Total tracked: " ++ format_duration total ++ [10, 10]
    ++ report_apps label_width top_titles g_hash_table_iter 0 (stats.apps.take display_count)
    ++ (if to_int app_count > top_apps then
          report_line (ascii "  ")
            (printf_u (to_guint ((app_count : Int) - (to_guint top_apps : Int)))
              ++ ascii " other applications")
            (label_width - 2)
            ((stats.apps.drop (to_guint top_apps)).foldl
              (fun acc app => long_add acc app.total_seconds) 0)
          ++ [10]
        else [])
    ++ (if stats.total_locked_seconds > 0 then
          report_field_line [] (ascii "Away") label_width stats.total_locked_seconds
        else [])

/-- The options of a terminal of 40 columns with the default limits. -/
def forty_columns : StatsOptions :=
  { top_apps := 20, top_titles := 5, grep_pattern := none, cols := 40 }

/-- Statistics of two applications and 45 seconds away. -/
def sample_stats : DayStats :=
  { total_active_seconds := 210, total_locked_seconds := 45,
    apps := [{ wm_class := ascii "Gnome-terminal", total_seconds := 120,
               titles := [(ascii "Terminal", 120)] },
             { wm_class := ascii "Firefox", total_seconds := 90,
               titles := [(ascii "Tab 1", 60), (ascii "Tab 2", 30)] }] }

/-- The statistics of the test `test_no_line_overflow`: one application whose wm_class is 80
times `X`, with one title of 120 times `Y`, used for 3661 seconds, and 300 seconds away. -/
def long_label_stats : DayStats :=
  { total_active_seconds := 3661, total_locked_seconds := 300,
    apps := [{ wm_class := List.replicate 80 88, total_seconds := 3661,
               titles := [(List.replicate 120 89, 3661)] }] }

/-- The options of the test `test_no_line_overflow`: the limits 20 and 5, the other fields
zero. -/
def test_options : StatsOptions :=
  { top_apps := 20, top_titles := 5, grep_pattern := none, cols := 0 }

/-! ## Frame codec -/

theorem byteAt_lt (data : List Byte) (i : Nat) : byteAt data i < 256 := by
  unfold byteAt; exact (data.getD i 0).isLt

theorem read_le32_lt (data : List Byte) (off : Nat) : read_le32 data off < 2 ^ 32 := by
  unfold read_le32
  have h0 := byteAt_lt data off
  have h1 := byteAt_lt data (off + 1)
  have h2 := byteAt_lt data (off + 2)
  have h3 := byteAt_lt data (off + 3)
  omega

/-- A buffer shorter than the header is an incomplete frame and nothing is written. -/
theorem parse_frame_short (data : List Byte) (len : Nat) (j c : Bool) (out : FrameOut)
    (h : len < 8) : discord_parse_frame data len j c out = (false, out) := by
  simp [discord_parse_frame, DISCORD_HEADER_SIZE, h]

/-- When `8 + payload_len` does not wrap, a buffer holding fewer bytes than the declared
payload is an incomplete frame and nothing is written. -/
theorem parse_frame_incomplete (data : List Byte) (len : Nat) (j c : Bool) (out : FrameOut)
    (hfit : 8 + read_le32 data 4 < 2 ^ 32) (h : len < 8 + read_le32 data 4) :
    discord_parse_frame data len j c out = (false, out) := by
  unfold discord_parse_frame
  simp only [DISCORD_HEADER_SIZE]
  by_cases h8 : len < 8
  · simp [h8]
  · rw [if_neg h8, Nat.mod_eq_of_lt hfit, if_pos h]

theorem parse_frame_true (data : List Byte) (len : Nat) (j c : Bool) (out : FrameOut)
    (h8 : 8 ≤ len) (h : (8 + read_le32 data 4) % 2 ^ 32 ≤ len) :
    discord_parse_frame data len j c out =
      (true, { opcode := read_le32 data 0
               json_out := if j then some (g_strndup (data.drop 8) (read_le32 data 4)) else out.json_out
               consumed := if c then (8 + read_le32 data 4) % 2 ^ 32 else out.consumed }) := by
  unfold discord_parse_frame
  simp only [DISCORD_HEADER_SIZE]
  rw [if_neg (by omega), if_neg (by omega)]

theorem write_le32_length (v : Nat) : (write_le32 v).length = 4 := rfl

theorem read_write_le32 (v : Nat) (rest : List Byte) (hv : v < 2 ^ 32) :
    read_le32 (write_le32 v ++ rest) 0 = v := by
  simp [read_le32, write_le32, byteAt, Fin.ofNat]
  omega

theorem read_le32_append_four (hd : List Byte) (rest : List Byte) (h : hd.length = 4) :
    read_le32 (hd ++ rest) 4 = read_le32 rest 0 := by
  match hd, h with
  | [a, b, c, d], _ => simp [read_le32, byteAt]

theorem read_le32_cons (a b c d : Byte) (rest : List Byte) :
    read_le32 (a :: b :: c :: d :: rest) 0 = a.val + 256 * b.val + 65536 * c.val + 16777216 * d.val := by
  simp [read_le32, byteAt]

theorem cstr_of_no_nul (P : List Byte) (hP : ∀ b ∈ P, b ≠ 0) : cstr P = P := by
  unfold cstr
  induction P with
  | nil => rfl
  | cons x xs ih =>
    have hx : x ≠ 0 := hP x (List.mem_cons_self x xs)
    have hxs : ∀ b ∈ xs, b ≠ 0 := fun b hb => hP b (List.mem_cons_of_mem x hb)
    rw [List.takeWhile_cons, ih hxs]
    simp [hx]

theorem strlen_of_no_nul (P : List Byte) (hP : ∀ b ∈ P, b ≠ 0) : strlen P = P.length := by
  unfold strlen; rw [cstr_of_no_nul P hP]

theorem g_strndup_exact (P rest : List Byte) (hP : ∀ b ∈ P, b ≠ 0) :
    g_strndup (P ++ rest) P.length = P := by
  unfold g_strndup
  rw [List.take_left']
  · exact cstr_of_no_nul P hP
  · rfl

theorem build_frame_some (O : Nat) (P : List Byte) (hO : O < 2 ^ 32)
    (hP : ∀ b ∈ P, b ≠ 0) (hlen : P.length + 8 < 2 ^ 32) :
    build_frame O (some P) = (write_le32 O ++ write_le32 P.length ++ P, 8 + P.length) := by
  unfold build_frame
  simp only [DISCORD_HEADER_SIZE, strlen_of_no_nul P hP]
  have h1 : P.length % 2 ^ 32 = P.length := Nat.mod_eq_of_lt (by omega)
  have h2 : (8 + P.length) % 2 ^ 32 = 8 + P.length := Nat.mod_eq_of_lt (by omega)
  rw [h1, h2, Nat.mod_eq_of_lt hO, List.take_length]

theorem parse_encoded (O n : Nat) (P T : List Byte) (len : Nat) (out : FrameOut)
    (hO : O < 2 ^ 32) (hn : n + 8 < 2 ^ 32) (hlen : 8 + n ≤ len) :
    discord_parse_frame (write_le32 O ++ write_le32 n ++ P ++ T) len true true out
      = (true, ⟨O, some (g_strndup (P ++ T) n), 8 + n⟩) := by
  simp only [List.append_assoc]
  have hop : read_le32 (write_le32 O ++ (write_le32 n ++ (P ++ T))) 0 = O :=
    read_write_le32 O _ hO
  have hpl : read_le32 (write_le32 O ++ (write_le32 n ++ (P ++ T))) 4 = n := by
    rw [read_le32_append_four _ _ (write_le32_length O)]
    exact read_write_le32 n _ (by omega)
  have hmod : (8 + n) % 2 ^ 32 = 8 + n := Nat.mod_eq_of_lt (by omega)
  have hdrop : List.drop 8 (write_le32 O ++ (write_le32 n ++ (P ++ T))) = P ++ T := by
    simp [write_le32]
  rw [parse_frame_true _ _ _ _ _ (by omega) (by rw [hpl, hmod]; exact hlen), hop, hpl, hmod,
    hdrop]
  simp

/-- On success `*consumed` is `(8 + payload_len) mod 2 ^ 32` and never exceeds `len`; when
`8 + payload_len` does not wrap it is `8 + payload_len`, at least the header size. -/
theorem parse_frame_consumed_le (data : List Byte) (len : Nat) (j : Bool) (out out1 : FrameOut)
    (h : discord_parse_frame data len j true out = (true, out1)) :
    out1.consumed = (8 + read_le32 data 4) % 2 ^ 32 ∧ out1.consumed ≤ len ∧
      (8 + read_le32 data 4 < 2 ^ 32 → out1.consumed = 8 + read_le32 data 4 ∧ 8 ≤ out1.consumed) := by
  unfold discord_parse_frame at h
  simp only [DISCORD_HEADER_SIZE] at h
  by_cases h8 : len < 8
  · rw [if_pos h8] at h; simp at h
  · rw [if_neg h8] at h
    by_cases hc : len < (8 + read_le32 data 4) % 2 ^ 32
    · rw [if_pos hc] at h; simp at h
    · rw [if_neg hc] at h
      have h2 := (Prod.mk.inj h).2
      subst h2
      refine ⟨rfl, ?_, fun hfit => ?_⟩
      · show (8 + read_le32 data 4) % 2 ^ 32 ≤ len
        omega
      · show (8 + read_le32 data 4) % 2 ^ 32 = 8 + read_le32 data 4 ∧
          8 ≤ (8 + read_le32 data 4) % 2 ^ 32
        rw [Nat.mod_eq_of_lt hfit]
        omega

/-- C1: the buffer `00 00 00 00 ff ff ff ff` of length 8 declares a payload of 4294967295
bytes and holds none of them, yet `discord_parse_frame` does not report an incomplete frame:
`8 + payload_len` wraps to 7 in 32-bit arithmetic, the call returns TRUE and writes
`*opcode = 0` and `*consumed = 7`. -/
theorem C1_truncated_frame_accepted_when_length_wraps :
    read_le32 [0, 0, 0, 0, 255, 255, 255, 255] 4 = 4294967295 ∧
    discord_parse_frame [0, 0, 0, 0, 255, 255, 255, 255] 8 false true ⟨77, none, 99⟩
      = (true, ⟨0, none, 7⟩) := by
  decide

/-- C2: on the 12-byte buffer `01 00 00 00 fb ff ff ff 61 62 63 00`, whose length field is
4294967291, `discord_parse_frame` returns TRUE with `*consumed = 3`: the reported count is
not 8 plus the declared payload length and is smaller than the 8-byte header. -/
theorem C2_consumed_below_header_when_length_wraps :
    discord_parse_frame [1, 0, 0, 0, 251, 255, 255, 255, 97, 98, 99, 0] 12 true true ⟨0, none, 0⟩
      = (true, ⟨1, some [97, 98, 99], 3⟩) ∧
    read_le32 [1, 0, 0, 0, 251, 255, 255, 255, 97, 98, 99, 0] 4 = 4294967291 ∧
    (3 : Nat) < DISCORD_HEADER_SIZE := by
  decide

theorem replicate_no_nul (n : Nat) (a : Byte) (ha : a ≠ 0) : ∀ b ∈ List.replicate n a, b ≠ 0 := by
  intro b hb
  rw [List.eq_of_mem_replicate hb]
  exact ha

theorem build_frame_truncated (O : Nat) (P : List Byte) (hP : ∀ b ∈ P, b ≠ 0)
    (hlen : P.length % 2 ^ 32 = 0) :
    build_frame O (some P) = (write_le32 (O % 2 ^ 32) ++ write_le32 0 ++ [], 8) := by
  unfold build_frame
  simp only [DISCORD_HEADER_SIZE, strlen_of_no_nul P hP]
  rw [hlen, List.take_zero]
  rfl

theorem letter_A_ne_zero : (65 : Byte) ≠ 0 := by decide

theorem length_4GiB_mod : (List.replicate 4294967296 (65 : Byte)).length % 2 ^ 32 = 0 := by
  rw [List.length_replicate]
  norm_num

theorem build_frame_4GiB :
    build_frame 1 (some (List.replicate 4294967296 (65 : Byte))) = ([1, 0, 0, 0, 0, 0, 0, 0], 8) := by
  rw [build_frame_truncated 1 _ (replicate_no_nul _ _ letter_A_ne_zero) length_4GiB_mod]
  decide

/-- C3 (amended): for every 32-bit opcode `O` and every payload string `P` (no NUL byte) of
fewer than `2 ^ 32 - 8` bytes, the frame `build_frame` encodes has length `8 + |P|`, and
`discord_parse_frame` on it returns TRUE with opcode `O`, payload `P` and consumed `8 + |P|`;
the frame built from a `NULL` payload decodes to the non-NULL empty string with consumed 8. -/
theorem C3_round_trip (O : Nat) (P : List Byte) (out : FrameOut) (hO : O < 2 ^ 32)
    (hP : ∀ b ∈ P, b ≠ 0) (hlen : P.length + 8 < 2 ^ 32) :
    (build_frame O (some P)).2 = 8 + P.length ∧
    discord_parse_frame (build_frame O (some P)).1 (build_frame O (some P)).2 true true out
      = (true, ⟨O, some P, 8 + P.length⟩) ∧
    discord_parse_frame (build_frame O none).1 (build_frame O none).2 true true out
      = (true, ⟨O, some [], 8⟩) := by
  rw [build_frame_some O P hO hP hlen]
  refine ⟨rfl, ?_, ?_⟩
  · have h := parse_encoded O P.length P [] (8 + P.length) out hO hlen (Nat.le_refl _)
    rw [g_strndup_exact P [] hP, List.append_nil] at h
    exact h
  · have h := parse_encoded O 0 [] [] 8 out hO (by omega) (Nat.le_refl _)
    have hb : build_frame O none = (write_le32 O ++ write_le32 0 ++ [] ++ [], 8) := by
      unfold build_frame
      simp only [DISCORD_HEADER_SIZE]
      rw [Nat.mod_eq_of_lt hO, List.append_nil]
      rfl
    rw [hb]
    exact h

/-- C3 (witness): opcode 0 and the payload `{"v":1}`. -/
theorem C3_round_trip_witness :
    (build_frame 0 (some [123, 34, 118, 34, 58, 49, 125])).2 = 8 + 7 ∧
    discord_parse_frame (build_frame 0 (some [123, 34, 118, 34, 58, 49, 125])).1
        (build_frame 0 (some [123, 34, 118, 34, 58, 49, 125])).2 true true ⟨9, none, 9⟩
      = (true, ⟨0, some [123, 34, 118, 34, 58, 49, 125], 8 + 7⟩) ∧
    discord_parse_frame (build_frame 0 none).1 (build_frame 0 none).2 true true ⟨9, none, 9⟩
      = (true, ⟨0, some [], 8⟩) :=
  C3_round_trip 0 [123, 34, 118, 34, 58, 49, 125] ⟨9, none, 9⟩ (by norm_num) (by simp)
    (by simp)

/-- C3 (counterexample): for opcode 1 and the payload string of 4294967296 letters `A`,
`build_frame` stores the length `(guint32) strlen = 0` and an 8-byte frame; decoding it
yields the empty payload and consumed 8, not the payload and `8 + |P|`. -/
theorem C3_round_trip_fails_for_4GiB_payload :
    discord_parse_frame (build_frame 1 (some (List.replicate 4294967296 (65 : Byte)))).1
        (build_frame 1 (some (List.replicate 4294967296 (65 : Byte)))).2 true true ⟨0, none, 0⟩
      = (true, ⟨1, some [], 8⟩) ∧
    ¬ (discord_parse_frame (build_frame 1 (some (List.replicate 4294967296 (65 : Byte)))).1
        (build_frame 1 (some (List.replicate 4294967296 (65 : Byte)))).2 true true ⟨0, none, 0⟩
      = (true, ⟨1, some (List.replicate 4294967296 (65 : Byte)),
          8 + (List.replicate 4294967296 (65 : Byte)).length⟩)) := by
  rw [build_frame_4GiB]
  have hrun : discord_parse_frame [1, 0, 0, 0, 0, 0, 0, 0] 8 true true ⟨0, none, 0⟩
      = (true, ⟨1, some [], 8⟩) := by decide
  refine ⟨hrun, fun h => ?_⟩
  rw [hrun, List.length_replicate] at h
  have hc := congrArg (fun r => r.2.consumed) h
  simp at hc

theorem parse_wrapped_frame (body tail : List Byte) (out : FrameOut)
    (hb : ∀ b ∈ body, b ≠ 0) (hl : body.length = 4294967288) :
    discord_parse_frame ([0, 0, 0, 0, 248, 255, 255, 255] ++ body ++ tail)
        (4294967296 + tail.length) true true out
      = (true, ⟨0, some body, 0⟩) ∧
    ([0, 0, 0, 0, 248, 255, 255, 255] ++ body).length = 4294967296 := by
  constructor
  · have hpl : read_le32 ([0, 0, 0, 0, 248, 255, 255, 255] ++ body ++ tail) 4 = 4294967288 := by
      simp [read_le32, byteAt]
      rfl
    have hop : read_le32 ([0, 0, 0, 0, 248, 255, 255, 255] ++ body ++ tail) 0 = 0 := by
      simp [read_le32, byteAt]
    have hdrop : List.drop 8 ([0, 0, 0, 0, 248, 255, 255, 255] ++ body ++ tail)
        = body ++ tail := by
      simp
    have hdup : g_strndup (body ++ tail) 4294967288 = body := by
      have h := g_strndup_exact body tail hb
      rw [hl] at h
      exact h
    rw [parse_frame_true _ _ _ _ _ (by omega) (by rw [hpl]; omega), hop, hpl, hdrop, hdup]
    norm_num
  · rw [List.length_append, hl]
    rfl

/-- C4: for the complete frame `F1` with opcode 0 and a payload of 4294967288 letters `A`,
followed by the complete frame `F2 = 01 00 00 00 00 00 00 00`, `discord_parse_frame` on
`F1 ++ F2` returns TRUE with `*consumed = 0` (`8 + 4294967288` wraps to 0), not
`|F1| = 4294967296`; the buffer advanced by that count is the same buffer, so the next
decode yields `F1` again and never `F2`. -/
theorem C4_first_frame_consumed_wraps_to_zero :
    discord_parse_frame
        ([0, 0, 0, 0, 248, 255, 255, 255] ++ List.replicate 4294967288 (65 : Byte)
          ++ [1, 0, 0, 0, 0, 0, 0, 0])
        4294967304 true true ⟨9, none, 9⟩
      = (true, ⟨0, some (List.replicate 4294967288 (65 : Byte)), 0⟩) ∧
    ([0, 0, 0, 0, 248, 255, 255, 255] ++ List.replicate 4294967288 (65 : Byte)).length
      = 4294967296 :=
  parse_wrapped_frame (List.replicate 4294967288 (65 : Byte)) [1, 0, 0, 0, 0, 0, 0, 0] ⟨9, none, 9⟩
    (replicate_no_nul _ _ letter_A_ne_zero) (List.length_replicate _ _)

theorem frame_length (O : Nat) (P : List Byte) : (frame O P).length = 8 + P.length := by
  simp [frame, write_le32]; omega

theorem g_strndup_append (P T : List Byte) :
    g_strndup (P ++ T) P.length = cstr P := by
  unfold g_strndup
  rw [List.take_left']
  rfl

/-- Decoding a buffer that starts with a complete frame whose payload is shorter than
`2 ^ 32 - 8` bytes: opcode, payload (as a C string) and `8 + |P|` consumed, whatever
follows. -/
theorem parse_frame_append (O : Nat) (P T : List Byte) (out : FrameOut)
    (hO : O < 2 ^ 32) (hP : P.length + 8 < 2 ^ 32) :
    discord_parse_frame (frame O P ++ T) (frame O P ++ T).length true true out
      = (true, ⟨O, some (cstr P), 8 + P.length⟩) := by
  have h := parse_encoded O P.length P T (frame O P ++ T).length out hO hP
    (by rw [List.length_append, frame_length]; omega)
  rw [g_strndup_append] at h
  exact h

/-- Two complete frames back to back, payloads shorter than `2 ^ 32 - 8` bytes: the first
decode yields the first frame and its length, the decode of the buffer advanced by that
count yields the second. -/
theorem parse_two_frames (O1 O2 : Nat) (P1 P2 T : List Byte) (out : FrameOut)
    (hO1 : O1 < 2 ^ 32) (hO2 : O2 < 2 ^ 32)
    (hP1 : P1.length + 8 < 2 ^ 32) (hP2 : P2.length + 8 < 2 ^ 32) :
    discord_parse_frame (frame O1 P1 ++ frame O2 P2 ++ T) (frame O1 P1 ++ frame O2 P2 ++ T).length
        true true out
      = (true, ⟨O1, some (cstr P1), (frame O1 P1).length⟩) ∧
    discord_parse_frame ((frame O1 P1 ++ frame O2 P2 ++ T).drop (frame O1 P1).length)
        ((frame O1 P1 ++ frame O2 P2 ++ T).length - (frame O1 P1).length) true true out
      = (true, ⟨O2, some (cstr P2), (frame O2 P2).length⟩) := by
  constructor
  · rw [List.append_assoc, frame_length]
    exact parse_frame_append O1 P1 _ out hO1 hP1
  · have hd : (frame O1 P1 ++ frame O2 P2 ++ T).drop (frame O1 P1).length = frame O2 P2 ++ T := by
      rw [List.append_assoc, List.drop_left]
    have hl : (frame O1 P1 ++ frame O2 P2 ++ T).length - (frame O1 P1).length
        = (frame O2 P2 ++ T).length := by
      simp only [List.length_append]; omega
    rw [hd, hl, frame_length]
    exact parse_frame_append O2 P2 T out hO2 hP2

theorem cstr_stops_at_nul (l : List Byte) : l.getD (cstr l).length 0 = 0 := by
  unfold cstr
  induction l with
  | nil => rfl
  | cons x xs ih =>
    by_cases hx : x = 0
    · simp [List.takeWhile_cons, hx]
    · simpa [List.takeWhile_cons, hx] using ih

theorem getD_take_drop (data : List Byte) (k n i : Nat) (hi : i < n) :
    ((data.drop k).take n).getD i 0 = data.getD (k + i) 0 := by
  simp [List.getD_eq_getElem?_getD, List.getElem?_take, hi]

/-- C5 (amended): on every buffer holding a complete frame, `discord_parse_frame` returns
TRUE whatever the opcode is, the opcode is `b0 + 256*b1 + 65536*b2 + 16777216*b3`, and the
payload is the C string made of the declared-length bytes after the header: a prefix of
them without NUL byte that ends at their first NUL byte, hence all of them when none is NUL. -/
theorem C5_parse_complete_frame (data : List Byte) (len : Nat) (out : FrameOut)
    (hbuf : len ≤ data.length) (hframe : 8 + read_le32 data 4 ≤ len) :
    ∃ s : List Byte,
      (discord_parse_frame data len true true out).1 = true ∧
      (discord_parse_frame data len true true out).2.opcode
        = byteAt data 0 + 256 * byteAt data 1 + 65536 * byteAt data 2 + 16777216 * byteAt data 3 ∧
      (discord_parse_frame data len true true out).2.json_out = some s ∧
      ((data.drop 8).take (read_le32 data 4)).length = read_le32 data 4 ∧
      s <+: (data.drop 8).take (read_le32 data 4) ∧
      (∀ b ∈ s, b ≠ 0) ∧
      (s.length < read_le32 data 4 → byteAt data (8 + s.length) = 0) ∧
      ((∀ b ∈ (data.drop 8).take (read_le32 data 4), b ≠ 0) →
        s = (data.drop 8).take (read_le32 data 4)) := by
  refine ⟨g_strndup (data.drop 8) (read_le32 data 4), ?_⟩
  have hmod : (8 + read_le32 data 4) % 2 ^ 32 ≤ len :=
    Nat.le_trans (Nat.mod_le _ _) hframe
  rw [parse_frame_true data len true true out (by omega) hmod]
  refine ⟨rfl, rfl, rfl, ?_, ?_, ?_, ?_, ?_⟩
  · rw [List.length_take, List.length_drop]; omega
  · exact List.takeWhile_prefix _
  · intro b hb
    have := List.mem_takeWhile_imp hb
    simpa using this
  · intro hlt
    have h := cstr_stops_at_nul ((data.drop 8).take (read_le32 data 4))
    unfold g_strndup at hlt ⊢
    rw [getD_take_drop data 8 _ _ hlt] at h
    unfold byteAt
    rw [h]
    rfl
  · intro hall
    exact cstr_of_no_nul _ hall

/-- C5 (witness): the 10-byte frame with opcode 7 and payload `{}`. -/
theorem C5_parse_complete_frame_witness :
    ∃ s : List Byte,
      (discord_parse_frame [7, 0, 0, 0, 2, 0, 0, 0, 123, 125] 10 true true ⟨0, none, 0⟩).1 = true ∧
      (discord_parse_frame [7, 0, 0, 0, 2, 0, 0, 0, 123, 125] 10 true true ⟨0, none, 0⟩).2.opcode
        = byteAt [7, 0, 0, 0, 2, 0, 0, 0, 123, 125] 0
          + 256 * byteAt [7, 0, 0, 0, 2, 0, 0, 0, 123, 125] 1
          + 65536 * byteAt [7, 0, 0, 0, 2, 0, 0, 0, 123, 125] 2
          + 16777216 * byteAt [7, 0, 0, 0, 2, 0, 0, 0, 123, 125] 3 ∧
      (discord_parse_frame [7, 0, 0, 0, 2, 0, 0, 0, 123, 125] 10 true true ⟨0, none, 0⟩).2.json_out
        = some s ∧
      ((([7, 0, 0, 0, 2, 0, 0, 0, 123, 125] : List Byte).drop 8).take
        (read_le32 [7, 0, 0, 0, 2, 0, 0, 0, 123, 125] 4)).length
        = read_le32 [7, 0, 0, 0, 2, 0, 0, 0, 123, 125] 4 ∧
      s <+: (([7, 0, 0, 0, 2, 0, 0, 0, 123, 125] : List Byte).drop 8).take
        (read_le32 [7, 0, 0, 0, 2, 0, 0, 0, 123, 125] 4) ∧
      (∀ b ∈ s, b ≠ 0) ∧
      (s.length < read_le32 [7, 0, 0, 0, 2, 0, 0, 0, 123, 125] 4 →
        byteAt [7, 0, 0, 0, 2, 0, 0, 0, 123, 125] (8 + s.length) = 0) ∧
      ((∀ b ∈ (([7, 0, 0, 0, 2, 0, 0, 0, 123, 125] : List Byte).drop 8).take
          (read_le32 [7, 0, 0, 0, 2, 0, 0, 0, 123, 125] 4), b ≠ 0) →
        s = (([7, 0, 0, 0, 2, 0, 0, 0, 123, 125] : List Byte).drop 8).take
          (read_le32 [7, 0, 0, 0, 2, 0, 0, 0, 123, 125] 4)) :=
  C5_parse_complete_frame [7, 0, 0, 0, 2, 0, 0, 0, 123, 125] 10 ⟨0, none, 0⟩ (by decide)
    (by decide)

/-- C5 (counterexample): the 11-byte buffer `01 00 00 00 03 00 00 00 41 00 42` holds a
complete frame whose three payload bytes are `41 00 42`; the payload returned is the
one-byte string `A`, not those three bytes. -/
theorem C5_payload_cut_at_nul_byte :
    8 + read_le32 [1, 0, 0, 0, 3, 0, 0, 0, 65, 0, 66] 4 ≤ 11 ∧
    (([1, 0, 0, 0, 3, 0, 0, 0, 65, 0, 66] : List Byte).drop 8).take
      (read_le32 [1, 0, 0, 0, 3, 0, 0, 0, 65, 0, 66] 4) = [65, 0, 66] ∧
    (discord_parse_frame [1, 0, 0, 0, 3, 0, 0, 0, 65, 0, 66] 11 true true ⟨0, none, 0⟩).2.json_out
      = some [65] ∧
    (discord_parse_frame [1, 0, 0, 0, 3, 0, 0, 0, 65, 0, 66] 11 true true ⟨0, none, 0⟩).2.json_out
      ≠ some [65, 0, 66] := by
  decide

theorem has_member_iff (obj : JsonObject) (name : String) :
    json_object_has_member obj name = true ↔ ∃ n, json_object_get_member obj name = some n := by
  unfold json_object_has_member
  exact Option.isSome_iff_exists

theorem get_string_member_eq_some (obj : JsonObject) (name s : String) :
    json_object_get_string_member obj name = some s ↔
      json_object_get_member obj name = some (JsonNode.string s) := by
  unfold json_object_get_string_member
  split
  · next s1 heq => simp [heq]
  · next hne =>
    constructor
    · intro h; simp at h
    · intro h; exact absurd h (hne s)

theorem get_object_member_eq_some (obj : JsonObject) (name : String) (m : JsonObject) :
    json_object_get_object_member obj name = some m ↔
      json_object_get_member obj name = some (JsonNode.object m) := by
  unfold json_object_get_object_member
  split
  · next s1 heq => simp [heq]
  · next hne =>
    constructor
    · intro h; simp at h
    · intro h; exact absurd h (hne m)

/-- The command name `discord_extract_activity` compares with `SET_ACTIVITY`. -/
theorem cmd_eq_set_activity_iff (obj : JsonObject) :
    (if json_object_has_member obj "cmd" then json_object_get_string_member obj "cmd" else none)
        = some "SET_ACTIVITY" ↔
      json_object_get_member obj "cmd" = some (JsonNode.string "SET_ACTIVITY") := by
  by_cases h : json_object_has_member obj "cmd" = true
  · rw [if_pos h]; exact get_string_member_eq_some obj "cmd" "SET_ACTIVITY"
  · rw [if_neg h]
    constructor
    · intro h1; simp at h1
    · intro h1
      exact absurd ((has_member_iff obj "cmd").2 ⟨_, h1⟩) h

/-- The result of `discord_extract_activity` on a root object whose `cmd` is `SET_ACTIVITY`. -/
theorem extract_activity_of_set_activity (parser : List Byte → Option (Option JsonNode))
    (j : List Byte) (obj : JsonObject) (out : ActivityOut) (hj : byteAt j 0 ≠ 0)
    (hp : parser (cstr j) = some (some (JsonNode.object obj)))
    (hcmd : json_object_get_member obj "cmd" = some (JsonNode.string "SET_ACTIVITY")) :
    discord_extract_activity parser (some j) out = (true, set_activity_fields obj) := by
  unfold discord_extract_activity
  simp only [hj, if_false, hp]
  rw [if_neg (not_not.2 ((cmd_eq_set_activity_iff obj).2 hcmd))]

/-- The result of `discord_extract_activity` on a root object with another `cmd`. -/
theorem extract_activity_of_other_cmd (parser : List Byte → Option (Option JsonNode))
    (j : List Byte) (obj : JsonObject) (out : ActivityOut)
    (hp : parser (cstr j) = some (some (JsonNode.object obj)))
    (hcmd : json_object_get_member obj "cmd" ≠ some (JsonNode.string "SET_ACTIVITY")) :
    discord_extract_activity parser (some j) out = (false, out) := by
  unfold discord_extract_activity
  by_cases hj : byteAt j 0 = 0
  · simp only [hj, if_true]
  · simp only [hj, if_false, hp]
    rw [if_pos (fun h => hcmd ((cmd_eq_set_activity_iff obj).1 h))]

/-- The result of `discord_extract_activity` when the root is missing or not an object. -/
theorem extract_activity_of_non_object (parser : List Byte → Option (Option JsonNode))
    (j : List Byte) (out : ActivityOut)
    (hp : ∀ obj, parser (cstr j) ≠ some (some (JsonNode.object obj))) :
    discord_extract_activity parser (some j) out = (false, out) := by
  unfold discord_extract_activity
  by_cases hj : byteAt j 0 = 0
  · simp only [hj, if_true]
  · simp only [hj, if_false]
    split
    · rfl
    · next obj heq => exact absurd heq (hp obj)
    · rfl

/-- C6: `discord_extract_activity` returns TRUE exactly when the input is non-NULL,
non-empty, is loaded by the parser, the root is an object and its `cmd` member is the string
`SET_ACTIVITY`; in every other case it returns FALSE and leaves `*pid`, `*state` and
`*details` untouched. -/
theorem C6_extract_activity_true_iff
    (parser : List Byte → Option (Option JsonNode)) (json : Option (List Byte))
    (out : ActivityOut) :
    ((discord_extract_activity parser json out).1 = true ↔
      ∃ j obj, json = some j ∧ byteAt j 0 ≠ 0 ∧
        parser (cstr j) = some (some (JsonNode.object obj)) ∧
        json_object_get_member obj "cmd" = some (JsonNode.string "SET_ACTIVITY")) ∧
    ((discord_extract_activity parser json out).1 = false →
      (discord_extract_activity parser json out).2 = out) := by
  cases json with
  | none =>
    refine ⟨⟨fun h => by simp [discord_extract_activity] at h, ?_⟩, fun _ => rfl⟩
    rintro ⟨j, obj, h, _⟩
    cases h
  | some j =>
    by_cases hj : byteAt j 0 = 0
    · have hr : discord_extract_activity parser (some j) out = (false, out) := by
        simp [discord_extract_activity, hj]
      rw [hr]
      refine ⟨⟨fun h => by simp at h, ?_⟩, fun _ => rfl⟩
      rintro ⟨j1, obj, h1, h2, _⟩
      cases h1
      exact absurd hj h2
    · by_cases hobj : ∃ obj, parser (cstr j) = some (some (JsonNode.object obj))
      · obtain ⟨obj, hp⟩ := hobj
        by_cases hcmd : json_object_get_member obj "cmd" = some (JsonNode.string "SET_ACTIVITY")
        · rw [extract_activity_of_set_activity parser j obj out hj hp hcmd]
          exact ⟨⟨fun _ => ⟨j, obj, rfl, hj, hp, hcmd⟩, fun _ => rfl⟩, fun hf => by simp at hf⟩
        · rw [extract_activity_of_other_cmd parser j obj out hp hcmd]
          refine ⟨⟨fun h => by simp at h, ?_⟩, fun _ => rfl⟩
          rintro ⟨j1, obj1, h1, _, h3, h4⟩
          cases h1
          rw [hp] at h3
          simp only [Option.some.injEq, JsonNode.object.injEq] at h3
          subst h3
          exact (hcmd h4).elim
      · have hno : ∀ obj, parser (cstr j) ≠ some (some (JsonNode.object obj)) :=
          fun obj h => hobj ⟨obj, h⟩
        rw [extract_activity_of_non_object parser j out hno]
        refine ⟨⟨fun h => by simp at h, ?_⟩, fun _ => rfl⟩
        rintro ⟨j1, obj1, h1, _, h3, _⟩
        cases h1
        exact (hno obj1 h3).elim

theorem activity_text_eq_some (act : JsonObject) (name s : String) :
    activity_text act name = some s ↔
      json_object_get_member act name = some (JsonNode.string s) ∧ s ≠ "" := by
  unfold activity_text
  split
  · next s1 heq =>
    by_cases hs : s1 = ""
    · rw [if_pos hs]
      constructor
      · intro h; simp at h
      · rintro ⟨h1, h2⟩
        rw [heq] at h1
        simp only [Option.some.injEq, JsonNode.string.injEq] at h1
        exact absurd (h1 ▸ hs) h2
    · rw [if_neg hs]
      constructor
      · intro h
        simp only [Option.some.injEq] at h
        subst h
        exact ⟨heq, hs⟩
      · rintro ⟨h1, _⟩
        rw [heq] at h1
        simp only [Option.some.injEq, JsonNode.string.injEq] at h1
        rw [h1]
  · next hne =>
    constructor
    · intro h; simp at h
    · rintro ⟨h1, _⟩
      exact absurd h1 (hne s)

/-- The text block of `discord_extract_activity` (`has_member`, `get_string_member`,
`s && s[0]`) computes `activity_text`. -/
theorem text_block_eq (act : JsonObject) (name : String) :
    (if json_object_has_member act name then
        match json_object_get_string_member act name with
        | some s => if s ≠ "" then some s else none
        | none => none
      else none) = activity_text act name := by
  unfold activity_text json_object_has_member json_object_get_string_member
  cases h : json_object_get_member act name with
  | none => simp
  | some n =>
    cases n with
    | string s => by_cases hs : s = "" <;> simp [hs]
    | null => simp
    | bool b => simp
    | int v => simp
    | double v => simp
    | array xs => simp
    | object m => simp

theorem set_activity_fields_no_args (obj : JsonObject)
    (h : ∀ args, json_object_get_member obj "args" ≠ some (JsonNode.object args)) :
    set_activity_fields obj = { pid := 0, state := none, details := none } := by
  unfold set_activity_fields
  have hn : json_object_get_object_member obj "args" = none := by
    cases hg : json_object_get_object_member obj "args" with
    | none => rfl
    | some args => exact absurd ((get_object_member_eq_some obj "args" args).1 hg) (h args)
  simp only [hn, ite_self]

theorem set_activity_fields_no_activity (obj args : JsonObject)
    (hargs : json_object_get_member obj "args" = some (JsonNode.object args))
    (h : ∀ act, json_object_get_member args "activity" ≠ some (JsonNode.object act)) :
    set_activity_fields obj = { pid := args_pid args, state := none, details := none } := by
  unfold set_activity_fields args_pid
  have h1 : json_object_has_member obj "args" = true := (has_member_iff obj "args").2 ⟨_, hargs⟩
  have h2 : json_object_get_object_member obj "args" = some args :=
    (get_object_member_eq_some obj "args" args).2 hargs
  have hn : json_object_get_object_member args "activity" = none := by
    cases hg : json_object_get_object_member args "activity" with
    | none => rfl
    | some act => exact absurd ((get_object_member_eq_some args "activity" act).1 hg) (h act)
  simp only [h1, h2, hn, if_true, ite_self]
  by_cases hp : json_object_has_member args "pid" = true <;> simp [hp]

theorem set_activity_fields_eq (obj args act : JsonObject)
    (hargs : json_object_get_member obj "args" = some (JsonNode.object args))
    (hact : json_object_get_member args "activity" = some (JsonNode.object act)) :
    set_activity_fields obj =
      { pid := args_pid args, state := activity_text act "state",
        details := activity_text act "details" } := by
  rw [← text_block_eq act "state", ← text_block_eq act "details"]
  unfold set_activity_fields args_pid
  have h1 : json_object_has_member obj "args" = true := (has_member_iff obj "args").2 ⟨_, hargs⟩
  have h2 : json_object_get_object_member obj "args" = some args :=
    (get_object_member_eq_some obj "args" args).2 hargs
  have h3 : json_object_has_member args "activity" = true :=
    (has_member_iff args "activity").2 ⟨_, hact⟩
  have h4 : json_object_get_object_member args "activity" = some act :=
    (get_object_member_eq_some args "activity" act).2 hact
  simp only [h1, h2, h3, h4, if_true]
  by_cases hp : json_object_has_member args "pid" = true <;>
  by_cases hs : json_object_has_member act "state" = true <;>
  by_cases hd : json_object_has_member act "details" = true <;>
  cases hss : json_object_get_string_member act "state" <;>
  cases hdd : json_object_get_string_member act "details" <;>
  simp only [hp, hs, hd, if_true, if_false] <;>
  (try split_ifs) <;> rfl

theorem args_activity_text_eq_some (obj : JsonObject) (name s : String) :
    args_activity_text obj name = some s ↔
      ∃ args act, json_object_get_member obj "args" = some (JsonNode.object args) ∧
        json_object_get_member args "activity" = some (JsonNode.object act) ∧
        json_object_get_member act name = some (JsonNode.string s) ∧ s ≠ "" := by
  unfold args_activity_text
  split
  · next args hargs =>
    split
    · next act hact =>
      rw [activity_text_eq_some]
      constructor
      · rintro ⟨h1, h2⟩
        exact ⟨args, act, hargs, hact, h1, h2⟩
      · rintro ⟨args1, act1, ha, hb, hc, hd⟩
        rw [hargs] at ha
        simp only [Option.some.injEq, JsonNode.object.injEq] at ha
        subst ha
        rw [hact] at hb
        simp only [Option.some.injEq, JsonNode.object.injEq] at hb
        subst hb
        exact ⟨hc, hd⟩
    · next hne =>
      constructor
      · intro h; simp at h
      · rintro ⟨args1, act1, ha, hb, _⟩
        rw [hargs] at ha
        simp only [Option.some.injEq, JsonNode.object.injEq] at ha
        subst ha
        exact absurd hb (hne act1)
  · next hne =>
    constructor
    · intro h; simp at h
    · rintro ⟨args1, act1, ha, _⟩
      exact absurd ha (hne args1)

theorem args_activity_text_eq_none (obj : JsonObject) (name : String)
    (h : ¬ ∃ args act, json_object_get_member obj "args" = some (JsonNode.object args) ∧
      json_object_get_member args "activity" = some (JsonNode.object act)) :
    args_activity_text obj name = none := by
  cases hv : args_activity_text obj name with
  | none => rfl
  | some s =>
    obtain ⟨args, act, ha, hb, _⟩ := (args_activity_text_eq_some obj name s).1 hv
    exact absurd ⟨args, act, ha, hb⟩ h

theorem set_activity_fields_text (obj : JsonObject) :
    (set_activity_fields obj).state = args_activity_text obj "state" ∧
    (set_activity_fields obj).details = args_activity_text obj "details" := by
  by_cases hA : ∃ args, json_object_get_member obj "args" = some (JsonNode.object args)
  · obtain ⟨args, hargs⟩ := hA
    by_cases hB : ∃ act, json_object_get_member args "activity" = some (JsonNode.object act)
    · obtain ⟨act, hact⟩ := hB
      rw [set_activity_fields_eq obj args act hargs hact]
      unfold args_activity_text
      simp only [hargs, hact, and_self]
    · have hno : ∀ act, json_object_get_member args "activity" ≠ some (JsonNode.object act) :=
        fun act h => hB ⟨act, h⟩
      have hnone : ¬ ∃ args act, json_object_get_member obj "args" = some (JsonNode.object args) ∧
          json_object_get_member args "activity" = some (JsonNode.object act) := by
        rintro ⟨args1, act1, ha, hb⟩
        rw [hargs] at ha
        simp only [Option.some.injEq, JsonNode.object.injEq] at ha
        subst ha
        exact hno act1 hb
      rw [set_activity_fields_no_activity obj args hargs hno,
        args_activity_text_eq_none obj "state" hnone,
        args_activity_text_eq_none obj "details" hnone]
      exact ⟨rfl, rfl⟩
  · have hno : ∀ args, json_object_get_member obj "args" ≠ some (JsonNode.object args) :=
      fun args h => hA ⟨args, h⟩
    have hnone : ¬ ∃ args act, json_object_get_member obj "args" = some (JsonNode.object args) ∧
        json_object_get_member args "activity" = some (JsonNode.object act) := by
      rintro ⟨args1, act1, ha, _⟩
      exact hno args1 ha
    rw [set_activity_fields_no_args obj hno, args_activity_text_eq_none obj "state" hnone,
      args_activity_text_eq_none obj "details" hnone]
    exact ⟨rfl, rfl⟩

theorem set_activity_fields_pid (obj args : JsonObject)
    (hargs : json_object_get_member obj "args" = some (JsonNode.object args)) :
    (set_activity_fields obj).pid = args_pid args := by
  by_cases hB : ∃ act, json_object_get_member args "activity" = some (JsonNode.object act)
  · obtain ⟨act, hact⟩ := hB
    rw [set_activity_fields_eq obj args act hargs hact]
  · rw [set_activity_fields_no_activity obj args hargs (fun act h => hB ⟨act, h⟩)]

theorem to_pid_t_of_in_range (p : Int) (h1 : -2 ^ 31 ≤ p) (h2 : p < 2 ^ 31) : to_pid_t p = p := by
  unfold to_pid_t
  norm_num at h1 h2 ⊢
  omega

theorem extract_activity_true_cases (parser : List Byte → Option (Option JsonNode))
    (json : Option (List Byte)) (out : ActivityOut)
    (h : (discord_extract_activity parser json out).1 = true) :
    ∃ j obj, json = some j ∧ byteAt j 0 ≠ 0 ∧
      parser (cstr j) = some (some (JsonNode.object obj)) ∧
      json_object_get_member obj "cmd" = some (JsonNode.string "SET_ACTIVITY") ∧
      discord_extract_activity parser json out = (true, set_activity_fields obj) := by
  cases json with
  | none => simp [discord_extract_activity] at h
  | some j =>
    by_cases hj : byteAt j 0 = 0
    · simp [discord_extract_activity, hj] at h
    · by_cases hobj : ∃ obj, parser (cstr j) = some (some (JsonNode.object obj))
      · obtain ⟨obj, hp⟩ := hobj
        by_cases hcmd : json_object_get_member obj "cmd" = some (JsonNode.string "SET_ACTIVITY")
        · exact ⟨j, obj, rfl, hj, hp, hcmd,
            extract_activity_of_set_activity parser j obj out hj hp hcmd⟩
        · rw [extract_activity_of_other_cmd parser j obj out hp hcmd] at h
          simp at h
      · rw [extract_activity_of_non_object parser j out (fun obj h => hobj ⟨obj, h⟩)] at h
        simp at h

/-- C7: on a `SET_ACTIVITY` object with `args.pid = p` in the range of `pid_t`,
`args.activity.state = s` and `args.activity.details = d`, both non-empty,
`discord_extract_activity` returns TRUE with `*pid = p`, `*state = s` and `*details = d`. -/
theorem C7_extract_activity_full (parser : List Byte → Option (Option JsonNode))
    (j : List Byte) (obj args act : JsonObject) (p : Int) (s d : String) (out : ActivityOut)
    (hj : byteAt j 0 ≠ 0)
    (hparse : parser (cstr j) = some (some (JsonNode.object obj)))
    (hcmd : json_object_get_member obj "cmd" = some (JsonNode.string "SET_ACTIVITY"))
    (hargs : json_object_get_member obj "args" = some (JsonNode.object args))
    (hpid : json_object_get_member args "pid" = some (JsonNode.int p))
    (hact : json_object_get_member args "activity" = some (JsonNode.object act))
    (hstate : json_object_get_member act "state" = some (JsonNode.string s))
    (hdetails : json_object_get_member act "details" = some (JsonNode.string d))
    (hlo : -2 ^ 31 ≤ p) (hhi : p < 2 ^ 31) (hs : s ≠ "") (hd : d ≠ "") :
    discord_extract_activity parser (some j) out
      = (true, { pid := p, state := some s, details := some d }) := by
  rw [extract_activity_of_set_activity parser j obj out hj hparse hcmd,
    set_activity_fields_eq obj args act hargs hact,
    (activity_text_eq_some act "state" s).2 ⟨hstate, hs⟩,
    (activity_text_eq_some act "details" d).2 ⟨hdetails, hd⟩]
  have hp : args_pid args = p := by
    unfold args_pid
    rw [if_pos ((has_member_iff args "pid").2 ⟨_, hpid⟩)]
    unfold json_object_get_int_member
    rw [hpid]
    exact to_pid_t_of_in_range p hlo hhi
  rw [hp]

/-- C7 (witness): the command of `test_extract_activity_full`, pid 1234, state
`Editing main.py`, details `my-project`. -/
theorem C7_extract_activity_full_witness :
    discord_extract_activity
        (fun _ => some (some (JsonNode.object
          [("cmd", JsonNode.string "SET_ACTIVITY"),
           ("args", JsonNode.object
             [("pid", JsonNode.int 1234),
              ("activity", JsonNode.object
                [("state", JsonNode.string "Editing main.py"),
                 ("details", JsonNode.string "my-project")])])])))
        (some (ascii "\x7b\"cmd\":\"SET_ACTIVITY\",\"args\":\x7b\"pid\":1234,\"activity\":\x7b\"state\":\"Editing main.py\",\"details\":\"my-project\"\x7d\x7d\x7d"))
        { pid := 7, state := none, details := none }
      = (true, { pid := 1234, state := some "Editing main.py", details := some "my-project" }) :=
  C7_extract_activity_full _ _
    [("cmd", JsonNode.string "SET_ACTIVITY"),
     ("args", JsonNode.object
       [("pid", JsonNode.int 1234),
        ("activity", JsonNode.object
          [("state", JsonNode.string "Editing main.py"),
           ("details", JsonNode.string "my-project")])])]
    [("pid", JsonNode.int 1234),
     ("activity", JsonNode.object
       [("state", JsonNode.string "Editing main.py"),
        ("details", JsonNode.string "my-project")])]
    [("state", JsonNode.string "Editing main.py"), ("details", JsonNode.string "my-project")]
    1234 "Editing main.py" "my-project" _
    (by decide) rfl rfl rfl rfl rfl rfl rfl (by decide) (by decide) (by decide) (by decide)

/-- C8: on every successful call the root is an object, `*state` is present exactly when
`args.activity.state` exists and is a non-empty string, and is then that string; `*details`
follows the same rule with `args.activity.details`, whatever `state` is. -/
theorem C8_state_and_details_present_iff (parser : List Byte → Option (Option JsonNode))
    (json : Option (List Byte)) (out : ActivityOut)
    (h : (discord_extract_activity parser json out).1 = true) :
    ∃ j obj, json = some j ∧ parser (cstr j) = some (some (JsonNode.object obj)) ∧
      (∀ s, (discord_extract_activity parser json out).2.state = some s ↔
        ∃ args act, json_object_get_member obj "args" = some (JsonNode.object args) ∧
          json_object_get_member args "activity" = some (JsonNode.object act) ∧
          json_object_get_member act "state" = some (JsonNode.string s) ∧ s ≠ "") ∧
      (∀ d, (discord_extract_activity parser json out).2.details = some d ↔
        ∃ args act, json_object_get_member obj "args" = some (JsonNode.object args) ∧
          json_object_get_member args "activity" = some (JsonNode.object act) ∧
          json_object_get_member act "details" = some (JsonNode.string d) ∧ d ≠ "") := by
  obtain ⟨j, obj, hjson, _, hp, _, hr⟩ := extract_activity_true_cases parser json out h
  refine ⟨j, obj, hjson, hp, ?_, ?_⟩
  · intro s
    rw [hr]
    show (set_activity_fields obj).state = some s ↔ _
    rw [(set_activity_fields_text obj).1]
    exact args_activity_text_eq_some obj "state" s
  · intro d
    rw [hr]
    show (set_activity_fields obj).details = some d ↔ _
    rw [(set_activity_fields_text obj).2]
    exact args_activity_text_eq_some obj "details" d

/-- C8 (witness): the command of `test_extract_activity_no_state`, which has `details` and
no `state`. -/
theorem C8_state_and_details_present_iff_witness :
    ∃ j obj,
      some (ascii "\x7b\"cmd\":\"SET_ACTIVITY\",\"args\":\x7b\"pid\":5678,\"activity\":\x7b\"details\":\"workspace\"\x7d\x7d\x7d")
        = some j ∧
      (fun _ => some (some (JsonNode.object
          [("cmd", JsonNode.string "SET_ACTIVITY"),
           ("args", JsonNode.object
             [("pid", JsonNode.int 5678),
              ("activity", JsonNode.object [("details", JsonNode.string "workspace")])])])))
        (cstr j) = some (some (JsonNode.object obj)) ∧
      (∀ s, (discord_extract_activity
          (fun _ => some (some (JsonNode.object
            [("cmd", JsonNode.string "SET_ACTIVITY"),
             ("args", JsonNode.object
               [("pid", JsonNode.int 5678),
                ("activity", JsonNode.object [("details", JsonNode.string "workspace")])])])))
          (some (ascii "\x7b\"cmd\":\"SET_ACTIVITY\",\"args\":\x7b\"pid\":5678,\"activity\":\x7b\"details\":\"workspace\"\x7d\x7d\x7d"))
          { pid := 7, state := some "old", details := none }).2.state = some s ↔
        ∃ args act, json_object_get_member obj "args" = some (JsonNode.object args) ∧
          json_object_get_member args "activity" = some (JsonNode.object act) ∧
          json_object_get_member act "state" = some (JsonNode.string s) ∧ s ≠ "") ∧
      (∀ d, (discord_extract_activity
          (fun _ => some (some (JsonNode.object
            [("cmd", JsonNode.string "SET_ACTIVITY"),
             ("args", JsonNode.object
               [("pid", JsonNode.int 5678),
                ("activity", JsonNode.object [("details", JsonNode.string "workspace")])])])))
          (some (ascii "\x7b\"cmd\":\"SET_ACTIVITY\",\"args\":\x7b\"pid\":5678,\"activity\":\x7b\"details\":\"workspace\"\x7d\x7d\x7d"))
          { pid := 7, state := some "old", details := none }).2.details = some d ↔
        ∃ args act, json_object_get_member obj "args" = some (JsonNode.object args) ∧
          json_object_get_member args "activity" = some (JsonNode.object act) ∧
          json_object_get_member act "details" = some (JsonNode.string d) ∧ d ≠ "") :=
  C8_state_and_details_present_iff
    (fun _ => some (some (JsonNode.object
      [("cmd", JsonNode.string "SET_ACTIVITY"),
       ("args", JsonNode.object
         [("pid", JsonNode.int 5678),
          ("activity", JsonNode.object [("details", JsonNode.string "workspace")])])])))
    (some (ascii "\x7b\"cmd\":\"SET_ACTIVITY\",\"args\":\x7b\"pid\":5678,\"activity\":\x7b\"details\":\"workspace\"\x7d\x7d\x7d"))
    { pid := 7, state := some "old", details := none } rfl

/-- C9: on a `SET_ACTIVITY` object without an `args.pid` member (no `args` member, an `args`
that is not an object, or an `args` object without `pid`), `discord_extract_activity`
returns TRUE with `*pid = 0`, and `*state` and `*details` follow the usual rule. -/
theorem C9_extract_activity_without_pid (parser : List Byte → Option (Option JsonNode))
    (j : List Byte) (obj : JsonObject) (out : ActivityOut)
    (hj : byteAt j 0 ≠ 0)
    (hparse : parser (cstr j) = some (some (JsonNode.object obj)))
    (hcmd : json_object_get_member obj "cmd" = some (JsonNode.string "SET_ACTIVITY"))
    (hnopid : ∀ args, json_object_get_member obj "args" = some (JsonNode.object args) →
      json_object_get_member args "pid" = none) :
    (discord_extract_activity parser (some j) out).1 = true ∧
    (discord_extract_activity parser (some j) out).2.pid = 0 ∧
    (∀ s, (discord_extract_activity parser (some j) out).2.state = some s ↔
      ∃ args act, json_object_get_member obj "args" = some (JsonNode.object args) ∧
        json_object_get_member args "activity" = some (JsonNode.object act) ∧
        json_object_get_member act "state" = some (JsonNode.string s) ∧ s ≠ "") ∧
    (∀ d, (discord_extract_activity parser (some j) out).2.details = some d ↔
      ∃ args act, json_object_get_member obj "args" = some (JsonNode.object args) ∧
        json_object_get_member args "activity" = some (JsonNode.object act) ∧
        json_object_get_member act "details" = some (JsonNode.string d) ∧ d ≠ "") := by
  rw [extract_activity_of_set_activity parser j obj out hj hparse hcmd]
  refine ⟨rfl, ?_, ?_, ?_⟩
  · show (set_activity_fields obj).pid = 0
    by_cases hA : ∃ args, json_object_get_member obj "args" = some (JsonNode.object args)
    · obtain ⟨args, hargs⟩ := hA
      rw [set_activity_fields_pid obj args hargs]
      unfold args_pid json_object_has_member
      rw [hnopid args hargs]
      rfl
    · rw [set_activity_fields_no_args obj (fun args h => hA ⟨args, h⟩)]
  · intro s
    show (set_activity_fields obj).state = some s ↔ _
    rw [(set_activity_fields_text obj).1]
    exact args_activity_text_eq_some obj "state" s
  · intro d
    show (set_activity_fields obj).details = some d ↔ _
    rw [(set_activity_fields_text obj).2]
    exact args_activity_text_eq_some obj "details" d

/-- C9 (witness): the command of `test_extract_activity_no_pid`. -/
theorem C9_extract_activity_without_pid_witness :
    (discord_extract_activity
        (fun _ => some (some (JsonNode.object
          [("cmd", JsonNode.string "SET_ACTIVITY"),
           ("args", JsonNode.object
             [("activity", JsonNode.object
                [("state", JsonNode.string "Editing"),
                 ("details", JsonNode.string "project")])])])))
        (some (ascii "\x7b\"cmd\":\"SET_ACTIVITY\",\"args\":\x7b\"activity\":\x7b\"state\":\"Editing\",\"details\":\"project\"\x7d\x7d\x7d"))
        { pid := 7, state := none, details := none }).1 = true ∧
    (discord_extract_activity
        (fun _ => some (some (JsonNode.object
          [("cmd", JsonNode.string "SET_ACTIVITY"),
           ("args", JsonNode.object
             [("activity", JsonNode.object
                [("state", JsonNode.string "Editing"),
                 ("details", JsonNode.string "project")])])])))
        (some (ascii "\x7b\"cmd\":\"SET_ACTIVITY\",\"args\":\x7b\"activity\":\x7b\"state\":\"Editing\",\"details\":\"project\"\x7d\x7d\x7d"))
        { pid := 7, state := none, details := none }).2.pid = 0 :=
  have h := C9_extract_activity_without_pid
    (fun _ => some (some (JsonNode.object
      [("cmd", JsonNode.string "SET_ACTIVITY"),
       ("args", JsonNode.object
         [("activity", JsonNode.object
            [("state", JsonNode.string "Editing"),
             ("details", JsonNode.string "project")])])])))
    (ascii "\x7b\"cmd\":\"SET_ACTIVITY\",\"args\":\x7b\"activity\":\x7b\"state\":\"Editing\",\"details\":\"project\"\x7d\x7d\x7d")
    [("cmd", JsonNode.string "SET_ACTIVITY"),
     ("args", JsonNode.object
       [("activity", JsonNode.object
          [("state", JsonNode.string "Editing"),
           ("details", JsonNode.string "project")])])]
    { pid := 7, state := none, details := none }
    (by decide) rfl rfl
    (by
      intro args h
      have h2 : args = [("activity", JsonNode.object
          [("state", JsonNode.string "Editing"), ("details", JsonNode.string "project")])] := by
        have h3 : json_object_get_member
            [("cmd", JsonNode.string "SET_ACTIVITY"),
             ("args", JsonNode.object
               [("activity", JsonNode.object
                  [("state", JsonNode.string "Editing"),
                   ("details", JsonNode.string "project")])])] "args"
            = some (JsonNode.object [("activity", JsonNode.object
                [("state", JsonNode.string "Editing"),
                 ("details", JsonNode.string "project")])]) := rfl
        rw [h3] at h
        simp only [Option.some.injEq, JsonNode.object.injEq] at h
        exact h.symm
      subst h2
      rfl)
  ⟨h.1, h.2.1⟩

theorem lookup_insert_same (t : GHashTable) (key : Int) (v : RichPresenceEntry) :
    g_hash_table_lookup (g_hash_table_insert t key v) key = some v := by
  simp [g_hash_table_lookup, g_hash_table_insert, List.lookup]

theorem store_table (st : DiscordIpcState) (table : GHashTable) (pid : Int)
    (s d : Option String) (now : Int)
    (htable : st.presence_by_pid = some table) (hpid : 0 < pid) :
    (discord_presence_store st pid s d now).presence_by_pid
      = some (g_hash_table_insert table pid
          { state := s, details := d, pid := pid, last_updated := now }) := by
  unfold discord_presence_store
  simp only [htable]
  rw [if_neg (by omega)]

theorem lookup_after_store (st : DiscordIpcState) (table : GHashTable) (pid : Int)
    (s d : Option String) (now : Int)
    (htable : st.presence_by_pid = some table) (hpid : 0 < pid) :
    discord_ipc_lookup_pid (some (discord_presence_store st pid s d now)) pid
      = some { state := s, details := d, pid := pid, last_updated := now } := by
  unfold discord_ipc_lookup_pid
  simp only [store_table st table pid s d now htable hpid]
  rw [if_neg (by omega)]
  exact lookup_insert_same _ _ _

/-- C10: for every state whose presence table exists, every `pid > 0` and every pair of
optional strings, the lookup after `discord_presence_store` returns the entry made of exactly
the values just written (and the time of the write), whatever the table held before; writing
an absent state over a present one leaves the state absent. -/
theorem C10_last_write_wins (st : DiscordIpcState) (table : GHashTable) (pid : Int)
    (s d : Option String) (now : Int)
    (htable : st.presence_by_pid = some table) (hpid : 0 < pid) :
    discord_ipc_lookup_pid (some (discord_presence_store st pid s d now)) pid
      = some { state := s, details := d, pid := pid, last_updated := now } ∧
    (∀ (s0 : String) (d0 : Option String) (t0 : Int),
      discord_ipc_lookup_pid
          (some (discord_presence_store (discord_presence_store st pid (some s0) d0 t0)
            pid none d now)) pid
        = some { state := none, details := d, pid := pid, last_updated := now }) := by
  refine ⟨lookup_after_store st table pid s d now htable hpid, fun s0 d0 t0 => ?_⟩
  exact lookup_after_store _ _ pid none d now (store_table st table pid (some s0) d0 t0 htable hpid)
    hpid

/-- C10 (witness): `test_presence_overwrite`, pid 1234 written over an older entry. -/
theorem C10_last_write_wins_witness :
    discord_ipc_lookup_pid
        (some (discord_presence_store
          { presence_by_pid := some [(1234, { state := some "First", details := some "project-a",
                                               pid := 1234, last_updated := 10 })] }
          1234 (some "Second") (some "project-b") 20)) 1234
      = some { state := some "Second", details := some "project-b", pid := 1234,
               last_updated := 20 } ∧
    (∀ (s0 : String) (d0 : Option String) (t0 : Int),
      discord_ipc_lookup_pid
          (some (discord_presence_store (discord_presence_store
            { presence_by_pid := some [(1234, { state := some "First", details := some "project-a",
                                                 pid := 1234, last_updated := 10 })] }
            1234 (some s0) d0 t0) 1234 none (some "project-b") 20)) 1234
        = some { state := none, details := some "project-b", pid := 1234, last_updated := 20 }) :=
  C10_last_write_wins
    { presence_by_pid := some [(1234, { state := some "First", details := some "project-a",
                                         pid := 1234, last_updated := 10 })] }
    [(1234, { state := some "First", details := some "project-a", pid := 1234,
              last_updated := 10 })]
    1234 (some "Second") (some "project-b") 20 rfl (by decide)

/-! ## Presence store -/

theorem lookup_filter_other (t : GHashTable) (p q : Int) (hne : q ≠ p) :
    List.lookup q (t.filter (fun e => e.1 ≠ p)) = List.lookup q t := by
  induction t with
  | nil => rfl
  | cons e es ih =>
    obtain ⟨k, v⟩ := e
    by_cases hk : k = p
    · have hqk : (q == k) = false := by
        rw [beq_eq_false_iff_ne]; rw [hk]; exact hne
      have hf : List.filter (fun e : Int × RichPresenceEntry => decide (e.1 ≠ p)) ((k, v) :: es)
          = List.filter (fun e : Int × RichPresenceEntry => decide (e.1 ≠ p)) es := by
        rw [List.filter_cons]
        simp [hk]
      rw [hf, List.lookup_cons, hqk]
      exact ih
    · have hf : List.filter (fun e : Int × RichPresenceEntry => decide (e.1 ≠ p)) ((k, v) :: es)
          = (k, v) :: List.filter (fun e : Int × RichPresenceEntry => decide (e.1 ≠ p)) es := by
        rw [List.filter_cons]
        simp [hk]
      rw [hf, List.lookup_cons, List.lookup_cons, ih]

theorem lookup_insert_other (t : GHashTable) (p q : Int) (v : RichPresenceEntry) (hne : q ≠ p) :
    g_hash_table_lookup (g_hash_table_insert t p v) q = g_hash_table_lookup t q := by
  unfold g_hash_table_lookup g_hash_table_insert
  have hqp : (q == p) = false := by rw [beq_eq_false_iff_ne]; exact hne
  rw [List.lookup_cons, hqp]
  exact lookup_filter_other t p q hne

theorem lookup_store_other (st : DiscordIpcState) (p q : Int) (s d : Option String) (now : Int)
    (hne : q ≠ p) :
    discord_ipc_lookup_pid (some (discord_presence_store st p s d now)) q
      = discord_ipc_lookup_pid (some st) q := by
  unfold discord_presence_store
  cases ht : st.presence_by_pid with
  | none => rfl
  | some table =>
    by_cases hp : p ≤ 0
    · simp only [hp, if_true]
    · simp only [hp, if_false]
      unfold discord_ipc_lookup_pid
      simp only [ht]
      by_cases hq : q ≤ 0
      · simp only [hq, if_true]
      · simp only [hq, if_false]
        exact lookup_insert_other table p q _ hne

theorem store_non_positive (st : DiscordIpcState) (pid : Int) (s d : Option String) (now : Int)
    (hpid : pid ≤ 0) : discord_presence_store st pid s d now = st := by
  unfold discord_presence_store
  cases st.presence_by_pid with
  | none => rfl
  | some table => simp only [hpid, if_true]

/-- C11: for every state and every `pid <= 0`, `discord_presence_store` returns the state
unchanged (same table, same entries), and `discord_ipc_lookup_pid` for that pid returns
`NULL` whatever the state is. -/
theorem C11_non_positive_pid_is_ignored (st : DiscordIpcState) (pid : Int)
    (s d : Option String) (now : Int) (hpid : pid ≤ 0) :
    discord_presence_store st pid s d now = st ∧
    ∀ st1 : Option DiscordIpcState, discord_ipc_lookup_pid st1 pid = none := by
  refine ⟨store_non_positive st pid s d now hpid, fun st1 => ?_⟩
  cases st1 with
  | none => rfl
  | some st2 =>
    unfold discord_ipc_lookup_pid
    cases ht : st2.presence_by_pid with
    | none => simp only [ht]
    | some table => simp only [ht, hpid, if_true]

/-- C11 (witness): pid 0 on a table that holds an entry for pid 7. -/
theorem C11_non_positive_pid_is_ignored_witness :
    discord_presence_store
        { presence_by_pid := some [(7, { state := some "A", details := none, pid := 7,
                                         last_updated := 1 })] }
        0 (some "B") (some "C") 2
      = { presence_by_pid := some [(7, { state := some "A", details := none, pid := 7,
                                          last_updated := 1 })] } ∧
    ∀ st1 : Option DiscordIpcState, discord_ipc_lookup_pid st1 0 = none :=
  C11_non_positive_pid_is_ignored _ 0 (some "B") (some "C") 2 (by decide)

/-- C12: a write for pid `p` does not change what `discord_ipc_lookup_pid` returns for any
other pid `q`; hence after any sequence of writes none of which is for `q` the lookup of `q`
is what it was before, `NULL` when the sequence starts from a table without `q`. -/
theorem C12_write_is_invisible_to_other_pids (st : DiscordIpcState) (p q : Int)
    (s d : Option String) (now : Int) (hne : q ≠ p) :
    discord_ipc_lookup_pid (some (discord_presence_store st p s d now)) q
      = discord_ipc_lookup_pid (some st) q ∧
    (∀ (st0 : DiscordIpcState) (calls : List StoreCall), (∀ c ∈ calls, c.pid ≠ q) →
      discord_ipc_lookup_pid (some (run_presence_stores st0 calls)) q
        = discord_ipc_lookup_pid (some st0) q) ∧
    (∀ calls : List StoreCall, (∀ c ∈ calls, c.pid ≠ q) →
      discord_ipc_lookup_pid (some (run_presence_stores { presence_by_pid := some [] } calls)) q
        = none) := by
  have hseq : ∀ (calls : List StoreCall) (st0 : DiscordIpcState), (∀ c ∈ calls, c.pid ≠ q) →
      discord_ipc_lookup_pid (some (run_presence_stores st0 calls)) q
        = discord_ipc_lookup_pid (some st0) q := by
    intro calls
    induction calls with
    | nil => intro st0 _; rfl
    | cons c cs ih =>
      intro st0 hall
      have hc : q ≠ c.pid := fun h => hall c (List.mem_cons_self c cs) h.symm
      have hcs : ∀ c1 ∈ cs, c1.pid ≠ q := fun c1 h1 => hall c1 (List.mem_cons_of_mem c h1)
      show discord_ipc_lookup_pid (some (run_presence_stores
        (discord_presence_store st0 c.pid c.rp_state c.rp_details c.now) cs)) q = _
      rw [ih _ hcs]
      exact lookup_store_other st0 c.pid q c.rp_state c.rp_details c.now hc
  refine ⟨lookup_store_other st p q s d now hne, fun st0 calls h => hseq calls st0 h, ?_⟩
  intro calls h
  rw [hseq calls _ h]
  unfold discord_ipc_lookup_pid g_hash_table_lookup
  by_cases hq : q ≤ 0 <;> simp [hq]

/-- C12 (witness): `test_presence_multiple_pids`, the write for pid 200 seen from pid 100. -/
theorem C12_write_is_invisible_to_other_pids_witness :
    discord_ipc_lookup_pid (some (discord_presence_store
        { presence_by_pid := some [(100, { state := some "State-A", details := some "Details-A",
                                           pid := 100, last_updated := 1 })] }
        200 (some "State-B") (some "Details-B") 2)) 100
      = discord_ipc_lookup_pid (some
        { presence_by_pid := some [(100, { state := some "State-A", details := some "Details-A",
                                           pid := 100, last_updated := 1 })] }) 100 :=
  (C12_write_is_invisible_to_other_pids _ 200 100 (some "State-B") (some "Details-B") 2
    (by decide)).1

theorem lookup_some_mem (t : GHashTable) (k : Int) (e : RichPresenceEntry)
    (h : List.lookup k t = some e) : (k, e) ∈ t := by
  induction t with
  | nil => simp at h
  | cons x xs ih =>
    obtain ⟨k1, e1⟩ := x
    rw [List.lookup_cons] at h
    by_cases hk : (k == k1) = true
    · rw [hk] at h
      have hk1 : k = k1 := by simpa using hk
      simp only [Option.some.injEq] at h
      rw [hk1, h]
      exact List.mem_cons_self _ _
    · have hk2 : (k == k1) = false := by simpa using hk
      rw [hk2] at h
      exact List.mem_cons_of_mem _ (ih h)

theorem insert_keeps_invariant (t : GHashTable) (pid : Int) (v : RichPresenceEntry)
    (hv : v.pid = pid) (hpos : 0 < pid)
    (hnd : (t.map Prod.fst).Nodup) (hent : ∀ k e, (k, e) ∈ t → e.pid = k ∧ 0 < k) :
    ((g_hash_table_insert t pid v).map Prod.fst).Nodup ∧
    ∀ k e, (k, e) ∈ g_hash_table_insert t pid v → e.pid = k ∧ 0 < k := by
  unfold g_hash_table_insert
  constructor
  · rw [List.map_cons, List.nodup_cons]
    constructor
    · intro hmem
      obtain ⟨ke, hke, hk⟩ := List.mem_map.1 hmem
      have hp := (List.mem_filter.1 hke).2
      simp only [ne_eq, decide_not, Bool.not_eq_true', decide_eq_false_iff_not] at hp
      exact hp hk
    · exact List.Nodup.sublist (List.Sublist.map Prod.fst (List.filter_sublist t)) hnd
  · intro k e hmem
    rcases List.mem_cons.1 hmem with h | h
    · have h1 : k = pid := (Prod.mk.inj h).1
      have h2 : e = v := (Prod.mk.inj h).2
      subst h1 h2
      exact ⟨hv, hpos⟩
    · exact hent k e (List.mem_filter.1 h).1

theorem store_keeps_invariant (st : DiscordIpcState) (c : StoreCall) (t : GHashTable)
    (ht : st.presence_by_pid = some t)
    (hnd : (t.map Prod.fst).Nodup) (hent : ∀ k e, (k, e) ∈ t → e.pid = k ∧ 0 < k) :
    ∃ t1, (discord_presence_store st c.pid c.rp_state c.rp_details c.now).presence_by_pid = some t1 ∧
      (t1.map Prod.fst).Nodup ∧ ∀ k e, (k, e) ∈ t1 → e.pid = k ∧ 0 < k := by
  by_cases hp : c.pid ≤ 0
  · rw [store_non_positive st c.pid c.rp_state c.rp_details c.now hp]
    exact ⟨t, ht, hnd, hent⟩
  · rw [store_table st t c.pid c.rp_state c.rp_details c.now ht (by omega)]
    exact ⟨_, rfl, insert_keeps_invariant t c.pid _ rfl (by omega) hnd hent⟩

theorem run_stores_keeps_invariant (calls : List StoreCall) :
    ∀ (st : DiscordIpcState) (t : GHashTable), st.presence_by_pid = some t →
      (t.map Prod.fst).Nodup → (∀ k e, (k, e) ∈ t → e.pid = k ∧ 0 < k) →
      ∃ t1, (run_presence_stores st calls).presence_by_pid = some t1 ∧
        (t1.map Prod.fst).Nodup ∧ ∀ k e, (k, e) ∈ t1 → e.pid = k ∧ 0 < k := by
  induction calls with
  | nil => intro st t ht hnd hent; exact ⟨t, ht, hnd, hent⟩
  | cons c cs ih =>
    intro st t ht hnd hent
    obtain ⟨t1, ht1, hnd1, hent1⟩ := store_keeps_invariant st c t ht hnd hent
    exact ih _ t1 ht1 hnd1 hent1

/-- C13: in every state reached from the empty table by a sequence of
`discord_presence_store` calls the table exists, no two entries have the same key (at most
one entry per PID), every entry is filed under the key equal to its own `pid` field, and
every stored pid is strictly positive. -/
theorem C13_store_invariant (calls : List StoreCall) :
    ∃ table, (run_presence_stores { presence_by_pid := some [] } calls).presence_by_pid
        = some table ∧
      (table.map Prod.fst).Nodup ∧
      (∀ k e, (k, e) ∈ table → e.pid = k ∧ 0 < k) ∧
      (∀ k e, discord_ipc_lookup_pid
          (some (run_presence_stores { presence_by_pid := some [] } calls)) k = some e →
        e.pid = k ∧ 0 < k) := by
  obtain ⟨t1, ht1, hnd1, hent1⟩ := run_stores_keeps_invariant calls
    { presence_by_pid := some [] } [] rfl List.nodup_nil (fun k e h => by simp at h)
  refine ⟨t1, ht1, hnd1, hent1, ?_⟩
  intro k e hl
  unfold discord_ipc_lookup_pid at hl
  simp only [ht1] at hl
  by_cases hk : k ≤ 0
  · simp [hk] at hl
  · simp only [hk, if_false] at hl
    unfold g_hash_table_lookup at hl
    exact hent1 k e (lookup_some_mem t1 k e hl)

/-! ## Synthetic handshake reply -/

theorem ready_response_value :
    discord_build_ready_response = (frame 1 ready_json, 8 + ready_json.length) := by
  decide

/-- C18: `discord_build_ready_response` produces exactly one well-formed frame: `out_len` is
the number of bytes written and exceeds 8, the header holds opcode `FRAME` and the length
`out_len - 8`, and `discord_parse_frame` on the output returns TRUE with opcode `FRAME`,
consumed `out_len` and the fixed JSON text as payload, which contains the markers `DISPATCH`
and `READY`. -/
theorem C18_ready_response_is_one_frame (out : FrameOut) :
    discord_build_ready_response.1.length = discord_build_ready_response.2 ∧
    DISCORD_HEADER_SIZE < discord_build_ready_response.2 ∧
    read_le32 discord_build_ready_response.1 0 = DISCORD_OP_FRAME ∧
    read_le32 discord_build_ready_response.1 4
      = discord_build_ready_response.2 - DISCORD_HEADER_SIZE ∧
    discord_parse_frame discord_build_ready_response.1 discord_build_ready_response.2
        true true out
      = (true, ⟨DISCORD_OP_FRAME, some ready_json, discord_build_ready_response.2⟩) ∧
    (∃ pre post, ready_json = pre ++ ascii "DISPATCH" ++ post) ∧
    (∃ pre post, ready_json = pre ++ ascii "READY" ++ post) := by
  refine ⟨by decide, by decide, by decide, by decide, ?_, ?_, ?_⟩
  · rw [parse_frame_true _ _ _ _ _ (by decide) (by decide)]
    have h1 : read_le32 discord_build_ready_response.1 0 = DISCORD_OP_FRAME := by decide
    have h2 : g_strndup (List.drop 8 discord_build_ready_response.1)
        (read_le32 discord_build_ready_response.1 4) = ready_json := by decide
    have h3 : (8 + read_le32 discord_build_ready_response.1 4) % 2 ^ 32
        = discord_build_ready_response.2 := by decide
    rw [h1, h2, h3]
    rfl
  · exact ⟨ascii "\x7b\"cmd\":\"", ascii "\",\"evt\":\"READY\",\"data\":\x7b\"v\":1,\"user\":\x7b\"id\":\"1\",\"username\":\"Proxy\",\"discriminator\":\"0\"\x7d\x7d\x7d", by decide⟩
  · exact ⟨ascii "\x7b\"cmd\":\"DISPATCH\",\"evt\":\"", ascii "\",\"data\":\x7b\"v\":1,\"user\":\x7b\"id\":\"1\",\"username\":\"Proxy\",\"discriminator\":\"0\"\x7d\x7d\x7d", by decide⟩

/-! ## Client data path -/

/-- The second test of `discord_parse_frame` fails: incomplete frame, nothing written. -/
theorem parse_frame_wrapped_short (data : List Byte) (len : Nat) (j c : Bool) (out : FrameOut)
    (h : len < (8 + read_le32 data 4) % 2 ^ 32) :
    discord_parse_frame data len j c out = (false, out) := by
  unfold discord_parse_frame
  simp only [DISCORD_HEADER_SIZE]
  by_cases h8 : len < 8
  · rw [if_pos h8]
  · rw [if_neg h8, if_pos h]

theorem answer_handshake_keeps (opcode : Nat) (w : ConnWorld) :
    (answer_handshake opcode w).ipc_state = w.ipc_state ∧
    (answer_handshake opcode w).upstream_sent = w.upstream_sent ∧
    (answer_handshake opcode w).time_calls = w.time_calls ∧
    (answer_handshake opcode w).conn.client_buf = w.conn.client_buf ∧
    (answer_handshake opcode w).conn.client_fd = w.conn.client_fd ∧
    (answer_handshake opcode w).conn.upstream_fd = w.conn.upstream_fd := by
  unfold answer_handshake
  split <;> exact ⟨rfl, rfl, rfl, rfl, rfl, rfl⟩

theorem store_keeps_other_fields (st : DiscordIpcState) (pid : Int) (s d : Option String)
    (now : Int) :
    (discord_presence_store st pid s d now).upstream_active = st.upstream_active ∧
    (discord_presence_store st pid s d now).connections = st.connections ∧
    (discord_presence_store st pid s d now).ipc_path = st.ipc_path ∧
    (discord_presence_store st pid s d now).real_ipc_path = st.real_ipc_path := by
  unfold discord_presence_store
  split
  · exact ⟨rfl, rfl, rfl, rfl⟩
  · split <;> exact ⟨rfl, rfl, rfl, rfl⟩

theorem intercept_keeps (parser : List Byte → Option (Option JsonNode)) (clock : Nat → Int)
    (opcode : Nat) (json : Option (List Byte)) (w : ConnWorld) :
    (intercept_set_activity parser clock opcode json w).conn = w.conn ∧
    (intercept_set_activity parser clock opcode json w).client_sent = w.client_sent ∧
    (intercept_set_activity parser clock opcode json w).upstream_sent = w.upstream_sent ∧
    (intercept_set_activity parser clock opcode json w).ipc_state.upstream_active
      = w.ipc_state.upstream_active := by
  unfold intercept_set_activity
  split
  · split
    · exact ⟨rfl, rfl, rfl, (store_keeps_other_fields _ _ _ _ _).1⟩
    · exact ⟨rfl, rfl, rfl, rfl⟩
  · exact ⟨rfl, rfl, rfl, rfl⟩

/-- What one turn of the loop does to the buffer and to the forwarded bytes. -/
theorem process_client_frame_some (parser : List Byte → Option (Option JsonNode))
    (clock : Nat → Int) (w w1 : ConnWorld) (h : process_client_frame parser clock w = some w1) :
    8 ≤ w.conn.client_buf.length ∧
    (8 + read_le32 w.conn.client_buf 4) % 2 ^ 32 ≤ w.conn.client_buf.length ∧
    w1.conn.client_buf = w.conn.client_buf.drop ((8 + read_le32 w.conn.client_buf 4) % 2 ^ 32) ∧
    w1.conn.upstream_fd = w.conn.upstream_fd ∧
    w1.conn.client_fd = w.conn.client_fd ∧
    w1.ipc_state.upstream_active = w.ipc_state.upstream_active ∧
    w1.upstream_sent =
      (if 0 ≤ w.conn.upstream_fd then
        w.upstream_sent ++ [w.conn.client_buf.take ((8 + read_le32 w.conn.client_buf 4) % 2 ^ 32)]
      else w.upstream_sent) := by
  unfold process_client_frame at h
  simp only [DISCORD_HEADER_SIZE] at h
  by_cases h8 : w.conn.client_buf.length < 8
  · rw [if_pos h8] at h; simp at h
  · rw [if_neg h8] at h
    by_cases hc : w.conn.client_buf.length < (8 + read_le32 w.conn.client_buf 4) % 2 ^ 32
    · have hp := parse_frame_wrapped_short w.conn.client_buf w.conn.client_buf.length true true
        { opcode := 0, json_out := none, consumed := 0 } hc
      rw [hp] at h
      simp at h
    · rw [parse_frame_true _ _ _ _ _ (by omega) (by omega)] at h
      simp only [if_true, Option.some.injEq] at h
      have ha := answer_handshake_keeps (read_le32 w.conn.client_buf 0) w
      have hi := intercept_keeps parser clock (read_le32 w.conn.client_buf 0)
        (some (g_strndup (List.drop 8 w.conn.client_buf) (read_le32 w.conn.client_buf 4)))
        (answer_handshake (read_le32 w.conn.client_buf 0) w)
      refine ⟨by omega, by omega, ?_, ?_, ?_, ?_, ?_⟩
      · rw [← h]
        by_cases hu : 0 ≤ w.conn.upstream_fd
        · simp [hi.1, ha.2.2.2.2.2, ha.2.2.2.1, hu]
        · simp [hi.1, ha.2.2.2.2.2, ha.2.2.2.1, hu]
      · rw [← h]
        by_cases hu : 0 ≤ w.conn.upstream_fd
        · simp [hi.1, ha.2.2.2.2.2, hu]
        · simp [hi.1, ha.2.2.2.2.2, hu]
      · rw [← h]
        by_cases hu : 0 ≤ w.conn.upstream_fd
        · simp [hi.1, ha.2.2.2.2.2, ha.2.2.2.2.1, hu]
        · simp [hi.1, ha.2.2.2.2.2, ha.2.2.2.2.1, hu]
      · rw [← h]
        by_cases hu : 0 ≤ w.conn.upstream_fd
        · simp [hi.1, hi.2.2.2, ha.1, ha.2.2.2.2.2, hu]
        · simp [hi.1, hi.2.2.2, ha.1, ha.2.2.2.2.2, hu]
      · rw [← h]
        by_cases hu : 0 ≤ w.conn.upstream_fd
        · simp [hi.1, hi.2.2.1, ha.2.1, ha.2.2.2.1, ha.2.2.2.2.2, hu]
        · simp [hi.1, hi.2.2.1, ha.2.1, ha.2.2.2.2.2, hu]

theorem process_client_buffer_forwards (parser : List Byte → Option (Option JsonNode))
    (clock : Nat → Int) (fuel : Nat) :
    ∀ w w1 : ConnWorld, 0 ≤ w.conn.upstream_fd →
      process_client_buffer parser clock fuel w = some w1 →
      ∃ chunks : List (List Byte), w1.upstream_sent = w.upstream_sent ++ chunks ∧
        chunks.flatten ++ w1.conn.client_buf = w.conn.client_buf := by
  induction fuel with
  | zero => intro w w1 _ h; simp [process_client_buffer] at h
  | succ n ih =>
    intro w w1 hup h
    unfold process_client_buffer at h
    cases hs : process_client_frame parser clock w with
    | none =>
      rw [hs] at h
      simp only [Option.some.injEq] at h
      subst h
      exact ⟨[], by simp, by simp⟩
    | some w2 =>
      rw [hs] at h
      simp only at h
      obtain ⟨_, _, hbuf, hfd, _, _, hsent⟩ := process_client_frame_some parser clock w w2 hs
      rw [if_pos hup] at hsent
      obtain ⟨chunks, hc1, hc2⟩ := ih w2 w1 (by rw [hfd]; exact hup) h
      refine ⟨List.take ((8 + read_le32 w.conn.client_buf 4) % 2 ^ 32) w.conn.client_buf :: chunks,
        ?_, ?_⟩
      · rw [hc1, hsent]; simp
      · rw [List.flatten_cons, List.append_assoc, hc2, hbuf]
        exact List.take_append_drop _ _

/-- The loop ends within `len + 1` turns on every buffer in which no position holds a header
whose length field is `0xFFFFFFF8`, the value for which `8 + payload_len` wraps to 0. -/
theorem process_client_buffer_ends (parser : List Byte → Option (Option JsonNode))
    (clock : Nat → Int) (n : Nat) :
    ∀ w : ConnWorld, w.conn.client_buf.length < n →
      (∀ k, read_le32 (w.conn.client_buf.drop k) 4 ≠ 4294967288) →
      ∃ w1, process_client_buffer parser clock n w = some w1 := by
  induction n with
  | zero => intro w h _; omega
  | succ m ih =>
    intro w hlen hno
    unfold process_client_buffer
    cases hs : process_client_frame parser clock w with
    | none => exact ⟨w, rfl⟩
    | some w2 =>
      obtain ⟨h8, _, hbuf, _, _, _, _⟩ := process_client_frame_some parser clock w w2 hs
      have hpl := read_le32_lt w.conn.client_buf 4
      have h0 := hno 0
      rw [List.drop_zero] at h0
      have hpos : 0 < (8 + read_le32 w.conn.client_buf 4) % 2 ^ 32 := by omega
      apply ih w2
      · rw [hbuf, List.length_drop]; omega
      · intro k
        rw [hbuf, List.drop_drop]
        exact hno _

/-- C14: for a connection with an upstream socket, whenever `process_client_buffer` returns,
the buffers handed to `send` on `upstream_fd` during the call, concatenated in order, followed
by the bytes left in the client buffer, are the client buffer's contents on entry; and the
call does return, within `len + 1` turns of the loop, on every buffer in which no position
holds the length field `0xFFFFFFF8`. -/
theorem C14_forwards_exact_bytes (parser : List Byte → Option (Option JsonNode))
    (clock : Nat → Int) (w : ConnWorld) (hup : 0 ≤ w.conn.upstream_fd) :
    (∀ fuel w1, process_client_buffer parser clock fuel w = some w1 →
      ∃ chunks : List (List Byte), w1.upstream_sent = w.upstream_sent ++ chunks ∧
        chunks.flatten ++ w1.conn.client_buf = w.conn.client_buf) ∧
    ((∀ k, read_le32 (w.conn.client_buf.drop k) 4 ≠ 4294967288) →
      ∃ w1, process_client_buffer parser clock (w.conn.client_buf.length + 1) w = some w1) :=
  ⟨fun fuel w1 h => process_client_buffer_forwards parser clock fuel w w1 hup h,
   fun hno => process_client_buffer_ends parser clock _ w (Nat.lt_succ_self _) hno⟩

/-- C14 (witness): a connection with `upstream_fd = 5` whose buffer holds the frame with
opcode 7 and payload of two bytes followed by three more bytes: the frame is handed to `send`
and the three bytes stay. -/
theorem C14_forwards_exact_bytes_witness :
    ∃ chunks : List (List Byte),
      ([[7, 0, 0, 0, 2, 0, 0, 0, 123, 125]] : List (List Byte)) = [] ++ chunks ∧
      chunks.flatten ++ [1, 2, 3] = [7, 0, 0, 0, 2, 0, 0, 0, 123, 125, 1, 2, 3] :=
  (C14_forwards_exact_bytes (fun _ => none) (fun _ => 0)
    { conn := { client_fd := 4, upstream_fd := 5,
                client_buf := [7, 0, 0, 0, 2, 0, 0, 0, 123, 125, 1, 2, 3],
                upstream_buf := [], handshake_done := false },
      ipc_state := { upstream_active := true, presence_by_pid := some [] },
      client_sent := [], upstream_sent := [], time_calls := 0 }
    (by decide)).1 2
    { conn := { client_fd := 4, upstream_fd := 5, client_buf := [1, 2, 3],
                upstream_buf := [], handshake_done := false },
      ipc_state := { upstream_active := true, presence_by_pid := some [] },
      client_sent := [], upstream_sent := [[7, 0, 0, 0, 2, 0, 0, 0, 123, 125]], time_calls := 0 }
    (by decide)

/-- What one turn of the loop does to the handshake flag and to the bytes sent to the
client. -/
theorem process_client_frame_handshake (parser : List Byte → Option (Option JsonNode))
    (clock : Nat → Int) (w w1 : ConnWorld) (h : process_client_frame parser clock w = some w1) :
    ((read_le32 w.conn.client_buf 0 = DISCORD_OP_HANDSHAKE ∧ w.ipc_state.upstream_active = false
        ∧ w.conn.handshake_done = false) →
      w1.conn.handshake_done = true ∧
      w1.client_sent =
        (if 0 ≤ w.conn.client_fd then
          w.client_sent ++ [discord_build_ready_response.1.take discord_build_ready_response.2]
        else w.client_sent)) ∧
    (¬ (read_le32 w.conn.client_buf 0 = DISCORD_OP_HANDSHAKE ∧ w.ipc_state.upstream_active = false
        ∧ w.conn.handshake_done = false) →
      w1.conn.handshake_done = w.conn.handshake_done ∧ w1.client_sent = w.client_sent) := by
  unfold process_client_frame at h
  simp only [DISCORD_HEADER_SIZE] at h
  by_cases h8 : w.conn.client_buf.length < 8
  · rw [if_pos h8] at h; simp at h
  · rw [if_neg h8] at h
    by_cases hc : w.conn.client_buf.length < (8 + read_le32 w.conn.client_buf 4) % 2 ^ 32
    · rw [parse_frame_wrapped_short _ _ _ _ _ hc] at h
      simp at h
    · rw [parse_frame_true _ _ _ _ _ (by omega) (by omega)] at h
      simp only [if_true, Option.some.injEq] at h
      have hi := intercept_keeps parser clock (read_le32 w.conn.client_buf 0)
        (some (g_strndup (List.drop 8 w.conn.client_buf) (read_le32 w.conn.client_buf 4)))
        (answer_handshake (read_le32 w.conn.client_buf 0) w)
      have ha := answer_handshake_keeps (read_le32 w.conn.client_buf 0) w
      have hd : w1.conn.handshake_done
          = (answer_handshake (read_le32 w.conn.client_buf 0) w).conn.handshake_done := by
        rw [← h]
        by_cases hu : 0 ≤ w.conn.upstream_fd
        · simp [hi.1, ha.2.2.2.2.2, hu]
        · simp [hi.1, ha.2.2.2.2.2, hu]
      have hs : w1.client_sent
          = (answer_handshake (read_le32 w.conn.client_buf 0) w).client_sent := by
        rw [← h]
        by_cases hu : 0 ≤ w.conn.upstream_fd
        · simp [hi.1, hi.2.1, ha.2.2.2.2.2, hu]
        · simp [hi.1, hi.2.1, ha.2.2.2.2.2, hu]
      rw [hd, hs]
      unfold answer_handshake
      constructor
      · intro hcond
        rw [if_pos hcond]
        exact ⟨rfl, rfl⟩
      · intro hcond
        rw [if_neg hcond]
        exact ⟨rfl, rfl⟩

/-- The facts that hold in every world of a connection made by `on_server_accept`. -/
theorem conn_reach_invariant (parser : List Byte → Option (Option JsonNode))
    (clock : Nat → Int) (w0 w : ConnWorld) (hr : ConnReach parser clock w0 w)
    (hfd : 0 ≤ w0.conn.client_fd) (hsent : w0.client_sent = [])
    (hdone : w0.conn.handshake_done = false) :
    0 ≤ w.conn.client_fd ∧
    w.ipc_state.upstream_active = w0.ipc_state.upstream_active ∧
    (w.conn.handshake_done = false → w.client_sent = []) ∧
    (w.conn.handshake_done = true →
      w.client_sent = [discord_build_ready_response.1.take discord_build_ready_response.2] ∧
      w0.ipc_state.upstream_active = false) := by
  induction hr with
  | start => exact ⟨hfd, rfl, fun _ => hsent, fun h => by rw [hdone] at h; simp at h⟩
  | recv w chunk _ ih => exact ih
  | others w table tc _ ih => exact ih
  | turn w w1 _ hstep ih =>
    obtain ⟨i1, i2, i3, i4⟩ := ih
    obtain ⟨_, _, _, _, hcfd, hua, _⟩ := process_client_frame_some parser clock w w1 hstep
    obtain ⟨hyes, hno⟩ := process_client_frame_handshake parser clock w w1 hstep
    refine ⟨by rw [hcfd]; exact i1, by rw [hua]; exact i2, ?_, ?_⟩
    · intro hf
      by_cases hcond : read_le32 w.conn.client_buf 0 = DISCORD_OP_HANDSHAKE
          ∧ w.ipc_state.upstream_active = false ∧ w.conn.handshake_done = false
      · rw [(hyes hcond).1] at hf; simp at hf
      · obtain ⟨h1, h2⟩ := hno hcond
        rw [h2]
        exact i3 (by rw [← h1]; exact hf)
    · intro ht
      by_cases hcond : read_le32 w.conn.client_buf 0 = DISCORD_OP_HANDSHAKE
          ∧ w.ipc_state.upstream_active = false ∧ w.conn.handshake_done = false
      · obtain ⟨_, h2⟩ := hyes hcond
        rw [h2, if_pos i1, i3 hcond.2.2]
        exact ⟨rfl, by rw [← i2]; exact hcond.2.1⟩
      · obtain ⟨h1, h2⟩ := hno hcond
        rw [h2]
        exact i4 (by rw [← h1]; exact ht)

theorem on_server_accept_conn (st st1 : DiscordIpcState) (cond_error : Bool)
    (accept_result socket_result : Int) (connect_ok : Bool) (conn : ClientConnection)
    (h : on_server_accept st cond_error accept_result socket_result connect_ok
      = (st1, some conn)) :
    0 ≤ conn.client_fd ∧ conn.handshake_done = false ∧ conn.client_buf = [] ∧
    st1.upstream_active = st.upstream_active ∧
    (st.upstream_active = false → conn.upstream_fd = -1) := by
  unfold on_server_accept at h
  by_cases hc : cond_error = true
  · rw [if_pos hc] at h; simp at h
  · rw [if_neg hc] at h
    by_cases ha : accept_result < 0
    · rw [if_pos ha] at h; simp at h
    · rw [if_neg ha] at h
      simp only [Prod.mk.injEq, Option.some.injEq] at h
      obtain ⟨h1, h2⟩ := h
      subst h1 h2
      refine ⟨?_, ?_, ?_, rfl, ?_⟩
      · split
        · split
          · split
            · show 0 ≤ accept_result; omega
            · show 0 ≤ accept_result; omega
          · show 0 ≤ accept_result; omega
        · show 0 ≤ accept_result; omega
      · split
        · split
          · split <;> rfl
          · rfl
        · rfl
      · split
        · split
          · split <;> rfl
          · rfl
        · rfl
      · intro hua
        rw [if_neg (by rw [hua]; simp)]

theorem ready_response_take :
    discord_build_ready_response.1.take discord_build_ready_response.2
      = discord_build_ready_response.1 := by
  decide

/-- C15: for a connection made by `on_server_accept`, in every world it can reach: a turn of
the loop of `process_client_buffer` sends the synthetic reply to the client exactly when the
decoded opcode is `HANDSHAKE`, `upstream_active` is false and `handshake_done` is not set,
and it then sets the flag; in every other case nothing is sent and the flag is unchanged, so
a set flag stays set. Hence at most one reply has been sent, it has been sent exactly when
the flag is set, and none has been sent when upstream is active. -/
theorem C15_handshake_reply_at_most_once (parser : List Byte → Option (Option JsonNode))
    (clock : Nat → Int) (st st1 : DiscordIpcState) (cond_error : Bool)
    (accept_result socket_result : Int) (connect_ok : Bool) (conn : ClientConnection) (n : Nat)
    (w : ConnWorld)
    (hacc : on_server_accept st cond_error accept_result socket_result connect_ok
      = (st1, some conn))
    (hreach : ConnReach parser clock
      { conn := conn, ipc_state := st1, client_sent := [], upstream_sent := [], time_calls := n }
      w) :
    (∀ w1, process_client_frame parser clock w = some w1 →
      ((read_le32 w.conn.client_buf 0 = DISCORD_OP_HANDSHAKE ∧
          w.ipc_state.upstream_active = false ∧ w.conn.handshake_done = false) →
        w1.client_sent = w.client_sent ++ [discord_build_ready_response.1] ∧
        w1.conn.handshake_done = true) ∧
      (¬ (read_le32 w.conn.client_buf 0 = DISCORD_OP_HANDSHAKE ∧
          w.ipc_state.upstream_active = false ∧ w.conn.handshake_done = false) →
        w1.client_sent = w.client_sent ∧ w1.conn.handshake_done = w.conn.handshake_done)) ∧
    w.client_sent.length ≤ 1 ∧
    (w.client_sent = [discord_build_ready_response.1] ↔ w.conn.handshake_done = true) ∧
    (w.client_sent = [] ↔ w.conn.handshake_done = false) ∧
    (st.upstream_active = true → w.client_sent = []) := by
  obtain ⟨hfd0, hdone0, _, hua0, _⟩ :=
    on_server_accept_conn st st1 cond_error accept_result socket_result connect_ok conn hacc
  obtain ⟨i1, i2, i3, i4⟩ := conn_reach_invariant parser clock _ w hreach hfd0 rfl hdone0
  rw [ready_response_take] at i4
  refine ⟨?_, ?_, ?_, ?_, ?_⟩
  · intro w1 hstep
    obtain ⟨hyes, hno⟩ := process_client_frame_handshake parser clock w w1 hstep
    refine ⟨fun hcond => ?_, fun hcond => ?_⟩
    · obtain ⟨h1, h2⟩ := hyes hcond
      rw [if_pos i1, ready_response_take] at h2
      exact ⟨h2, h1⟩
    · obtain ⟨h1, h2⟩ := hno hcond
      exact ⟨h2, h1⟩
  · cases hd : w.conn.handshake_done with
    | false => rw [i3 hd]; simp
    | true => rw [(i4 hd).1]; simp
  · constructor
    · intro hs
      cases hd : w.conn.handshake_done with
      | false => rw [i3 hd] at hs; simp at hs
      | true => rfl
    · intro hd
      exact (i4 hd).1
  · constructor
    · intro hs
      cases hd : w.conn.handshake_done with
      | false => rfl
      | true => rw [(i4 hd).1] at hs; simp at hs
    · intro hd
      exact i3 hd
  · intro hua
    cases hd : w.conn.handshake_done with
    | false => exact i3 hd
    | true =>
      have h1 := (i4 hd).2
      have h2 : st1.upstream_active = true := by rw [hua0]; exact hua
      have h3 : st1.upstream_active = false := h1
      rw [h2] at h3
      simp at h3

/-- C15 (witness): passive mode, a connection accepted on descriptor 4 receives the
handshake frame with payload of two bytes and one turn of the loop answers it: one reply
sent, flag set. -/
theorem C15_handshake_reply_at_most_once_witness :
    ([discord_build_ready_response.1] : List (List Byte)).length ≤ 1 ∧
    (([discord_build_ready_response.1] : List (List Byte)) = [discord_build_ready_response.1]
      ↔ true = true) :=
  have h := C15_handshake_reply_at_most_once (fun _ => none) (fun _ => 0)
    { presence_by_pid := some [], connections := some [] }
    { presence_by_pid := some [],
      connections := some [{ client_fd := 4, upstream_fd := -1, client_buf := [],
                             upstream_buf := [], handshake_done := false }] }
    false 4 (-1) false
    { client_fd := 4, upstream_fd := -1, client_buf := [], upstream_buf := [],
      handshake_done := false }
    0
    { conn := { client_fd := 4, upstream_fd := -1, client_buf := [], upstream_buf := [],
                handshake_done := true },
      ipc_state :=
        { presence_by_pid := some [],
          connections := some [{ client_fd := 4, upstream_fd := -1, client_buf := [],
                                 upstream_buf := [], handshake_done := false }] },
      client_sent := [discord_build_ready_response.1], upstream_sent := [], time_calls := 0 }
    (by decide)
    (ConnReach.turn _ _
      (ConnReach.recv _ [0, 0, 0, 0, 2, 0, 0, 0, 123, 125] ConnReach.start) (by decide))
  ⟨h.2.1, h.2.2.1⟩

/-- A turn of the loop on a buffer that starts with a complete frame does what `frame_turn`
says. -/
theorem process_client_frame_on_frame (parser : List Byte → Option (Option JsonNode))
    (clock : Nat → Int) (w : ConnWorld) (O : Nat) (P rest : List Byte)
    (hbuf : w.conn.client_buf = frame O P ++ rest) (hO : O < 2 ^ 32)
    (hP : P.length + 8 < 2 ^ 32) :
    process_client_frame parser clock w = some (frame_turn parser clock w (O, P) rest) := by
  have hlen : (frame O P ++ rest).length = 8 + P.length + rest.length := by
    rw [List.length_append, frame_length]
  have hparse := parse_frame_append O P rest { opcode := 0, json_out := none, consumed := 0 } hO hP
  unfold process_client_frame
  simp only [DISCORD_HEADER_SIZE]
  rw [hbuf, if_neg (by rw [hlen]; omega), hparse]
  have ha := answer_handshake_keeps O w
  have hi := intercept_keeps parser clock O (some (cstr P)) (answer_handshake O w)
  have htake : List.take (8 + P.length) (frame O P ++ rest) = frame O P := by
    rw [List.take_left']; exact frame_length O P
  have hdrop : List.drop (8 + P.length) (frame O P ++ rest) = rest := by
    rw [List.drop_left']; exact frame_length O P
  unfold frame_turn
  simp only [hi.1, ha.2.2.2.1, hbuf, htake, hdrop]
  by_cases hu : 0 ≤ (answer_handshake O w).conn.upstream_fd
  · simp only [hu, if_true, hi.1]
    rw [ha.2.2.2.1, hbuf, hdrop]
  · simp only [hu, if_false, hi.1]
    rw [ha.2.2.2.1, hbuf, hdrop]

theorem encode_frames_cons (f : Nat × List Byte) (fs : List (Nat × List Byte)) :
    encode_frames (f :: fs) = frame f.1 f.2 ++ encode_frames fs := by
  simp [encode_frames]

/-- Handling a buffer that starts with the complete frames `fs` takes one turn of the loop per
frame and continues from `run_frames`. -/
theorem process_client_buffer_on_frames (parser : List Byte → Option (Option JsonNode))
    (clock : Nat → Int) (fs : List (Nat × List Byte)) :
    ∀ (w : ConnWorld) (rest : List Byte) (fuel : Nat),
      w.conn.client_buf = encode_frames fs ++ rest →
      (∀ f ∈ fs, f.1 < 2 ^ 32 ∧ f.2.length + 8 < 2 ^ 32) →
      process_client_buffer parser clock (fs.length + fuel) w
        = process_client_buffer parser clock fuel (run_frames parser clock w fs rest) := by
  induction fs with
  | nil =>
    intro w rest fuel hbuf _
    have hw : run_frames parser clock w [] rest = w := by
      unfold run_frames
      have : rest = w.conn.client_buf := by rw [hbuf]; simp [encode_frames]
      rw [this]
    rw [hw]
    simp
  | cons f fs ih =>
    intro w rest fuel hbuf hall
    have hf := hall f (List.mem_cons_self f fs)
    have hrest : ∀ g ∈ fs, g.1 < 2 ^ 32 ∧ g.2.length + 8 < 2 ^ 32 :=
      fun g hg => hall g (List.mem_cons_of_mem f hg)
    rw [encode_frames_cons, List.append_assoc] at hbuf
    have hstep := process_client_frame_on_frame parser clock w f.1 f.2
      (encode_frames fs ++ rest) hbuf hf.1 hf.2
    have hlen : (f :: fs).length + fuel = (fs.length + fuel) + 1 := by
      simp only [List.length_cons]; omega
    rw [hlen]
    show (match process_client_frame parser clock w with
      | none => some w
      | some w1 => process_client_buffer parser clock (fs.length + fuel) w1) = _
    rw [hstep]
    exact ih _ rest fuel rfl hrest

/-- The loop ends at once on a buffer that holds no complete frame. -/
theorem process_client_buffer_on_incomplete (parser : List Byte → Option (Option JsonNode))
    (clock : Nat → Int) (w : ConnWorld) (fuel : Nat)
    (hT : w.conn.client_buf.length < 8 ∨
      w.conn.client_buf.length < (8 + read_le32 w.conn.client_buf 4) % 2 ^ 32) :
    process_client_buffer parser clock (fuel + 1) w = some w := by
  have hstep : process_client_frame parser clock w = none := by
    unfold process_client_frame
    simp only [DISCORD_HEADER_SIZE]
    rcases hT with h | h
    · rw [if_pos h]
    · by_cases h8 : w.conn.client_buf.length < 8
      · rw [if_pos h8]
      · rw [if_neg h8, parse_frame_wrapped_short _ _ _ _ _ h]
  show (match process_client_frame parser clock w with
    | none => some w
    | some w1 => process_client_buffer parser clock fuel w1) = _
  rw [hstep]

/-- The presence table after the loop body has handled a complete frame. -/
theorem frame_turn_ipc_state (parser : List Byte → Option (Option JsonNode))
    (clock : Nat → Int) (w : ConnWorld) (f : Nat × List Byte) (rest : List Byte) :
    (frame_turn parser clock w f rest).ipc_state =
      match frame_activity parser f with
      | some act =>
        discord_presence_store w.ipc_state act.pid act.state act.details (clock w.time_calls)
      | none => w.ipc_state := by
  have ha := answer_handshake_keeps f.1 w
  unfold frame_turn frame_activity intercept_set_activity
  by_cases hop : f.1 = DISCORD_OP_FRAME
  · simp only [hop, Option.isSome_some, and_self, if_true]
    cases hx : discord_extract_activity parser (some (cstr f.2))
        { pid := 0, state := none, details := none } with
    | mk ok act =>
      cases ok with
      | true =>
        simp only
        rw [← hop, ha.1, ha.2.2.1]
      | false =>
        simp only
        rw [← hop, ha.1]
  · simp only [hop, false_and, if_false]
    exact ha.1

theorem frame_turn_buf (parser : List Byte → Option (Option JsonNode))
    (clock : Nat → Int) (w : ConnWorld) (f : Nat × List Byte) (rest : List Byte) :
    (frame_turn parser clock w f rest).conn.client_buf = rest := rfl

theorem frame_turn_upstream (parser : List Byte → Option (Option JsonNode))
    (clock : Nat → Int) (w : ConnWorld) (f : Nat × List Byte) (rest : List Byte) :
    (frame_turn parser clock w f rest).upstream_sent =
      (if 0 ≤ w.conn.upstream_fd then w.upstream_sent ++ [frame f.1 f.2] else w.upstream_sent) := by
  have ha := answer_handshake_keeps f.1 w
  have hi := intercept_keeps parser clock f.1 (some (cstr f.2)) (answer_handshake f.1 w)
  unfold frame_turn
  simp only [hi.1, hi.2.2.1, ha.2.1, ha.2.2.2.2.2]

theorem store_table_some (st : DiscordIpcState) (pid : Int) (s d : Option String) (now : Int)
    (h : st.presence_by_pid.isSome = true) :
    (discord_presence_store st pid s d now).presence_by_pid.isSome = true := by
  unfold discord_presence_store
  cases ht : st.presence_by_pid with
  | none => rw [ht] at h; simp at h
  | some t =>
    simp only
    split
    · rw [ht]; rfl
    · rfl

theorem frame_turn_table_some (parser : List Byte → Option (Option JsonNode))
    (clock : Nat → Int) (w : ConnWorld) (f : Nat × List Byte) (rest : List Byte)
    (h : w.ipc_state.presence_by_pid.isSome = true) :
    (frame_turn parser clock w f rest).ipc_state.presence_by_pid.isSome = true := by
  rw [frame_turn_ipc_state]
  split
  · exact store_table_some _ _ _ _ _ h
  · exact h

theorem run_frames_buf (parser : List Byte → Option (Option JsonNode))
    (clock : Nat → Int) (fs : List (Nat × List Byte)) :
    ∀ (w : ConnWorld) (rest : List Byte),
      (run_frames parser clock w fs rest).conn.client_buf = rest := by
  induction fs with
  | nil => intro w rest; rfl
  | cons f fs ih => intro w rest; exact ih _ rest

theorem run_frames_table_some (parser : List Byte → Option (Option JsonNode))
    (clock : Nat → Int) (fs : List (Nat × List Byte)) :
    ∀ (w : ConnWorld) (rest : List Byte), w.ipc_state.presence_by_pid.isSome = true →
      (run_frames parser clock w fs rest).ipc_state.presence_by_pid.isSome = true := by
  induction fs with
  | nil => intro w rest h; exact h
  | cons f fs ih =>
    intro w rest h
    exact ih _ rest (frame_turn_table_some parser clock w f _ h)

/-- Frames that carry no update for pid `p` leave the entry of `p` as it is. -/
theorem run_frames_lookup_other (parser : List Byte → Option (Option JsonNode))
    (clock : Nat → Int) (p : Int) (fs : List (Nat × List Byte)) :
    ∀ (w : ConnWorld) (rest : List Byte),
      (∀ f ∈ fs, ∀ act, frame_activity parser f = some act → act.pid ≠ p) →
      discord_ipc_lookup_pid (some (run_frames parser clock w fs rest).ipc_state) p
        = discord_ipc_lookup_pid (some w.ipc_state) p := by
  induction fs with
  | nil => intro w rest _; rfl
  | cons f fs ih =>
    intro w rest hall
    have hrest : ∀ g ∈ fs, ∀ act, frame_activity parser g = some act → act.pid ≠ p :=
      fun g hg => hall g (List.mem_cons_of_mem f hg)
    show discord_ipc_lookup_pid (some (run_frames parser clock
      (frame_turn parser clock w f (encode_frames fs ++ rest)) fs rest).ipc_state) p = _
    rw [ih _ rest hrest, frame_turn_ipc_state]
    cases hfa : frame_activity parser f with
    | none => rfl
    | some act =>
      exact lookup_store_other w.ipc_state act.pid p act.state act.details _
        (fun h => hall f (List.mem_cons_self f fs) act hfa h.symm)

theorem frame_length_le_encode (fs : List (Nat × List Byte)) (f : Nat × List Byte)
    (h : f ∈ fs) : 8 + f.2.length ≤ (encode_frames fs).length := by
  induction fs with
  | nil => simp at h
  | cons g gs ih =>
    rw [encode_frames_cons, List.length_append, frame_length]
    rcases List.mem_cons.1 h with h1 | h1
    · rw [h1]; omega
    · have := ih h1; omega

theorem frame_activity_of_extract (parser : List Byte → Option (Option JsonNode))
    (P : List Byte) (act : ActivityOut)
    (h : discord_extract_activity parser (some (cstr P))
      { pid := 0, state := none, details := none } = (true, act)) :
    frame_activity parser (DISCORD_OP_FRAME, P) = some act := by
  unfold frame_activity
  simp only [if_true]
  rw [h]

/-- C16: let the client buffer (shorter than `2 ^ 32` bytes, as every `GByteArray`) consist
of complete frames, then a complete frame with opcode `FRAME` whose payload
`discord_extract_activity` reads as pid `p > 0`, state `s` and details `d`, then complete
frames none of which carries an update for `p`, then an incomplete remainder. If the presence
table exists, `process_client_buffer` returns after one turn per frame, leaves the remainder
buffered, and `discord_ipc_lookup_pid (p)` then yields exactly `s` and `d`, whether or not
there is an upstream. -/
theorem C16_set_activity_frame_is_stored (parser : List Byte → Option (Option JsonNode))
    (clock : Nat → Int) (w : ConnWorld) (table : GHashTable)
    (pre post : List (Nat × List Byte)) (P T : List Byte) (p : Int) (s d : Option String)
    (htable : w.ipc_state.presence_by_pid = some table)
    (hbuf : w.conn.client_buf
      = encode_frames pre ++ (frame DISCORD_OP_FRAME P ++ (encode_frames post ++ T)))
    (hlen : w.conn.client_buf.length < 2 ^ 32)
    (hpre : ∀ f ∈ pre, f.1 < 2 ^ 32) (hpost : ∀ f ∈ post, f.1 < 2 ^ 32)
    (hext : discord_extract_activity parser (some (cstr P))
      { pid := 0, state := none, details := none }
      = (true, { pid := p, state := s, details := d }))
    (hp : 0 < p)
    (hlast : ∀ f ∈ post, ∀ act, frame_activity parser f = some act → act.pid ≠ p)
    (hT : T.length < 8 ∨ T.length < (8 + read_le32 T 4) % 2 ^ 32) :
    ∃ w1, process_client_buffer parser clock (pre.length + post.length + 2) w = some w1 ∧
      w1.conn.client_buf = T ∧
      ∃ t, discord_ipc_lookup_pid (some w1.ipc_state) p
        = some { state := s, details := d, pid := p, last_updated := t } := by
  have hl : (encode_frames pre).length + ((8 + P.length) + ((encode_frames post).length + T.length))
      < 2 ^ 32 := by
    rw [hbuf] at hlen
    simpa [List.length_append, frame_length] using hlen
  have hpre2 : ∀ f ∈ pre, f.1 < 2 ^ 32 ∧ f.2.length + 8 < 2 ^ 32 := fun f hf =>
    ⟨hpre f hf, by have := frame_length_le_encode pre f hf; omega⟩
  have hpost2 : ∀ f ∈ post, f.1 < 2 ^ 32 ∧ f.2.length + 8 < 2 ^ 32 := fun f hf =>
    ⟨hpost f hf, by have := frame_length_le_encode post f hf; omega⟩
  -- the frames before
  have h1 := process_client_buffer_on_frames parser clock pre w
    (frame DISCORD_OP_FRAME P ++ (encode_frames post ++ T)) (post.length + 2) hbuf hpre2
  have hfuel : pre.length + post.length + 2 = pre.length + (post.length + 2) := by omega
  rw [hfuel, h1]
  -- the frame itself
  have hb2 := run_frames_buf parser clock pre w (frame DISCORD_OP_FRAME P ++ (encode_frames post ++ T))
  have hs2 := run_frames_table_some parser clock pre w
    (frame DISCORD_OP_FRAME P ++ (encode_frames post ++ T)) (by rw [htable]; rfl)
  generalize run_frames parser clock w pre
    (frame DISCORD_OP_FRAME P ++ (encode_frames post ++ T)) = wa at hb2 hs2 ⊢
  have hstep := process_client_frame_on_frame parser clock wa DISCORD_OP_FRAME P
    (encode_frames post ++ T) hb2 (by decide) (by omega)
  have hunf : process_client_buffer parser clock (post.length + 2) wa
      = process_client_buffer parser clock (post.length + 1)
          (frame_turn parser clock wa (DISCORD_OP_FRAME, P) (encode_frames post ++ T)) := by
    show (match process_client_frame parser clock wa with
      | none => some wa
      | some w1 => process_client_buffer parser clock (post.length + 1) w1) = _
    rw [hstep]
  rw [hunf]
  -- the frames after
  have h3 := process_client_buffer_on_frames parser clock post
    (frame_turn parser clock wa (DISCORD_OP_FRAME, P) (encode_frames post ++ T)) T 1 rfl hpost2
  rw [h3]
  have hb4 := run_frames_buf parser clock post
    (frame_turn parser clock wa (DISCORD_OP_FRAME, P) (encode_frames post ++ T)) T
  have hend := process_client_buffer_on_incomplete parser clock
    (run_frames parser clock
      (frame_turn parser clock wa (DISCORD_OP_FRAME, P) (encode_frames post ++ T)) post T) 0
    (by rw [hb4]; exact hT)
  refine ⟨_, hend, hb4, clock wa.time_calls, ?_⟩
  rw [run_frames_lookup_other parser clock p post _ T hlast, frame_turn_ipc_state,
    frame_activity_of_extract parser P _ hext]
  obtain ⟨ta, hta⟩ := Option.isSome_iff_exists.1 hs2
  exact lookup_after_store wa.ipc_state ta p s d _ hta hp

/-- C16 (witness): passive mode, the buffer holds one `SET_ACTIVITY` frame with pid 42 and
state `Testing`; afterwards the lookup of pid 42 yields state `Testing`. -/
theorem C16_set_activity_frame_is_stored_witness :
    ∃ w1, process_client_buffer
        (fun _ => some (some (JsonNode.object
          [("cmd", JsonNode.string "SET_ACTIVITY"),
           ("args", JsonNode.object
             [("pid", JsonNode.int 42),
              ("activity", JsonNode.object [("state", JsonNode.string "Testing")])])])))
        (fun _ => 1000) (([] : List (Nat × List Byte)).length
          + ([] : List (Nat × List Byte)).length + 2)
        { conn := { client_fd := 4, upstream_fd := -1,
                    client_buf := frame DISCORD_OP_FRAME (ascii "\x7b\"cmd\":\"SET_ACTIVITY\",\"args\":\x7b\"pid\":42,\"activity\":\x7b\"state\":\"Testing\"\x7d\x7d\x7d"),
                    upstream_buf := [], handshake_done := true },
          ipc_state := { presence_by_pid := some [] },
          client_sent := [], upstream_sent := [], time_calls := 0 } = some w1 ∧
      w1.conn.client_buf = [] ∧
      ∃ t, discord_ipc_lookup_pid (some w1.ipc_state) 42
        = some { state := some "Testing", details := none, pid := 42, last_updated := t } :=
  C16_set_activity_frame_is_stored _ _
    { conn := { client_fd := 4, upstream_fd := -1,
                client_buf := frame DISCORD_OP_FRAME (ascii "\x7b\"cmd\":\"SET_ACTIVITY\",\"args\":\x7b\"pid\":42,\"activity\":\x7b\"state\":\"Testing\"\x7d\x7d\x7d"),
                upstream_buf := [], handshake_done := true },
      ipc_state := { presence_by_pid := some [] },
      client_sent := [], upstream_sent := [], time_calls := 0 }
    [] [] []
    (ascii "\x7b\"cmd\":\"SET_ACTIVITY\",\"args\":\x7b\"pid\":42,\"activity\":\x7b\"state\":\"Testing\"\x7d\x7d\x7d")
    [] 42 (some "Testing") none
    rfl (by decide) (by decide) (by simp) (by simp) (by decide) (by decide) (by simp)
    (Or.inl (by decide))

theorem frame_activity_some (parser : List Byte → Option (Option JsonNode))
    (O : Nat) (P : List Byte) (act : ActivityOut)
    (h : frame_activity parser (O, P) = some act) :
    O = DISCORD_OP_FRAME ∧
    discord_extract_activity parser (some (cstr P))
      { pid := 0, state := none, details := none } = (true, act) := by
  unfold frame_activity at h
  by_cases hop : O = DISCORD_OP_FRAME
  · simp only [hop, if_true] at h
    cases hx : discord_extract_activity parser (some (cstr P))
        { pid := 0, state := none, details := none } with
    | mk ok a =>
      rw [hx] at h
      cases ok with
      | true =>
        simp only [Option.some.injEq] at h
        rw [h]
        exact ⟨hop, rfl⟩
      | false => simp at h
  · simp only [hop, if_false] at h
    simp at h

/-- C17: when the client buffer starts with a complete frame whose opcode is not `FRAME`, or
on whose payload `discord_extract_activity` returns FALSE (no JSON, not an object, a `cmd`
other than `SET_ACTIVITY`), or returns a pid `<= 0`, the turn of the loop of
`process_client_buffer` that handles it leaves the proxy state, presence table included,
exactly as it was, removes the frame from the buffer, and, when `upstream_fd >= 0`, hands the
frame's bytes unchanged to `send`. -/
theorem C17_other_frames_leave_store_unchanged (parser : List Byte → Option (Option JsonNode))
    (clock : Nat → Int) (w : ConnWorld) (O : Nat) (P rest : List Byte)
    (hbuf : w.conn.client_buf = frame O P ++ rest) (hO : O < 2 ^ 32)
    (hP : P.length + 8 < 2 ^ 32)
    (hnot : O ≠ DISCORD_OP_FRAME ∨
      (discord_extract_activity parser (some (cstr P))
        { pid := 0, state := none, details := none }).1 = false ∨
      (discord_extract_activity parser (some (cstr P))
        { pid := 0, state := none, details := none }).2.pid ≤ 0) :
    ∃ w1, process_client_frame parser clock w = some w1 ∧
      (∀ fuel, process_client_buffer parser clock (fuel + 1) w
        = process_client_buffer parser clock fuel w1) ∧
      w1.ipc_state = w.ipc_state ∧
      w1.conn.client_buf = rest ∧
      (0 ≤ w.conn.upstream_fd → w1.upstream_sent = w.upstream_sent ++ [frame O P]) := by
  have hstep := process_client_frame_on_frame parser clock w O P rest hbuf hO hP
  refine ⟨_, hstep, ?_, ?_, rfl, ?_⟩
  · intro fuel
    show (match process_client_frame parser clock w with
      | none => some w
      | some w1 => process_client_buffer parser clock fuel w1) = _
    rw [hstep]
  · rw [frame_turn_ipc_state]
    cases hfa : frame_activity parser (O, P) with
    | none => rfl
    | some act =>
      obtain ⟨hop, hx⟩ := frame_activity_some parser O P act hfa
      rcases hnot with h | h | h
      · exact absurd hop h
      · rw [hx] at h; simp at h
      · rw [hx] at h
        exact store_non_positive _ _ _ _ _ h
  · intro hu
    rw [frame_turn_upstream, if_pos hu]

/-- C17 (witness): with an upstream on descriptor 5, a handshake frame (opcode 0) followed by
one more byte: the table with its entry for pid 7 is unchanged and the frame is forwarded. -/
theorem C17_other_frames_leave_store_unchanged_witness :
    ∃ w1, process_client_frame (fun _ => none) (fun _ => 0)
        { conn := { client_fd := 4, upstream_fd := 5,
                    client_buf := frame 0 [123, 125] ++ [9],
                    upstream_buf := [], handshake_done := false },
          ipc_state :=
            { upstream_active := true,
              presence_by_pid := some [(7, { state := some "A", details := none, pid := 7,
                                             last_updated := 1 })] },
          client_sent := [], upstream_sent := [], time_calls := 0 } = some w1 ∧
      w1.ipc_state =
        { upstream_active := true,
          presence_by_pid := some [(7, { state := some "A", details := none, pid := 7,
                                         last_updated := 1 })] } ∧
      w1.conn.client_buf = [9] ∧
      w1.upstream_sent = [] ++ [frame 0 [123, 125]] :=
  have h := C17_other_frames_leave_store_unchanged (fun _ => none) (fun _ => 0)
    { conn := { client_fd := 4, upstream_fd := 5,
                client_buf := frame 0 [123, 125] ++ [9],
                upstream_buf := [], handshake_done := false },
      ipc_state :=
        { upstream_active := true,
          presence_by_pid := some [(7, { state := some "A", details := none, pid := 7,
                                         last_updated := 1 })] },
      client_sent := [], upstream_sent := [], time_calls := 0 }
    0 [123, 125] [9] rfl (by norm_num) (by simp) (Or.inl (by decide))
  h.elim fun w1 hw => ⟨w1, hw.1, hw.2.2.1, hw.2.2.2.1, hw.2.2.2.2 (by decide)⟩

/-! ## Socket takeover and restoration -/

theorem ipc_paths_differ (dir : String) :
    g_build_filename dir "discord-ipc-0" ≠ g_build_filename dir "discord-ipc-original" := by
  intro h
  unfold g_build_filename at h
  have h2 := congrArg String.data h
  simp only [String.data_append] at h2
  have h3 := List.append_cancel_left h2
  revert h3
  decide

theorem setup_fail_returns_false (state : DiscordIpcState) (p q : String) (fs : FileSystem) :
    (setup_fail state p q fs).1 = false := rfl

theorem setup_listen_keeps_mode (env : SetupEnv) (state : DiscordIpcState) (p q : String)
    (fs : FileSystem) :
    (setup_listen env state p q fs).2.1.upstream_active = state.upstream_active := by
  unfold setup_listen setup_fail
  by_cases hs : env.server_socket_fd < 0
  · simp only [hs, if_true]
    split <;> rfl
  · simp only [hs, if_false]
    split
    · simp only
      split <;> rfl
    · split
      · simp only
        split <;> rfl
      · rfl

/-- What a successful end of `discord_ipc_setup` means. -/
theorem setup_listen_true (env : SetupEnv) (state st1 : DiscordIpcState) (p q : String)
    (fs fs1 : FileSystem) (h : setup_listen env state p q fs = (true, st1, fs1)) :
    0 ≤ env.server_socket_fd ∧ fs.files p = none ∧
    st1 = { state with server_fd := env.server_socket_fd, active := true } ∧
    fs1 = fs_listen
      { files := fun r =>
          if r = p then some { owner := SocketOwner.proxy, listening := false } else fs.files r
        calls := fs.calls ++ [FsCall.bind p] } p := by
  unfold setup_listen at h
  by_cases hs : env.server_socket_fd < 0
  · rw [if_pos hs] at h
    have := congrArg Prod.fst h
    rw [setup_fail_returns_false] at this
    simp at this
  · rw [if_neg hs] at h
    unfold fs_bind at h
    by_cases hb : env.bind_ok = true ∧ fs.files p = none
    · rw [if_pos hb] at h
      simp only at h
      by_cases hl : env.listen_ok = false
      · rw [if_pos hl] at h
        have := congrArg Prod.fst h
        rw [setup_fail_returns_false] at this
        simp at this
      · rw [if_neg hl] at h
        simp only [Prod.mk.injEq, true_and] at h
        exact ⟨by omega, hb.2, h.1.symm, h.2.symm⟩
    · rw [if_neg hb] at h
      simp only at h
      have := congrArg Prod.fst h
      rw [setup_fail_returns_false] at this
      simp at this

/-- What a successful `discord_ipc_setup` with `upstream_active` set has done: the file found
at the canonical path was listened on, it is now at the relocated path, and the proxy's own
listening socket is at the canonical path. -/
theorem setup_at_hijacked (env : SetupEnv) (p q : String) (fs fs1 : FileSystem)
    (st : DiscordIpcState) (hpq : p ≠ q)
    (h : setup_at env p q fs = (true, st, fs1)) (hup : st.upstream_active = true) :
    ∃ f : SocketFile, f.listening = true ∧
      fs1.files p = some { owner := SocketOwner.proxy, listening := true } ∧
      fs1.files q = some f ∧
      st = { ipc_path := some p, real_ipc_path := some q, upstream_active := true,
             server_fd := env.server_socket_fd, presence_by_pid := some [],
             connections := some [], active := true } := by
  unfold setup_at at h
  simp only at h
  generalize (if g_file_test_exists fs q = true then
      fs_rename (if g_file_test_exists fs p = true then fs_unlink fs p else fs) q p
    else fs) = fsr at h
  by_cases he : g_file_test_exists fsr p = true
  · rw [if_pos he] at h
    by_cases ha : is_discord_socket_alive fsr env.probe_socket_fd (some p) = true
    · rw [if_pos ha] at h
      by_cases hr : env.hijack_rename_ok = true
      · rw [if_pos hr] at h
        obtain ⟨_, _, hst, hfs⟩ := setup_listen_true env _ st p q _ fs1 h
        unfold is_discord_socket_alive at ha
        simp only at ha
        cases hf : fsr.files p with
        | none => rw [hf] at ha; simp at ha
        | some f =>
          rw [hf] at ha
          simp only at ha
          have hlisten : f.listening = true := by
            by_cases hp : env.probe_socket_fd < 0
            · rw [if_pos hp] at ha; simp at ha
            · rw [if_neg hp] at ha; exact ha
          refine ⟨f, hlisten, ?_, ?_, hst⟩
          · rw [hfs]
            simp [fs_listen]
          · rw [hfs]
            have hqp : q ≠ p := fun h => hpq h.symm
            simp [fs_listen, fs_rename, hf, hqp]
      · rw [if_neg hr] at h
        have := congrArg Prod.fst h
        rw [setup_fail_returns_false] at this
        simp at this
    · rw [if_neg ha] at h
      have hm := setup_listen_keeps_mode env
        { ipc_path := some p, real_ipc_path := some q, upstream_active := false,
          server_fd := -1, presence_by_pid := some [], connections := some [],
          active := false } p q (fs_unlink fsr p)
      rw [h] at hm
      simp only at hm
      rw [hup] at hm
      simp at hm
  · rw [if_neg he] at h
    have hm := setup_listen_keeps_mode env
      { ipc_path := some p, real_ipc_path := some q, upstream_active := false,
        server_fd := -1, presence_by_pid := some [], connections := some [],
        active := false } p q fsr
    rw [h] at hm
    simp only at hm
    rw [hup] at hm
    simp at hm

/-- The loop of `discord_ipc_cleanup` over the connections empties the array when it is given
one turn per connection. -/
theorem close_all_connections_empties (n : Nat) :
    ∀ (st : DiscordIpcState) (cs : List ClientConnection) (closed : List Int),
      st.connections = some cs → cs.length ≤ n →
      (close_all_connections n st closed).1.connections = some [] := by
  induction n with
  | zero =>
    intro st cs closed hcs hlen
    have : cs = [] := List.length_eq_zero.1 (by omega)
    rw [this] at hcs
    exact hcs
  | succ m ih =>
    intro st cs closed hcs hlen
    unfold close_all_connections
    cases cs with
    | nil => simp only [hcs]
    | cons c cs1 =>
      simp only [hcs]
      apply ih _ cs1
      · unfold close_connection
        simp only [hcs, Option.map_some', List.erase_cons_head]
      · simp only [List.length_cons] at hlen
        omega

theorem close_all_connections_keeps (n : Nat) :
    ∀ (st : DiscordIpcState) (closed : List Int),
      (close_all_connections n st closed).1.ipc_path = st.ipc_path ∧
      (close_all_connections n st closed).1.real_ipc_path = st.real_ipc_path ∧
      (close_all_connections n st closed).1.server_fd = st.server_fd ∧
      (close_all_connections n st closed).1.active = st.active := by
  induction n with
  | zero => intro st closed; exact ⟨rfl, rfl, rfl, rfl⟩
  | succ m ih =>
    intro st closed
    unfold close_all_connections
    split
    · next c cs hcs =>
      obtain ⟨h1, h2, h3, h4⟩ := ih (close_connection st (some c)).1
        (closed ++ (close_connection st (some c)).2)
      exact ⟨h1, h2, h3, h4⟩
    · exact ⟨rfl, rfl, rfl, rfl⟩

/-- When `discord_ipc_setup` has relocated a live socket and then fails to create or to bind
its own socket, the `fail:` block puts the relocated socket back at the canonical path. -/
theorem setup_rollback_before_listen (env : SetupEnv) (p q : String) (fs : FileSystem)
    (f : SocketFile) (hpq : p ≠ q)
    (hq : fs.files q = none) (hp : fs.files p = some f) (hlive : f.listening = true)
    (hprobe : 0 ≤ env.probe_socket_fd) (hren : env.hijack_rename_ok = true)
    (hfail : env.server_socket_fd < 0 ∨ env.bind_ok = false) :
    (setup_at env p q fs).1 = false ∧
    (setup_at env p q fs).2.2.files p = some f ∧
    (setup_at env p q fs).2.2.files q = none := by
  have hqp : q ≠ p := fun h => hpq h.symm
  have he : g_file_test_exists fs p = true := by simp [g_file_test_exists, hp]
  have hne : g_file_test_exists fs q = false := by simp [g_file_test_exists, hq]
  have ha : is_discord_socket_alive fs env.probe_socket_fd (some p) = true := by
    simp only [is_discord_socket_alive, hp]
    rw [if_neg (by omega)]
    exact hlive
  have hr1 : (fs_rename fs p q).files q = some f := by simp [fs_rename, hp]
  have hr2 : (fs_rename fs p q).files p = none := by simp [fs_rename, hp, hpq]
  have hback1 : (fs_rename (fs_rename fs p q) q p).files p = some f := by
    simp [fs_rename, hp]
  have hback2 : (fs_rename (fs_rename fs p q) q p).files q = none := by
    simp [fs_rename, hp, hqp]
  have hfail2 : setup_fail
      { ipc_path := some p, real_ipc_path := some q, upstream_active := true,
        server_fd := env.server_socket_fd, presence_by_pid := some [],
        connections := some [], active := false } p q (fs_rename fs p q)
      = (false,
          (if 0 ≤ env.server_socket_fd then
            { ipc_path := some p, real_ipc_path := some q, upstream_active := true,
              server_fd := -1, presence_by_pid := some [],
              connections := some [], active := false }
          else
            { ipc_path := some p, real_ipc_path := some q, upstream_active := true,
              server_fd := env.server_socket_fd, presence_by_pid := some [],
              connections := some [], active := false }),
          fs_rename (fs_rename fs p q) q p) := by
    unfold setup_fail
    simp [g_file_test_exists, hr1, hr2]
  have hrun : setup_at env p q fs
      = setup_fail
          { ipc_path := some p, real_ipc_path := some q, upstream_active := true,
            server_fd := env.server_socket_fd, presence_by_pid := some [],
            connections := some [], active := false } p q (fs_rename fs p q) := by
    unfold setup_at
    simp only [hne, he, ha, hren, if_true, Bool.false_eq_true, if_false]
    unfold setup_listen
    rcases hfail with h | h
    · simp only [h, if_true]
    · by_cases hs : env.server_socket_fd < 0
      · simp only [hs, if_true]
      · simp only [hs, if_false]
        unfold fs_bind
        simp only [h, Bool.false_eq_true, false_and, if_false]
  rw [hrun, hfail2]
  exact ⟨rfl, hback1, hback2⟩

/-- C19: the canonical path holds the live service socket, nothing is at the relocated path,
`socket` and `bind` succeed and `listen` fails. `discord_ipc_setup` returns FALSE, and on
return the service socket is still at the relocated path while the canonical path holds the
proxy's bound socket, on which nobody listens: the `fail:` block found the canonical path
taken by the proxy's own file and skipped the `rename` back. -/
theorem C19_listen_failure_leaves_service_relocated :
    (discord_ipc_setup
      { xdg_runtime_dir := some "/run/user/1000", uid := 1000, probe_socket_fd := 3,
        hijack_rename_ok := true, server_socket_fd := 3, bind_ok := true, listen_ok := false }
      { files := fun r =>
          if r = "/run/user/1000/discord-ipc-0" then
            some { owner := SocketOwner.service, listening := true }
          else none
        calls := [] }).1 = false ∧
    (discord_ipc_setup
      { xdg_runtime_dir := some "/run/user/1000", uid := 1000, probe_socket_fd := 3,
        hijack_rename_ok := true, server_socket_fd := 3, bind_ok := true, listen_ok := false }
      { files := fun r =>
          if r = "/run/user/1000/discord-ipc-0" then
            some { owner := SocketOwner.service, listening := true }
          else none
        calls := [] }).2.2.files "/run/user/1000/discord-ipc-0"
      = some { owner := SocketOwner.proxy, listening := false } ∧
    (discord_ipc_setup
      { xdg_runtime_dir := some "/run/user/1000", uid := 1000, probe_socket_fd := 3,
        hijack_rename_ok := true, server_socket_fd := 3, bind_ok := true, listen_ok := false }
      { files := fun r =>
          if r = "/run/user/1000/discord-ipc-0" then
            some { owner := SocketOwner.service, listening := true }
          else none
        calls := [] }).2.2.files "/run/user/1000/discord-ipc-original"
      = some { owner := SocketOwner.service, listening := true } ∧
    (discord_ipc_setup
      { xdg_runtime_dir := some "/run/user/1000", uid := 1000, probe_socket_fd := 3,
        hijack_rename_ok := true, server_socket_fd := 3, bind_ok := true, listen_ok := false }
      { files := fun r =>
          if r = "/run/user/1000/discord-ipc-0" then
            some { owner := SocketOwner.service, listening := true }
          else none
        calls := [] }).2.2.calls
      = [FsCall.rename "/run/user/1000/discord-ipc-0" "/run/user/1000/discord-ipc-original",
         FsCall.bind "/run/user/1000/discord-ipc-0"] := by
  decide

/-- The files and the connection array after `discord_ipc_cleanup`, for a state that has its
two paths and its connection array. -/
theorem cleanup_result (st : DiscordIpcState) (fs : FileSystem) (p q : String)
    (conns : List ClientConnection)
    (hp : st.ipc_path = some p) (hq : st.real_ipc_path = some q)
    (hc : st.connections = some conns) :
    (discord_ipc_cleanup (some st) fs).2.1
      = (if g_file_test_exists (if g_file_test_exists fs p = true then fs_unlink fs p else fs) q
            = true then
          fs_rename (if g_file_test_exists fs p = true then fs_unlink fs p else fs) q p
        else (if g_file_test_exists fs p = true then fs_unlink fs p else fs)) ∧
    ∃ st2, (discord_ipc_cleanup (some st) fs).1 = some st2 ∧ st2.connections = none ∧
      st2.active = false := by
  obtain ⟨ip, rp, ua, sfd, tbl, cs, act⟩ := st
  simp only at hp hq hc
  subst hp hq hc
  obtain ⟨k1, k2, _, k4⟩ := close_all_connections_keeps conns.length
    { ipc_path := some p, real_ipc_path := some q, upstream_active := ua, server_fd := sfd,
      presence_by_pid := tbl, connections := some conns, active := false } []
  unfold discord_ipc_cleanup
  simp only
  generalize close_all_connections conns.length
    { ipc_path := some p, real_ipc_path := some q, upstream_active := ua, server_fd := sfd,
      presence_by_pid := tbl, connections := some conns, active := false } [] = r
    at k1 k2 k4 ⊢
  simp only at k1 k2 k4
  by_cases hfd : 0 ≤ r.1.server_fd
  · simp only [hfd, if_true, k1, k2]
    exact ⟨trivial, _, rfl, rfl, k4⟩
  · simp only [hfd, if_false, k1, k2]
    exact ⟨trivial, _, rfl, rfl, k4⟩

/-- C20: after a successful `discord_ipc_setup` that hijacked a live socket (`upstream_active`
set), whatever connections and presence entries the state holds by then,
`discord_ipc_cleanup` makes exactly two calls on the files, first `unlink` of the canonical
path, which held the proxy's own socket, then `rename` of the relocated path to the canonical
path; afterwards the hijacked socket is at the canonical path, nothing is at the relocated
path, the loop over the connections has emptied the array, and the array is released. -/
theorem C20_cleanup_restores_service_socket (env : SetupEnv) (fs0 fs1 : FileSystem)
    (st : DiscordIpcState) (conns : List ClientConnection) (table : Option GHashTable)
    (hsetup : discord_ipc_setup env fs0 = (true, st, fs1))
    (hup : st.upstream_active = true) :
    ∃ f : SocketFile, f.listening = true ∧
      fs1.files (g_build_filename (runtime_dir env) "discord-ipc-0")
        = some { owner := SocketOwner.proxy, listening := true } ∧
      fs1.files (g_build_filename (runtime_dir env) "discord-ipc-original") = some f ∧
      (discord_ipc_cleanup
          (some { st with connections := some conns, presence_by_pid := table }) fs1).2.1.files
          (g_build_filename (runtime_dir env) "discord-ipc-0") = some f ∧
      (discord_ipc_cleanup
          (some { st with connections := some conns, presence_by_pid := table }) fs1).2.1.files
          (g_build_filename (runtime_dir env) "discord-ipc-original") = none ∧
      (discord_ipc_cleanup
          (some { st with connections := some conns, presence_by_pid := table }) fs1).2.1.calls
        = fs1.calls ++
          [FsCall.unlink (g_build_filename (runtime_dir env) "discord-ipc-0"),
           FsCall.rename (g_build_filename (runtime_dir env) "discord-ipc-original")
             (g_build_filename (runtime_dir env) "discord-ipc-0")] ∧
      (close_all_connections conns.length
          { st with connections := some conns, presence_by_pid := table, active := false }
          []).1.connections = some [] ∧
      ∃ st2, (discord_ipc_cleanup
          (some { st with connections := some conns, presence_by_pid := table }) fs1).1
          = some st2 ∧ st2.connections = none ∧ st2.active = false := by
  have hpq := ipc_paths_differ (runtime_dir env)
  have hqp : g_build_filename (runtime_dir env) "discord-ipc-original"
      ≠ g_build_filename (runtime_dir env) "discord-ipc-0" := fun h => hpq h.symm
  unfold discord_ipc_setup at hsetup
  generalize g_build_filename (runtime_dir env) "discord-ipc-0" = p at *
  generalize g_build_filename (runtime_dir env) "discord-ipc-original" = q at *
  obtain ⟨f, hlisten, hfp, hfq, hst⟩ := setup_at_hijacked env p q fs0 fs1 st hpq hsetup hup
  have hp2 : ({ st with connections := some conns, presence_by_pid := table }
      : DiscordIpcState).ipc_path = some p := by rw [hst]
  have hq2 : ({ st with connections := some conns, presence_by_pid := table }
      : DiscordIpcState).real_ipc_path = some q := by rw [hst]
  obtain ⟨hfiles, hstate⟩ := cleanup_result
    { st with connections := some conns, presence_by_pid := table } fs1 p q conns hp2 hq2 rfl
  have he1 : g_file_test_exists fs1 p = true := by simp [g_file_test_exists, hfp]
  have hu : (fs_unlink fs1 p).files q = some f := by simp [fs_unlink, hqp, hfq]
  have he2 : g_file_test_exists (fs_unlink fs1 p) q = true := by
    simp [g_file_test_exists, hu]
  rw [he1] at hfiles
  simp only [if_true] at hfiles
  rw [he2] at hfiles
  simp only [if_true] at hfiles
  refine ⟨f, hlisten, hfp, hfq, ?_, ?_, ?_, ?_, hstate⟩
  · rw [hfiles]; simp [fs_rename, hu]
  · rw [hfiles]; simp [fs_rename, hu, hqp]
  · rw [hfiles]
    unfold fs_rename
    rw [hu]
    simp [fs_unlink]
  · exact close_all_connections_empties conns.length _ conns [] rfl (Nat.le_refl _)

/-- C20 (witness): the service listens at `/run/user/1000/discord-ipc-0`, setup hijacks it,
one client is connected at shutdown; afterwards the service socket is back at the canonical
path and the relocated path is free. -/
theorem C20_cleanup_restores_service_socket_witness :
    ∃ f : SocketFile, f.listening = true ∧
      (discord_ipc_cleanup
          (some { (discord_ipc_setup sample_env sample_fs).2.1 with
                  connections := some [{ client_fd := 4, upstream_fd := 5, client_buf := [],
                                         upstream_buf := [], handshake_done := false }],
                  presence_by_pid := some [] })
          (discord_ipc_setup sample_env sample_fs).2.2).2.1.files
          (g_build_filename (runtime_dir sample_env) "discord-ipc-0") = some f ∧
      (discord_ipc_cleanup
          (some { (discord_ipc_setup sample_env sample_fs).2.1 with
                  connections := some [{ client_fd := 4, upstream_fd := 5, client_buf := [],
                                         upstream_buf := [], handshake_done := false }],
                  presence_by_pid := some [] })
          (discord_ipc_setup sample_env sample_fs).2.2).2.1.files
          (g_build_filename (runtime_dir sample_env) "discord-ipc-original") = none :=
  (C20_cleanup_restores_service_socket sample_env sample_fs
    (discord_ipc_setup sample_env sample_fs).2.2 (discord_ipc_setup sample_env sample_fs).2.1
    [{ client_fd := 4, upstream_fd := 5, client_buf := [], upstream_buf := [],
       handshake_done := false }]
    (some []) rfl rfl).elim
    fun f h => ⟨f, h.1, h.2.2.2.1, h.2.2.2.2.1⟩

/-- A turn of the loop on a buffer whose first header has the length field `0xFFFFFFF8`
decodes a frame and removes nothing: `consumed` is `(8 + 0xFFFFFFF8) mod 2^32 = 0`. -/
theorem process_client_frame_stuck (parser : List Byte → Option (Option JsonNode))
    (clock : Nat → Int) (w : ConnWorld) (h8 : 8 ≤ w.conn.client_buf.length)
    (hlen : read_le32 w.conn.client_buf 4 = 4294967288) :
    ∃ w1, process_client_frame parser clock w = some w1 ∧
      w1.conn.client_buf = w.conn.client_buf := by
  have hz : (8 + read_le32 w.conn.client_buf 4) % 2 ^ 32 = 0 := by rw [hlen]; norm_num
  cases hs : process_client_frame parser clock w with
  | none =>
    exfalso
    unfold process_client_frame at hs
    simp only [DISCORD_HEADER_SIZE] at hs
    rw [if_neg (by omega),
      parse_frame_true _ _ _ _ _ (by omega) (by rw [hz]; omega)] at hs
    simp at hs
  | some w1 =>
    obtain ⟨_, _, hbuf, _⟩ := process_client_frame_some parser clock w w1 hs
    rw [hz, List.drop_zero] at hbuf
    exact ⟨w1, rfl, hbuf⟩

/-- The loop of `process_client_buffer` does not end, whatever number of turns it is given,
on a buffer whose first header has the length field `0xFFFFFFF8`. -/
theorem process_client_buffer_never_ends (parser : List Byte → Option (Option JsonNode))
    (clock : Nat → Int) (fuel : Nat) :
    ∀ w : ConnWorld, 8 ≤ w.conn.client_buf.length →
      read_le32 w.conn.client_buf 4 = 4294967288 →
      process_client_buffer parser clock fuel w = none := by
  induction fuel with
  | zero => intro w _ _; rfl
  | succ n ih =>
    intro w h8 hlen
    obtain ⟨w1, hs, hbuf⟩ := process_client_frame_stuck parser clock w h8 hlen
    unfold process_client_buffer
    rw [hs]
    exact ih w1 (by rw [hbuf]; exact h8) (by rw [hbuf]; exact hlen)

/-- C28: the client buffer `02 00 00 00 f8 ff ff ff` (opcode 2, length field `0xFFFFFFF8`) on
a connection without upstream: a turn of the loop decodes a frame and leaves the eight bytes
in the buffer, the world after the turn is the world before it, and `process_client_buffer`
has not returned after any number of turns, for every JSON parser and clock. -/
theorem C28_loop_does_not_end_when_consumed_is_zero
    (parser : List Byte → Option (Option JsonNode)) (clock : Nat → Int) (fuel : Nat) :
    process_client_frame parser clock
        { conn := { client_fd := 4, upstream_fd := -1,
                    client_buf := [2, 0, 0, 0, 248, 255, 255, 255], upstream_buf := [],
                    handshake_done := false },
          ipc_state := { presence_by_pid := some [], connections := some [] },
          client_sent := [], upstream_sent := [], time_calls := 0 }
      = some
        { conn := { client_fd := 4, upstream_fd := -1,
                    client_buf := [2, 0, 0, 0, 248, 255, 255, 255], upstream_buf := [],
                    handshake_done := false },
          ipc_state := { presence_by_pid := some [], connections := some [] },
          client_sent := [], upstream_sent := [], time_calls := 0 } ∧
    process_client_buffer parser clock fuel
        { conn := { client_fd := 4, upstream_fd := -1,
                    client_buf := [2, 0, 0, 0, 248, 255, 255, 255], upstream_buf := [],
                    handshake_done := false },
          ipc_state := { presence_by_pid := some [], connections := some [] },
          client_sent := [], upstream_sent := [], time_calls := 0 } = none := by
  refine ⟨?_, process_client_buffer_never_ends parser clock fuel _ (by decide) (by decide)⟩
  have hp : discord_parse_frame [2, 0, 0, 0, 248, 255, 255, 255] 8 true true
      { opcode := 0, json_out := none, consumed := 0 }
      = (true, { opcode := 2, json_out := some [], consumed := 0 }) := by decide
  unfold process_client_frame
  rw [if_neg (by decide)]
  simp only [List.length_cons, List.length_nil]
  rw [hp]
  simp [answer_handshake, intercept_set_activity, DISCORD_OP_HANDSHAKE, DISCORD_OP_FRAME]

/-! ## Chunked arrival of the client's bytes -/

theorem byteAt_append_left (x y : List Byte) (i : Nat) (h : i < x.length) :
    byteAt (x ++ y) i = byteAt x i := by
  unfold byteAt
  rw [List.getD_append _ _ _ _ h]

theorem read_le32_append_left (x y : List Byte) (h : 8 ≤ x.length) :
    read_le32 (x ++ y) 4 = read_le32 x 4 := by
  unfold read_le32
  rw [byteAt_append_left x y 4 (by omega), byteAt_append_left x y (4 + 1) (by omega),
    byteAt_append_left x y (4 + 2) (by omega), byteAt_append_left x y (4 + 3) (by omega)]

theorem frame_length_field (O : Nat) (P r : List Byte) (hP : P.length < 2 ^ 32) :
    read_le32 (frame O P ++ r) 4 = P.length := by
  unfold frame
  rw [List.append_assoc, List.append_assoc, read_le32_append_four _ _ (write_le32_length O),
    read_write_le32 _ _ hP]

/-- The bytes before a cut inside a frame do not hold a complete frame. -/
theorem incomplete_of_frame_cut (O : Nat) (P r x z : List Byte) (hcut : x ++ z = frame O P ++ r)
    (hx : x.length < 8 + P.length) (hP : P.length + 8 < 2 ^ 32) :
    x.length < 8 ∨ x.length < (8 + read_le32 x 4) % 2 ^ 32 := by
  by_cases h8 : x.length < 8
  · exact Or.inl h8
  · right
    have h1 := read_le32_append_left x z (by omega)
    rw [hcut, frame_length_field O P r (by omega)] at h1
    rw [← h1, Nat.mod_eq_of_lt (by omega)]
    exact hx

/-- The bytes before a cut inside an incomplete remainder do not hold a complete frame. -/
theorem incomplete_of_remainder_cut (rest x y : List Byte) (hcut : x ++ y = rest)
    (hrest : rest.length < 8 ∨ rest.length < (8 + read_le32 rest 4) % 2 ^ 32) :
    x.length < 8 ∨ x.length < (8 + read_le32 x 4) % 2 ^ 32 := by
  have hl : x.length ≤ rest.length := by rw [← hcut, List.length_append]; omega
  by_cases h8 : x.length < 8
  · exact Or.inl h8
  · right
    have h1 := read_le32_append_left x y (by omega)
    rw [hcut] at h1
    rw [← h1]
    rcases hrest with h | h <;> omega

/-- A cut of a stream of frames followed by an incomplete remainder: the bytes before the cut
are some of the frames followed by bytes that hold no complete frame. -/
theorem frames_cut (fs : List (Nat × List Byte)) :
    ∀ (rest x y : List Byte), x ++ y = encode_frames fs ++ rest →
      (∀ f ∈ fs, f.1 < 2 ^ 32 ∧ f.2.length + 8 < 2 ^ 32) →
      (rest.length < 8 ∨ rest.length < (8 + read_le32 rest 4) % 2 ^ 32) →
      ∃ (fs1 fs2 : List (Nat × List Byte)) (part : List Byte),
        fs = fs1 ++ fs2 ∧ x = encode_frames fs1 ++ part ∧
        part ++ y = encode_frames fs2 ++ rest ∧
        (part.length < 8 ∨ part.length < (8 + read_le32 part 4) % 2 ^ 32) := by
  induction fs with
  | nil =>
    intro rest x y hcut _ hrest
    refine ⟨[], [], x, rfl, by simp [encode_frames], by simpa [encode_frames] using hcut, ?_⟩
    exact incomplete_of_remainder_cut rest x y (by simpa [encode_frames] using hcut) hrest
  | cons f fs ih =>
    intro rest x y hcut hall hrest
    have hf := hall f (List.mem_cons_self f fs)
    have htl : ∀ g ∈ fs, g.1 < 2 ^ 32 ∧ g.2.length + 8 < 2 ^ 32 :=
      fun g hg => hall g (List.mem_cons_of_mem f hg)
    rw [encode_frames_cons, List.append_assoc] at hcut
    by_cases hx : x.length < 8 + f.2.length
    · refine ⟨[], f :: fs, x, rfl, by simp [encode_frames], ?_, ?_⟩
      · rw [hcut, encode_frames_cons, List.append_assoc]
      · exact incomplete_of_frame_cut f.1 f.2 _ x y hcut hx hf.2
    · have hle : (frame f.1 f.2).length ≤ x.length := by rw [frame_length]; omega
      obtain ⟨x1, hx1⟩ : ∃ x1, x = frame f.1 f.2 ++ x1 := by
        refine ⟨x.drop (frame f.1 f.2).length, ?_⟩
        have h1 : x.take (frame f.1 f.2).length = frame f.1 f.2 := by
          have h2 := congrArg (List.take (frame f.1 f.2).length) hcut
          rw [List.take_append_of_le_length hle, List.take_left] at h2
          exact h2
        conv => lhs; rw [← List.take_append_drop (frame f.1 f.2).length x]
        rw [h1]
      subst hx1
      rw [List.append_assoc] at hcut
      have hcut2 := List.append_cancel_left hcut
      obtain ⟨fs1, fs2, part, h1, h2, h3, h4⟩ := ih rest x1 y hcut2 htl hrest
      refine ⟨f :: fs1, fs2, part, by rw [h1]; rfl, ?_, h3, h4⟩
      rw [encode_frames_cons, List.append_assoc, h2]

theorem answer_handshake_ignores_buf (O : Nat) (w : ConnWorld) (b : List Byte) :
    answer_handshake O { w with conn := { w.conn with client_buf := b } }
      = { answer_handshake O w with
          conn := { (answer_handshake O w).conn with client_buf := b } } := by
  unfold answer_handshake
  split <;> rfl

theorem intercept_ignores_buf (parser : List Byte → Option (Option JsonNode))
    (clock : Nat → Int) (O : Nat) (json : Option (List Byte)) (w : ConnWorld) (b : List Byte) :
    intercept_set_activity parser clock O json { w with conn := { w.conn with client_buf := b } }
      = { intercept_set_activity parser clock O json w with
          conn := { (intercept_set_activity parser clock O json w).conn with client_buf := b } } := by
  unfold intercept_set_activity
  split
  · split <;> rfl
  · rfl

/-- The world after a frame has been handled does not depend on what the buffer held. -/
theorem frame_turn_ignores_buf (parser : List Byte → Option (Option JsonNode))
    (clock : Nat → Int) (w : ConnWorld) (f : Nat × List Byte) (rest b : List Byte) :
    frame_turn parser clock { w with conn := { w.conn with client_buf := b } } f rest
      = frame_turn parser clock w f rest := by
  unfold frame_turn
  rw [answer_handshake_ignores_buf, intercept_ignores_buf]

theorem run_frames_ignores_buf (parser : List Byte → Option (Option JsonNode))
    (clock : Nat → Int) (fs : List (Nat × List Byte)) (w : ConnWorld) (rest b : List Byte) :
    run_frames parser clock { w with conn := { w.conn with client_buf := b } } fs rest
      = run_frames parser clock w fs rest := by
  cases fs with
  | nil => rfl
  | cons f fs =>
    show run_frames parser clock (frame_turn parser clock _ f _) fs rest
      = run_frames parser clock (frame_turn parser clock _ f _) fs rest
    rw [frame_turn_ignores_buf]

theorem run_frames_append (parser : List Byte → Option (Option JsonNode))
    (clock : Nat → Int) (fs1 fs2 : List (Nat × List Byte)) :
    ∀ (w : ConnWorld) (rest part : List Byte),
      run_frames parser clock (run_frames parser clock w fs1 part) fs2 rest
        = run_frames parser clock w (fs1 ++ fs2) rest := by
  induction fs1 with
  | nil =>
    intro w rest part
    exact run_frames_ignores_buf parser clock fs2 w rest part
  | cons f fs1 ih =>
    intro w rest part
    show run_frames parser clock (run_frames parser clock (frame_turn parser clock w f _) fs1 part)
        fs2 rest
      = run_frames parser clock (frame_turn parser clock w f _) (fs1 ++ fs2) rest
    rw [ih]
    have h1 : frame_turn parser clock w f (encode_frames fs1 ++ part)
        = { frame_turn parser clock w f (encode_frames (fs1 ++ fs2) ++ rest) with
            conn := { (frame_turn parser clock w f (encode_frames (fs1 ++ fs2) ++ rest)).conn with
                      client_buf := encode_frames fs1 ++ part } } := rfl
    rw [h1, run_frames_ignores_buf]
    rfl

/-- Handling a buffer that holds the complete frames `fs` followed by bytes that hold no
complete frame: the loop returns after one turn per frame. -/
theorem process_client_buffer_on_stream (parser : List Byte → Option (Option JsonNode))
    (clock : Nat → Int) (fs : List (Nat × List Byte)) (w : ConnWorld) (part : List Byte)
    (fuel : Nat) (hbuf : w.conn.client_buf = encode_frames fs ++ part)
    (hall : ∀ f ∈ fs, f.1 < 2 ^ 32 ∧ f.2.length + 8 < 2 ^ 32)
    (hpart : part.length < 8 ∨ part.length < (8 + read_le32 part 4) % 2 ^ 32)
    (hfuel : fs.length < fuel) :
    process_client_buffer parser clock fuel w = some (run_frames parser clock w fs part) := by
  obtain ⟨k, hk⟩ : ∃ k, fuel = fs.length + (k + 1) := ⟨fuel - fs.length - 1, by omega⟩
  rw [hk, process_client_buffer_on_frames parser clock fs w part (k + 1) hbuf hall]
  apply process_client_buffer_on_incomplete
  rw [run_frames_buf]
  exact hpart

/-- A buffer that holds no complete frame does not start with a frame. -/
theorem frames_nil_of_incomplete (fs : List (Nat × List Byte)) (rest b : List Byte)
    (hb : b = encode_frames fs ++ rest)
    (hall : ∀ f ∈ fs, f.1 < 2 ^ 32 ∧ f.2.length + 8 < 2 ^ 32)
    (hinc : b.length < 8 ∨ b.length < (8 + read_le32 b 4) % 2 ^ 32) : fs = [] := by
  cases fs with
  | nil => rfl
  | cons f fs =>
    exfalso
    have hf := hall f (List.mem_cons_self f fs)
    rw [encode_frames_cons, List.append_assoc] at hb
    have hlen : 8 + f.2.length ≤ b.length := by
      rw [hb, List.length_append, frame_length]; omega
    have hfield : read_le32 b 4 = f.2.length := by
      rw [hb]; exact frame_length_field f.1 f.2 _ (by omega)
    rw [hfield, Nat.mod_eq_of_lt (by omega)] at hinc
    omega

/-- Chunking independence for streams of frames: the client's bytes, arriving in the
non-empty reads `chunks` after the buffered bytes, are frames with payloads of fewer than
`2^32 - 8` bytes followed by bytes that hold no complete frame. Then handling each read as
it arrives and handling all the bytes at once both return, and both leave the world
`run_frames` describes: the same replies, the same forwarded buffers, the same presence
table and clock readings, the same remainder. -/
theorem chunked_equals_whole (parser : List Byte → Option (Option JsonNode))
    (clock : Nat → Int) (fuel : Nat) (chunks : List (List Byte)) :
    ∀ (w : ConnWorld) (fs : List (Nat × List Byte)) (rest : List Byte),
      (∀ c ∈ chunks, c ≠ []) →
      w.conn.client_buf ++ chunks.flatten = encode_frames fs ++ rest →
      (∀ f ∈ fs, f.1 < 2 ^ 32 ∧ f.2.length + 8 < 2 ^ 32) →
      (rest.length < 8 ∨ rest.length < (8 + read_le32 rest 4) % 2 ^ 32) →
      (w.conn.client_buf.length < 8 ∨
        w.conn.client_buf.length < (8 + read_le32 w.conn.client_buf 4) % 2 ^ 32) →
      fs.length < fuel →
      client_reads parser clock fuel chunks w
        = some (true, run_frames parser clock w fs rest) ∧
      process_client_buffer parser clock fuel
          { w with conn := { w.conn with client_buf := w.conn.client_buf ++ chunks.flatten } }
        = some (run_frames parser clock w fs rest) := by
  induction chunks with
  | nil =>
    intro w fs rest _ hstream hall hrest hw hfuel
    rw [List.flatten_nil, List.append_nil] at hstream
    have hnil := frames_nil_of_incomplete fs rest _ hstream hall hw
    subst hnil
    have hr : rest = w.conn.client_buf := by simpa [encode_frames] using hstream.symm
    subst hr
    refine ⟨rfl, ?_⟩
    simp only [List.flatten_nil, List.append_nil]
    exact process_client_buffer_on_stream parser clock [] w _ fuel
      (by simp [encode_frames]) hall hrest hfuel
  | cons c cs ih =>
    intro w fs rest hne hstream hall hrest hw hfuel
    have hwhole : process_client_buffer parser clock fuel
          { w with conn := { w.conn with
              client_buf := w.conn.client_buf ++ (c :: cs).flatten } }
        = some (run_frames parser clock w fs rest) := by
      rw [process_client_buffer_on_stream parser clock fs _ rest fuel hstream hall hrest hfuel]
      rw [run_frames_ignores_buf]
    refine ⟨?_, hwhole⟩
    rw [List.flatten_cons, ← List.append_assoc] at hstream
    obtain ⟨fs1, fs2, part, h1, h2, h3, h4⟩ :=
      frames_cut fs rest (w.conn.client_buf ++ c) cs.flatten hstream hall hrest
    have hall1 : ∀ f ∈ fs1, f.1 < 2 ^ 32 ∧ f.2.length + 8 < 2 ^ 32 :=
      fun f hf => hall f (by rw [h1]; exact List.mem_append_left _ hf)
    have hall2 : ∀ f ∈ fs2, f.1 < 2 ^ 32 ∧ f.2.length + 8 < 2 ^ 32 :=
      fun f hf => hall f (by rw [h1]; exact List.mem_append_right _ hf)
    have hlen1 : fs1.length < fuel := by
      have : fs.length = fs1.length + fs2.length := by rw [h1, List.length_append]
      omega
    have hlen2 : fs2.length < fuel := by
      have : fs.length = fs1.length + fs2.length := by rw [h1, List.length_append]
      omega
    have hc : c ≠ [] := hne c (List.mem_cons_self c cs)
    have hcpos : ¬ ((c.length : Int) ≤ 0) := by
      have : 0 < c.length := List.length_pos.mpr hc
      omega
    have hstep : on_client_data parser clock fuel false c.length c w
        = some (true, run_frames parser clock w fs1 part) := by
      unfold on_client_data
      simp only [Bool.false_eq_true, if_false, if_neg hcpos, Int.toNat_ofNat, List.take_length]
      rw [process_client_buffer_on_stream parser clock fs1 _ part fuel h2 hall1 h4 hlen1,
        run_frames_ignores_buf]
    have hnext := (ih (run_frames parser clock w fs1 part) fs2 rest
      (fun d hd => hne d (List.mem_cons_of_mem c hd))
      (by rw [run_frames_buf]; exact h3) hall2 hrest
      (by rw [run_frames_buf]; exact h4) hlen2).1
    unfold client_reads
    rw [hstep]
    simp only
    rw [hnext, run_frames_append, h1]

theorem answer_handshake_frame (w : ConnWorld) : answer_handshake 1 w = w := by
  unfold answer_handshake
  rw [if_neg]
  intro h
  exact absurd h.1 (by decide)

theorem on_client_data_some (parser : List Byte → Option (Option JsonNode))
    (clock : Nat → Int) (fuel : Nat) (c : List Byte) (w w1 : ConnWorld) (hc : c ≠ [])
    (h : process_client_buffer parser clock fuel
      { w with conn := { w.conn with client_buf := w.conn.client_buf ++ c } } = some w1) :
    on_client_data parser clock fuel false c.length c w = some (true, w1) := by
  have hcpos : ¬ ((c.length : Int) ≤ 0) := by
    have : 0 < c.length := List.length_pos.mpr hc
    omega
  unfold on_client_data
  simp only [Bool.false_eq_true, if_false, if_neg hcpos, Int.toNat_ofNat, List.take_length]
  rw [h]

theorem client_reads_cons (parser : List Byte → Option (Option JsonNode))
    (clock : Nat → Int) (fuel : Nat) (c : List Byte) (cs : List (List Byte)) (w w1 : ConnWorld)
    (h : on_client_data parser clock fuel false c.length c w = some (true, w1)) :
    client_reads parser clock fuel (c :: cs) w = client_reads parser clock fuel cs w1 := by
  rw [client_reads, h]

theorem process_client_buffer_turn (parser : List Byte → Option (Option JsonNode))
    (clock : Nat → Int) (fuel : Nat) (w w1 : ConnWorld)
    (h : process_client_frame parser clock w = some w1) :
    process_client_buffer parser clock (fuel + 1) w = process_client_buffer parser clock fuel w1 := by
  rw [process_client_buffer, h]

theorem wrapped_command_parse :
    discord_parse_frame ([1, 0, 0, 0, 250, 255, 255, 255] ++ (sample_command ++ [0]))
      ([1, 0, 0, 0, 250, 255, 255, 255] ++ (sample_command ++ [0])).length true true
      { opcode := 0, json_out := none, consumed := 0 }
      = (true, { opcode := 1, json_out := some sample_command, consumed := 2 }) := by decide

/-- What `discord_extract_activity` returns for the text `sample_command`, for a parser that
reads this text as json-glib does. -/
theorem extract_sample_command (parser : List Byte → Option (Option JsonNode))
    (hp : parser sample_command = some (some (JsonNode.object sample_command_root))) :
    discord_extract_activity parser (some sample_command)
      { pid := 0, state := none, details := none }
      = (true, { pid := 7, state := some "Testing", details := none }) := by
  have hc : cstr sample_command = sample_command := by decide
  rw [extract_activity_of_set_activity parser sample_command sample_command_root _ (by decide)
    (by rw [hc]; exact hp) rfl]
  rfl

theorem extract_empty_text (parser : List Byte → Option (Option JsonNode)) (out : ActivityOut) :
    discord_extract_activity parser (some []) out = (false, out) := by
  unfold discord_extract_activity
  simp only
  rw [if_pos (by decide)]

theorem intercept_sample_command (parser : List Byte → Option (Option JsonNode))
    (clock : Nat → Int)
    (hp : parser sample_command = some (some (JsonNode.object sample_command_root)))
    (w : ConnWorld) :
    intercept_set_activity parser clock 1 (some sample_command) w
      = { w with
          ipc_state := discord_presence_store w.ipc_state 7 (some "Testing") none
            (clock w.time_calls)
          time_calls :=
            if w.ipc_state.presence_by_pid.isSome ∧ (0 : Int) < 7 then w.time_calls + 1
            else w.time_calls } := by
  unfold intercept_set_activity
  rw [if_pos ⟨rfl, rfl⟩, extract_sample_command parser hp]

theorem intercept_empty_text (parser : List Byte → Option (Option JsonNode))
    (clock : Nat → Int) (w : ConnWorld) :
    intercept_set_activity parser clock 1 (some []) w = w := by
  unfold intercept_set_activity
  rw [if_pos ⟨rfl, rfl⟩, extract_empty_text]

/-- The turn of the loop on the header followed by the command: the command is the
payload. -/
theorem wrapped_stream_turn (parser : List Byte → Option (Option JsonNode))
    (clock : Nat → Int)
    (hp : parser sample_command = some (some (JsonNode.object sample_command_root))) :
    process_client_frame parser clock
        (passive_world ([1, 0, 0, 0, 250, 255, 255, 255] ++ (sample_command ++ [0])) [] 0)
      = some (passive_world ([0, 0, 250, 255, 255, 255] ++ (sample_command ++ [0]))
          [(7, { state := some "Testing", details := none, pid := 7,
                 last_updated := clock 0 })] 1) := by
  unfold process_client_frame
  have hl : (passive_world ([1, 0, 0, 0, 250, 255, 255, 255] ++ (sample_command ++ [0]))
      [] 0).conn.client_buf = [1, 0, 0, 0, 250, 255, 255, 255] ++ (sample_command ++ [0]) := rfl
  rw [hl, if_neg (by decide), wrapped_command_parse]
  simp only [answer_handshake_frame, intercept_sample_command parser clock hp]
  rfl

theorem wrapped_header_parse :
    discord_parse_frame [1, 0, 0, 0, 250, 255, 255, 255] 8 true true
      { opcode := 0, json_out := none, consumed := 0 }
      = (true, { opcode := 1, json_out := some [], consumed := 2 }) := by decide

/-- The turn of the loop on the header alone: a frame with empty payload, nothing stored. -/
theorem wrapped_header_turn (parser : List Byte → Option (Option JsonNode))
    (clock : Nat → Int) :
    process_client_frame parser clock
        (passive_world [1, 0, 0, 0, 250, 255, 255, 255] [] 0)
      = some (passive_world [0, 0, 250, 255, 255, 255] [] 0) := by
  unfold process_client_frame
  have hl : (passive_world [1, 0, 0, 0, 250, 255, 255, 255] [] 0).conn.client_buf
      = [1, 0, 0, 0, 250, 255, 255, 255] := rfl
  rw [hl, if_neg (by decide)]
  simp only [List.length_cons, List.length_nil]
  rw [wrapped_header_parse]
  simp only [answer_handshake_frame, intercept_empty_text]
  rfl

/-- The bytes left after the wrapped frame hold no complete frame. -/
theorem wrapped_remainder_incomplete :
    ([0, 0, 250, 255, 255, 255] ++ (sample_command ++ [0])).length
      < (8 + read_le32 ([0, 0, 250, 255, 255, 255] ++ (sample_command ++ [0])) 4) % 2 ^ 32 := by
  decide

/-- C29: the bytes `01 00 00 00 fa ff ff ff` (opcode `FRAME`, length field `0xFFFFFFFA`)
followed by the JSON text of a `SET_ACTIVITY` command of process 7 and a NUL, sent to a fresh
connection in passive mode; the parser reads the JSON text as json-glib does. Arriving in two
reads, the header first, they leave the presence table empty; arriving in one read, they
store an entry for process 7: the frame accepted after the wrap of `8 + payload_len` gets as
payload whatever is buffered behind the header at that moment. The bytes left in the buffer
are the same. -/
theorem C29_chunking_changes_presence_when_length_wraps
    (parser : List Byte → Option (Option JsonNode)) (clock : Nat → Int)
    (hp : parser sample_command = some (some (JsonNode.object sample_command_root))) :
    client_reads parser clock 3
        [[1, 0, 0, 0, 250, 255, 255, 255], sample_command ++ [0]] (passive_world [] [] 0)
      = some (true, passive_world ([0, 0, 250, 255, 255, 255] ++ (sample_command ++ [0])) [] 0) ∧
    process_client_buffer parser clock 3
        (passive_world ([1, 0, 0, 0, 250, 255, 255, 255] ++ (sample_command ++ [0])) [] 0)
      = some (passive_world ([0, 0, 250, 255, 255, 255] ++ (sample_command ++ [0]))
          [(7, { state := some "Testing", details := none, pid := 7,
                 last_updated := clock 0 })] 1) := by
  have hend : ∀ (table : GHashTable) (n fuel : Nat),
      process_client_buffer parser clock (fuel + 1)
        (passive_world ([0, 0, 250, 255, 255, 255] ++ (sample_command ++ [0])) table n)
        = some (passive_world ([0, 0, 250, 255, 255, 255] ++ (sample_command ++ [0])) table n) :=
    fun table n fuel => process_client_buffer_on_incomplete parser clock _ fuel
      (Or.inr wrapped_remainder_incomplete)
  have hshort : process_client_buffer parser clock 2
        (passive_world [0, 0, 250, 255, 255, 255] [] 0)
        = some (passive_world [0, 0, 250, 255, 255, 255] [] 0) :=
    process_client_buffer_on_incomplete parser clock _ 1
      (Or.inl (show (6 : Nat) < 8 by decide))
  have h3 : process_client_buffer parser clock 3
      (passive_world [1, 0, 0, 0, 250, 255, 255, 255] [] 0)
      = some (passive_world [0, 0, 250, 255, 255, 255] [] 0) := by
    rw [process_client_buffer_turn parser clock 2 _ _ (wrapped_header_turn parser clock)]
    exact hshort
  have h1 := on_client_data_some parser clock 3 [1, 0, 0, 0, 250, 255, 255, 255]
    (passive_world [] [] 0) _ (by simp) h3
  have h2 := on_client_data_some parser clock 3 (sample_command ++ [0])
    (passive_world [0, 0, 250, 255, 255, 255] [] 0) _ (by simp) (hend [] 0 2)
  constructor
  · rw [client_reads_cons parser clock 3 _ _ _ _ h1,
      client_reads_cons parser clock 3 _ _ _ _ h2]
    rfl
  · rw [process_client_buffer_turn parser clock 2 _ _ (wrapped_stream_turn parser clock hp)]
    exact hend _ 1 1

/-- C29 (witness): a parser that reads the command text and rejects every other text, and a
clock that stands at 1000. -/
theorem C29_chunking_changes_presence_when_length_wraps_witness :
    client_reads
        (fun text =>
          if text = sample_command then some (some (JsonNode.object sample_command_root))
          else none)
        (fun _ => 1000) 3
        [[1, 0, 0, 0, 250, 255, 255, 255], sample_command ++ [0]] (passive_world [] [] 0)
      = some (true, passive_world ([0, 0, 250, 255, 255, 255] ++ (sample_command ++ [0])) [] 0) ∧
    process_client_buffer
        (fun text =>
          if text = sample_command then some (some (JsonNode.object sample_command_root))
          else none)
        (fun _ => 1000) 3
        (passive_world ([1, 0, 0, 0, 250, 255, 255, 255] ++ (sample_command ++ [0])) [] 0)
      = some (passive_world ([0, 0, 250, 255, 255, 255] ++ (sample_command ++ [0]))
          [(7, { state := some "Testing", details := none, pid := 7, last_updated := 1000 })]
          1) :=
  C29_chunking_changes_presence_when_length_wraps _ (fun _ => 1000) (if_pos rfl)

/-! ## Durations -/

theorem dec_digits_small (fuel n : Nat) (h : n < 10) :
    dec_digits (fuel + 1) n = [Fin.ofNat (48 + n)] := by
  simp [dec_digits, h]

theorem dec_digits_two (fuel n : Nat) (h1 : 10 ≤ n) (h2 : n < 100) :
    dec_digits (fuel + 2) n = two_digits n := by
  have h3 : ¬ n < 10 := by omega
  have h4 : n / 10 < 10 := by omega
  simp [dec_digits, h3, h4, two_digits]

theorem dec_digits_length_pos (fuel n : Nat) : 0 < (dec_digits (fuel + 1) n).length := by
  unfold dec_digits
  split <;> simp

theorem dec_digits_long (fuel n : Nat) (h : 100 ≤ n) (hf : n < fuel) :
    3 ≤ (dec_digits fuel n).length := by
  obtain ⟨f1, rfl⟩ : ∃ f1, fuel = f1 + 3 := ⟨fuel - 3, by omega⟩
  have h3 : ¬ n < 10 := by omega
  have h4 : ¬ n / 10 < 10 := by omega
  have := dec_digits_length_pos f1 (n / 10 / 10)
  rw [dec_digits, if_neg h3, dec_digits, if_neg h4]
  simp only [List.length_append, List.length_cons, List.length_nil]
  omega

theorem printf_ld_small (n : Nat) (h : n < 10) : printf_ld (n : Int) = [Fin.ofNat (48 + n)] := by
  unfold printf_ld
  rw [if_neg (by omega)]
  exact dec_digits_small _ _ (by simpa using h)

theorem printf_ld_two (n : Nat) (h1 : 10 ≤ n) (h2 : n < 100) :
    printf_ld (n : Int) = two_digits n := by
  unfold printf_ld
  rw [if_neg (by omega)]
  simp only [Int.natAbs_ofNat]
  obtain ⟨k, rfl⟩ : ∃ k, n = k + 1 := ⟨n - 1, by omega⟩
  exact dec_digits_two k (k + 1) h1 h2

theorem printf_02ld_eq (n : Nat) (h : n < 100) : printf_02ld (n : Int) = two_digits n := by
  unfold printf_02ld
  rw [if_neg (by omega)]
  by_cases h1 : n < 10
  · rw [printf_ld_small n h1]
    have h2 : n / 10 = 0 := by omega
    have h3 : n % 10 = n := by omega
    simp [two_digits, h2, h3]
    rfl
  · rw [printf_ld_two n (by omega) h]
    simp [two_digits]

theorem printf_ld_width_two (n : Nat) (h : n < 100) :
    printf_ld_width 2 (n : Int) = right_aligned_two n := by
  unfold printf_ld_width right_aligned_two
  by_cases h1 : n < 10
  · rw [printf_ld_small n h1, if_pos h1]
    rfl
  · rw [printf_ld_two n (by omega) h, if_neg h1]
    rfl

theorem printf_ld_width_wide (w n : Nat) (h : n < 100) (hw : 2 ≤ w) :
    printf_ld_width w (n : Int) = List.replicate (w - 2) 32 ++ right_aligned_two n := by
  unfold printf_ld_width right_aligned_two
  by_cases h1 : n < 10
  · rw [printf_ld_small n h1, if_pos h1]
    have : w - [(Fin.ofNat (48 + n) : Byte)].length = (w - 2) + 1 := by
      simp only [List.length_cons, List.length_nil]; omega
    rw [this, List.replicate_succ']
    simp
  · rw [printf_ld_two n (by omega) h, if_neg h1]
    rfl

theorem tdiv_natCast (a b : Nat) : ((a : Int)).tdiv (b : Int) = ((a / b : Nat) : Int) := by
  rw [Int.tdiv_eq_ediv (by omega) (by omega)]
  norm_cast

theorem tmod_natCast (a b : Nat) : ((a : Int)).tmod (b : Int) = ((a % b : Nat) : Int) := by
  rw [Int.tmod_eq_emod (by omega) (by omega)]
  norm_cast

/-- The string `format_duration` returns for `t` seconds, `t` a natural number. -/
theorem format_duration_natCast (t : Nat) :
    format_duration (t : Int) =
      if 0 < t / 3600 then
        printf_ld_width 2 ((t / 3600 : Nat) : Int) ++ ascii "h "
          ++ printf_02ld ((t % 3600 / 60 : Nat) : Int) ++ ascii "m "
          ++ printf_02ld ((t % 60 : Nat) : Int) ++ ascii "s"
      else if 0 < t % 3600 / 60 then
        printf_ld_width 6 ((t % 3600 / 60 : Nat) : Int) ++ ascii "m "
          ++ printf_02ld ((t % 60 : Nat) : Int) ++ ascii "s"
      else printf_ld_width 10 ((t % 60 : Nat) : Int) ++ ascii "s" := by
  unfold format_duration
  simp only [DURATION_WIDTH]
  have hc : (if (t : Int) < 0 then (0 : Int) else (t : Int)) = (t : Int) := if_neg (by omega)
  rw [hc]
  have e1 : ((t : Int)).tdiv 3600 = ((t / 3600 : Nat) : Int) := tdiv_natCast t 3600
  have e2 : ((t : Int)).tmod 3600 = ((t % 3600 : Nat) : Int) := tmod_natCast t 3600
  have e3 : ((t : Int)).tmod 60 = ((t % 60 : Nat) : Int) := tmod_natCast t 60
  have e4 : (((t % 3600 : Nat) : Int)).tdiv 60 = ((t % 3600 / 60 : Nat) : Int) :=
    tdiv_natCast (t % 3600) 60
  rw [e1, e2, e3, e4]
  simp only [gt_iff_lt, Nat.cast_pos]

/-- Below 360000 seconds (100 hours), negative values counting as 0, `format_duration`
returns exactly `DURATION_WIDTH` = 11 characters, in one of its three right-aligned forms. -/
theorem format_duration_below_100_hours (seconds : Int) (h : seconds < 360000) :
    (format_duration seconds).length = DURATION_WIDTH ∧
    ∃ H M S : Nat, (H : Int) * 3600 + (M : Int) * 60 + (S : Int) = max seconds 0 ∧
      H < 100 ∧ M < 60 ∧ S < 60 ∧
      format_duration seconds =
        if 0 < H then
          right_aligned_two H ++ ascii "h " ++ two_digits M ++ ascii "m " ++ two_digits S
            ++ ascii "s"
        else if 0 < M then
          List.replicate 4 32 ++ right_aligned_two M ++ ascii "m " ++ two_digits S ++ ascii "s"
        else List.replicate 8 32 ++ right_aligned_two S ++ ascii "s" := by
  have hclamp : format_duration seconds = format_duration ((seconds.toNat : Nat) : Int) := by
    by_cases hs : seconds < 0
    · have h0 : seconds.toNat = 0 := by omega
      rw [h0]
      unfold format_duration
      simp only [hs, if_true]
      rfl
    · have h0 : ((seconds.toNat : Nat) : Int) = seconds := by omega
      rw [h0]
  have hmax : ((seconds.toNat : Nat) : Int) = max seconds 0 := by omega
  have ht : seconds.toNat < 360000 := by omega
  generalize seconds.toNat = t at hclamp hmax ht
  have hH : t / 3600 < 100 := by omega
  have hM : t % 3600 / 60 < 60 := by omega
  have hS : t % 60 < 60 := by omega
  have hform : format_duration seconds =
      if 0 < t / 3600 then
        right_aligned_two (t / 3600) ++ ascii "h " ++ two_digits (t % 3600 / 60) ++ ascii "m "
          ++ two_digits (t % 60) ++ ascii "s"
      else if 0 < t % 3600 / 60 then
        List.replicate 4 32 ++ right_aligned_two (t % 3600 / 60) ++ ascii "m "
          ++ two_digits (t % 60) ++ ascii "s"
      else List.replicate 8 32 ++ right_aligned_two (t % 60) ++ ascii "s" := by
    rw [hclamp, format_duration_natCast, printf_ld_width_two _ hH,
      printf_02ld_eq _ (by omega), printf_02ld_eq _ (by omega),
      printf_ld_width_wide 6 _ (by omega) (by omega),
      printf_ld_width_wide 10 _ (by omega) (by omega)]
  have hlen2 : ∀ n, (right_aligned_two n).length = 2 := by
    intro n; unfold right_aligned_two; split <;> rfl
  refine ⟨?_, t / 3600, t % 3600 / 60, t % 60, ?_, hH, hM, hS, hform⟩
  · rw [hform]
    split
    · simp [hlen2, two_digits, ascii, DURATION_WIDTH]
    · split
      · simp [hlen2, two_digits, ascii, DURATION_WIDTH]
      · simp [hlen2, two_digits, ascii, DURATION_WIDTH]
  · rw [← hmax]
    push_cast
    omega

/-- From 100 hours on the hours take three digits or more and the string `format_duration`
returns is longer than `DURATION_WIDTH`. -/
theorem format_duration_from_100_hours (seconds : Int) (h : 360000 ≤ seconds) :
    DURATION_WIDTH < (format_duration seconds).length := by
  obtain ⟨t, rfl⟩ : ∃ t : Nat, seconds = (t : Int) := ⟨seconds.toNat, by omega⟩
  have ht : 360000 ≤ t := by omega
  have hH : 100 ≤ t / 3600 := by omega
  have hpos : 0 < t / 3600 := by omega
  rw [format_duration_natCast, if_pos hpos, printf_02ld_eq _ (show t % 3600 / 60 < 100 by omega),
    printf_02ld_eq _ (show t % 60 < 100 by omega)]
  have hd : 3 ≤ (printf_ld ((t / 3600 : Nat) : Int)).length := by
    unfold printf_ld
    rw [if_neg (by omega)]
    simp only [Int.natAbs_ofNat]
    exact dec_digits_long _ _ hH (by omega)
  have hw : 3 ≤ (printf_ld_width 2 ((t / 3600 : Nat) : Int)).length := by
    unfold printf_ld_width
    rw [List.length_append]
    omega
  generalize printf_ld_width 2 ((t / 3600 : Nat) : Int) = w at hw
  simp only [List.length_append, two_digits, ascii, DURATION_WIDTH, List.length_cons,
    List.length_nil, List.length_map]
  have e1 : ("h ".toList).length = 2 := rfl
  have e2 : ("m ".toList).length = 2 := rfl
  have e3 : ("s".toList).length = 1 := rfl
  omega

/-- C24: for every number of seconds below 360000 (100 hours), negative ones counting as 0,
`format_duration` returns exactly `DURATION_WIDTH` = 11 characters: with `H`, `M < 60` and
`S < 60` the hours, minutes and seconds of the clamped value, the hours right-aligned in two
columns followed by `h MMm SSs` when `H > 0`; four spaces, the minutes right-aligned in two
columns and `m SSs` when `H = 0 < M`; eight spaces, the seconds right-aligned in two columns
and `s` otherwise. For every number of seconds from 360000 on the string is longer than
`DURATION_WIDTH` characters. -/
theorem C24_format_duration_width (seconds : Int) :
    (seconds < 360000 →
      (format_duration seconds).length = DURATION_WIDTH ∧
      ∃ H M S : Nat, (H : Int) * 3600 + (M : Int) * 60 + (S : Int) = max seconds 0 ∧
        H < 100 ∧ M < 60 ∧ S < 60 ∧
        format_duration seconds =
          if 0 < H then
            right_aligned_two H ++ ascii "h " ++ two_digits M ++ ascii "m " ++ two_digits S
              ++ ascii "s"
          else if 0 < M then
            List.replicate 4 32 ++ right_aligned_two M ++ ascii "m " ++ two_digits S
              ++ ascii "s"
          else List.replicate 8 32 ++ right_aligned_two S ++ ascii "s") ∧
    (360000 ≤ seconds → DURATION_WIDTH < (format_duration seconds).length) :=
  ⟨format_duration_below_100_hours seconds, format_duration_from_100_hours seconds⟩

/-- C24 (witness): 5521 seconds are 1 h 32 min 1 s and give 11 characters; 400000 seconds
are more than 100 hours and give more. -/
theorem C24_format_duration_width_witness :
    ((5521 : Int) < 360000 ∧ (format_duration 5521).length = DURATION_WIDTH) ∧
    ((360000 : Int) ≤ 400000 ∧ DURATION_WIDTH < (format_duration 400000).length) :=
  ⟨⟨by decide, ((C24_format_duration_width 5521).1 (by decide)).1⟩,
    ⟨by decide, (C24_format_duration_width 400000).2 (by decide)⟩⟩

/-- C24 (counterexample): 360000 seconds are 100 hours; the field width 2 of the hours is a
minimum, the string is `100h 00m 00s` and has 12 characters. -/
theorem C24_format_duration_100_hours_has_12_characters :
    format_duration 360000 = ascii "100h 00m 00s" ∧
    (format_duration 360000).length = 12 ∧ DURATION_WIDTH = 11 := by
  decide

/-- The three strings of the tests of `format_duration`. -/
theorem format_duration_samples :
    format_duration 5521 = ascii " 1h 32m 01s" ∧
    format_duration 125 = ascii "     2m 05s" ∧
    format_duration 7 = ascii "         7s" ∧
    format_duration (-5) = ascii "         0s" := by
  decide

/-! ## CSV fields -/

theorem cstr_cons (c : Byte) (f : List Byte) :
    cstr (c :: f) = if c = 0 then [] else c :: cstr f := by
  unfold cstr
  by_cases h : c = 0
  · simp [h]
  · simp [h]

theorem cstr_no_nul (f : List Byte) : ∀ b ∈ cstr f, b ≠ 0 := by
  intro b hb
  unfold cstr at hb
  have := List.mem_takeWhile_imp hb
  simpa using this

theorem csv_escape_loop_eq (f : List Byte) :
    ∀ buf, csv_escape_loop buf f = buf ++ double_quotes (cstr f) := by
  induction f with
  | nil => intro buf; simp [csv_escape_loop, cstr, double_quotes]
  | cons c f ih =>
    intro buf
    rw [csv_escape_loop, cstr_cons]
    by_cases h0 : c = 0
    · simp [h0, double_quotes]
    · rw [if_neg h0, if_neg h0, ih]
      by_cases hq : c = 34
      · simp [hq, double_quotes]
      · simp [hq, double_quotes]

/-- What `csv_escape_to_buffer` appends: a quote, the field with every quote doubled, a
quote. -/
theorem csv_escape_to_buffer_eq (buf f : List Byte) :
    csv_escape_to_buffer buf f = buf ++ 34 :: (double_quotes (cstr f) ++ [34]) := by
  unfold csv_escape_to_buffer
  rw [csv_escape_loop_eq]
  simp

/-- The quoted branch of the field reader undoes the doubling of quotes. -/
theorem read_quoted_field_doubled (g : List Byte) (hg : ∀ b ∈ g, b ≠ 0) (rest : List Byte)
    (hrest : rest.head? ≠ some 34) :
    read_quoted_field (double_quotes g ++ 34 :: rest) = (g, (double_quotes g).length + 1) := by
  induction g with
  | nil =>
    cases rest with
    | nil => simp [double_quotes, read_quoted_field]
    | cons d r =>
      have hd : d ≠ 34 := by simpa using hrest
      simp [double_quotes, read_quoted_field, hd]
  | cons c g ih =>
    have hc : c ≠ 0 := hg c (List.mem_cons_self c g)
    have ih2 := ih (fun b hb => hg b (List.mem_cons_of_mem c hb))
    by_cases hq : c = 34
    · subst hq
      simp [double_quotes, read_quoted_field, ih2]
    · have hd : double_quotes (c :: g) = c :: double_quotes g := by simp [double_quotes, hq]
      rw [hd, List.cons_append, read_quoted_field.eq_def]
      simp only [hc, hq, if_false, ih2, List.length_cons]

theorem byteAt_append_right (x y : List Byte) : byteAt (x ++ y) x.length = byteAt y 0 := by
  unfold byteAt
  simp [List.getD_eq_getElem?_getD, List.getElem?_append_right]

theorem byteAt_nil (i : Nat) : byteAt [] i = 0 := by
  simp [byteAt]

theorem byteAt_cons_zero (c : Byte) (r : List Byte) : byteAt (c :: r) 0 = c.val := by
  simp [byteAt]

/-- `extract_csv_field` on a quoted field written by `csv_escape_to_buffer`, followed by
anything but a quote: the field comes back, the position is behind the closing quote and
behind the comma that follows it, if one does. -/
theorem extract_quoted (line pre g rest : List Byte) (pos : Nat) (hpos : pos = pre.length)
    (hline : line = pre ++ 34 :: (double_quotes g ++ 34 :: rest)) (hg : ∀ b ∈ g, b ≠ 0)
    (hrest : rest.head? ≠ some 34) :
    extract_csv_field line pos
      = (g, pos + (double_quotes g).length + 2 + (if rest.head? = some 44 then 1 else 0)) := by
  subst hpos
  unfold extract_csv_field
  have h1 : byteAt line pre.length = 34 := by
    rw [hline, byteAt_append_right, byteAt_cons_zero]; rfl
  have h2 : line.drop (pre.length + 1) = double_quotes g ++ 34 :: rest := by
    rw [hline, ← List.drop_drop, List.drop_left]
    rfl
  simp only [h1, if_true, h2, read_quoted_field_doubled g hg rest hrest]
  have h3 : line = (pre ++ 34 :: (double_quotes g ++ [34])) ++ rest := by
    rw [hline]; simp
  have h4 : pre.length + 1 + ((double_quotes g).length + 1)
      = (pre ++ 34 :: (double_quotes g ++ [34])).length := by
    simp only [List.length_append, List.length_cons, List.length_nil]; omega
  rw [h4]
  conv => lhs; rw [h3, byteAt_append_right]
  have h5 : (byteAt rest 0 = 44) ↔ rest.head? = some 44 := by
    cases rest with
    | nil => simp [byteAt]
    | cons d r =>
      simp only [byteAt_cons_zero, List.head?_cons, Option.some.injEq]
      constructor
      · intro h; exact Fin.ext h
      · intro h; rw [h]; rfl
  simp only [h5]
  split
  · simp only [List.length_append, List.length_cons, List.length_nil]
    congr 1
  · simp only [List.length_append, List.length_cons, List.length_nil]
    congr 1

/-- `extract_csv_field` on an unquoted field followed by a comma: the field comes back and
the position is behind the comma. -/
theorem extract_plain (line pre t rest : List Byte) (pos : Nat) (hpos : pos = pre.length)
    (hline : line = pre ++ (t ++ 44 :: rest))
    (ht : ∀ b ∈ t, b ≠ 0 ∧ b ≠ 34 ∧ b ≠ 44 ∧ b ≠ 10 ∧ b ≠ 13) :
    extract_csv_field line pos = (t, pos + t.length + 1) := by
  subst hpos
  unfold extract_csv_field
  have h1 : byteAt line pre.length ≠ 34 := by
    rw [hline, byteAt_append_right]
    cases t with
    | nil =>
      rw [List.nil_append, byteAt_cons_zero]
      decide
    | cons c r =>
      have hc := (ht c (List.mem_cons_self c r)).2.1
      rw [List.cons_append, byteAt_cons_zero]
      intro h
      exact hc (Fin.ext h)
  have h2 : line.drop pre.length = t ++ 44 :: rest := by
    rw [hline, List.drop_left]
  have h3 : read_plain_field (t ++ 44 :: rest) = t := by
    unfold read_plain_field
    rw [List.takeWhile_append]
    have h4 : List.takeWhile (fun c => decide (c ≠ 0 ∧ c ≠ 44 ∧ c ≠ 10 ∧ c ≠ 13)) t = t := by
      rw [List.takeWhile_eq_self_iff]
      intro b hb
      have := ht b hb
      simp [this.1, this.2.2.1, this.2.2.2.1, this.2.2.2.2]
    rw [h4]
    simp
  simp only [h1, if_false, h2, h3]
  have h5 : line = (pre ++ t) ++ 44 :: rest := by rw [hline]; simp
  have h6 : pre.length + t.length = (pre ++ t).length := by simp
  rw [h6]
  conv => lhs; rw [h5, byteAt_append_right, byteAt_cons_zero]
  have h7 : ((44 : Byte).val = 44) := rfl
  rw [if_pos h7]

theorem dec_digits_value (fuel : Nat) :
    ∀ n, n < fuel →
      (dec_digits fuel n).foldl (fun (a : Int) d => 10 * a + ((d.val : Int) - 48)) 0 = (n : Int) ∧
      (∀ b ∈ dec_digits fuel n, isdigit b = true) ∧ dec_digits fuel n ≠ [] := by
  induction fuel with
  | zero => intro n h; omega
  | succ k ih =>
    intro n hn
    by_cases h10 : n < 10
    · rw [dec_digits_small k n h10]
      have hv : ((Fin.ofNat (48 + n) : Byte)).val = 48 + n := by
        simp [Fin.ofNat]; omega
      refine ⟨?_, ?_, by simp⟩
      · simp only [List.foldl_cons, List.foldl_nil, hv]
        push_cast
        omega
      · intro b hb
        simp only [List.mem_singleton] at hb
        subst hb
        simp only [isdigit, hv, Bool.and_eq_true, decide_eq_true_eq]
        omega
    · obtain ⟨h1, h2, h3⟩ := ih (n / 10) (by omega)
      have hv : ((Fin.ofNat (48 + n % 10) : Byte)).val = 48 + n % 10 := by
        simp [Fin.ofNat]; omega
      rw [dec_digits, if_neg h10]
      refine ⟨?_, ?_, by simp⟩
      · rw [List.foldl_append, h1]
        simp only [List.foldl_cons, List.foldl_nil, hv]
        push_cast
        omega
      · intro b hb
        rw [List.mem_append] at hb
        rcases hb with hb | hb
        · exact h2 b hb
        · simp only [List.mem_singleton] at hb
          subst hb
          simp only [isdigit, hv, Bool.and_eq_true, decide_eq_true_eq]
          omega

theorem isdigit_facts (b : Byte) (h : isdigit b = true) :
    isspace b = false ∧ b ≠ 45 ∧ b ≠ 43 ∧ b ≠ 0 ∧ b ≠ 34 ∧ b ≠ 44 ∧ b ≠ 10 ∧ b ≠ 13 := by
  simp only [isdigit, Bool.and_eq_true, decide_eq_true_eq] at h
  have hne : ∀ k : Byte, (k.val < 48 ∨ 57 < k.val) → b ≠ k := by
    intro k hk e
    subst e
    omega
  refine ⟨?_, hne 45 (by decide), hne 43 (by decide), hne 0 (by decide), hne 34 (by decide),
    hne 44 (by decide), hne 10 (by decide), hne 13 (by decide)⟩
  cases hs : isspace b with
  | false => rfl
  | true =>
    exfalso
    simp only [isspace, Bool.or_eq_true, decide_eq_true_eq, Bool.and_eq_true] at hs
    rcases hs with hs | hs
    · exact hne 32 (by decide) hs
    · omega

/-- The text `printf` writes for `%ld` has no byte that ends an unquoted CSV field. -/
theorem printf_ld_plain (n : Int) :
    ∀ b ∈ printf_ld n, b ≠ 0 ∧ b ≠ 34 ∧ b ≠ 44 ∧ b ≠ 10 ∧ b ≠ 13 := by
  obtain ⟨_, hd, _⟩ := dec_digits_value (n.natAbs + 1) n.natAbs (by omega)
  intro b hb
  unfold printf_ld at hb
  split at hb
  · rcases List.mem_cons.mp hb with h | h
    · subst h; decide
    · exact (isdigit_facts b (hd b h)).2.2.2
  · exact (isdigit_facts b (hd b hb)).2.2.2

/-- `strtol` reads back the number `printf` wrote for `%ld`, and stops at the end of the
text. -/
theorem strtol_printf_ld (n : Int) (h1 : LONG_MIN ≤ n) (h2 : n ≤ LONG_MAX) :
    strtol (printf_ld n) = (n, (printf_ld n).length) ∧ 0 < (printf_ld n).length := by
  obtain ⟨hv, hd, hne⟩ := dec_digits_value (n.natAbs + 1) n.natAbs (by omega)
  obtain ⟨c, r, hcr⟩ : ∃ c r, dec_digits (n.natAbs + 1) n.natAbs = c :: r := by
    cases hx : dec_digits (n.natAbs + 1) n.natAbs with
    | nil => exact absurd hx hne
    | cons c r => exact ⟨c, r, rfl⟩
  have hc := isdigit_facts c (hd c (by rw [hcr]; exact List.mem_cons_self c r))
  have hall : List.takeWhile isdigit (c :: r) = c :: r := by
    rw [List.takeWhile_eq_self_iff]
    intro b hb
    exact hd b (by rw [hcr]; exact hb)
  unfold printf_ld
  by_cases hneg : n < 0
  · rw [if_pos hneg, hcr]
    unfold strtol
    have hws : List.takeWhile isspace (45 :: c :: r) = [] := by
      rw [List.takeWhile_cons]
      simp [show isspace 45 = false by decide]
    simp only [hws, List.length_nil, List.drop_zero, List.head?_cons, true_or, if_true,
      List.drop_succ_cons, hall]
    rw [if_neg (by simp)]
    rw [← hcr, hv]
    have e : -((n.natAbs : Nat) : Int) = n := by omega
    simp only [e]
    rw [if_neg (by omega), if_neg (by omega)]
    simp only [List.length_cons]
    exact ⟨by congr 1; omega, by omega⟩
  · rw [if_neg hneg, hcr]
    unfold strtol
    have hws : List.takeWhile isspace (c :: r) = [] := by
      rw [List.takeWhile_cons]
      simp [hc.1]
    have hsign : ¬ ((c :: r).head? = some 45 ∨ (c :: r).head? = some 43) := by
      simp only [List.head?_cons, Option.some.injEq]
      intro h
      rcases h with h | h
      · exact hc.2.1 h
      · exact hc.2.2.1 h
    have hminus : ¬ ((c :: r).head? = some 45) := fun h => hsign (Or.inl h)
    simp only [hws, List.length_nil, List.drop_zero, if_neg hsign, if_neg hminus, hall]
    rw [if_neg (by simp)]
    rw [← hcr, hv]
    have e : ((n.natAbs : Nat) : Int) = n := by omega
    simp only [e]
    rw [if_neg (by omega), if_neg (by omega)]
    exact ⟨by simp, by rw [hcr]; simp⟩

theorem byteAt_at (line pre rest : List Byte) (pos : Nat) (hpos : pos = pre.length)
    (hline : line = pre ++ rest) : byteAt line pos = byteAt rest 0 := by
  subst hpos
  rw [hline, byteAt_append_right]

/-- The six calls of `extract_csv_field` at the start of `parse_csv_line`, on a line made of
three unquoted fields and three fields written by `csv_escape_to_buffer`, separated by
commas and followed by `tail`. -/
theorem extract_six_fields (line ts dur status g1 g2 g3 tail : List Byte)
    (hline : line = ts ++ 44 :: (dur ++ 44 :: (status ++ 44 ::
      (34 :: (double_quotes g1 ++ 34 :: 44 :: 34 :: (double_quotes g2 ++ 34 :: 44 :: 34 ::
        (double_quotes g3 ++ 34 :: tail)))))))
    (hts : ∀ b ∈ ts, b ≠ 0 ∧ b ≠ 34 ∧ b ≠ 44 ∧ b ≠ 10 ∧ b ≠ 13)
    (hdur : ∀ b ∈ dur, b ≠ 0 ∧ b ≠ 34 ∧ b ≠ 44 ∧ b ≠ 10 ∧ b ≠ 13)
    (hstatus : ∀ b ∈ status, b ≠ 0 ∧ b ≠ 34 ∧ b ≠ 44 ∧ b ≠ 10 ∧ b ≠ 13)
    (h1 : ∀ b ∈ g1, b ≠ 0) (h2 : ∀ b ∈ g2, b ≠ 0) (h3 : ∀ b ∈ g3, b ≠ 0)
    (htail : tail.head? ≠ some 34) :
    extract_csv_field line 0 = (ts, ts.length + 1) ∧
    extract_csv_field line (ts.length + 1) = (dur, ts.length + 1 + dur.length + 1) ∧
    extract_csv_field line (ts.length + 1 + dur.length + 1)
      = (status, ts.length + 1 + dur.length + 1 + status.length + 1) ∧
    extract_csv_field line (ts.length + 1 + dur.length + 1 + status.length + 1)
      = (g1, ts.length + 1 + dur.length + 1 + status.length + 1 + (double_quotes g1).length + 3) ∧
    extract_csv_field line
        (ts.length + 1 + dur.length + 1 + status.length + 1 + (double_quotes g1).length + 3)
      = (g2, ts.length + 1 + dur.length + 1 + status.length + 1 + (double_quotes g1).length + 3
          + (double_quotes g2).length + 3) ∧
    extract_csv_field line
        (ts.length + 1 + dur.length + 1 + status.length + 1 + (double_quotes g1).length + 3
          + (double_quotes g2).length + 3)
      = (g3, ts.length + 1 + dur.length + 1 + status.length + 1 + (double_quotes g1).length + 3
          + (double_quotes g2).length + 3 + (double_quotes g3).length + 2
          + (if tail.head? = some 44 then 1 else 0)) := by
  have e1 := extract_plain line [] ts
    (dur ++ 44 :: (status ++ 44 :: (34 :: (double_quotes g1 ++ 34 :: 44 :: 34 ::
      (double_quotes g2 ++ 34 :: 44 :: 34 :: (double_quotes g3 ++ 34 :: tail))))))
    0 rfl (by rw [hline]; rfl) hts
  have e2 := extract_plain line (ts ++ [44]) dur
    (status ++ 44 :: (34 :: (double_quotes g1 ++ 34 :: 44 :: 34 ::
      (double_quotes g2 ++ 34 :: 44 :: 34 :: (double_quotes g3 ++ 34 :: tail)))))
    (ts.length + 1) (by simp) (by rw [hline]; simp) hdur
  have e3 := extract_plain line (ts ++ 44 :: (dur ++ [44])) status
    (34 :: (double_quotes g1 ++ 34 :: 44 :: 34 ::
      (double_quotes g2 ++ 34 :: 44 :: 34 :: (double_quotes g3 ++ 34 :: tail))))
    (ts.length + 1 + dur.length + 1)
    (by simp only [List.length_append, List.length_cons, List.length_nil]; omega)
    (by rw [hline]; simp) hstatus
  have e4 := extract_quoted line (ts ++ 44 :: (dur ++ 44 :: (status ++ [44]))) g1
    (44 :: 34 :: (double_quotes g2 ++ 34 :: 44 :: 34 :: (double_quotes g3 ++ 34 :: tail)))
    (ts.length + 1 + dur.length + 1 + status.length + 1)
    (by simp only [List.length_append, List.length_cons, List.length_nil]; omega)
    (by rw [hline]; simp) h1 (by simp)
  have e5 := extract_quoted line
    (ts ++ 44 :: (dur ++ 44 :: (status ++ 44 :: (34 :: (double_quotes g1 ++ [34, 44]))))) g2
    (44 :: 34 :: (double_quotes g3 ++ 34 :: tail))
    (ts.length + 1 + dur.length + 1 + status.length + 1 + (double_quotes g1).length + 3)
    (by simp only [List.length_append, List.length_cons, List.length_nil]; omega)
    (by rw [hline]; simp) h2 (by simp)
  have e6 := extract_quoted line
    (ts ++ 44 :: (dur ++ 44 :: (status ++ 44 :: (34 :: (double_quotes g1 ++ 34 :: 44 :: 34 ::
      (double_quotes g2 ++ [34, 44])))))) g3 tail
    (ts.length + 1 + dur.length + 1 + status.length + 1 + (double_quotes g1).length + 3
      + (double_quotes g2).length + 3)
    (by simp only [List.length_append, List.length_cons, List.length_nil]; omega)
    (by rw [hline]; simp) h3 htail
  simp only [List.head?_cons, if_true] at e4 e5
  refine ⟨?_, e2, e3, e4, e5, e6⟩
  rw [e1]
  simp

theorem byteAt_head_ne_zero (ts rest : List Byte)
    (hts : ∀ b ∈ ts, b ≠ 0 ∧ b ≠ 34 ∧ b ≠ 44 ∧ b ≠ 10 ∧ b ≠ 13) :
    byteAt (ts ++ 44 :: rest) 0 ≠ 0 := by
  cases ts with
  | nil => rw [List.nil_append, byteAt_cons_zero]; decide
  | cons c r =>
    have hc := (hts c (List.mem_cons_self c r)).1
    rw [List.cons_append, byteAt_cons_zero]
    intro h
    exact hc (Fin.ext h)

theorem byteAt_length (l : List Byte) : byteAt l l.length = 0 := by
  simp [byteAt]

/-- The result of `parse_csv_line` in terms of the results of its calls. -/
theorem parse_csv_line_of_fields (line ts dur status g1 g2 g3 : List Byte)
    (p1 p2 p3 p4 p5 p6 : Nat) (n : Int) (h0 : byteAt line 0 ≠ 0)
    (e1 : extract_csv_field line 0 = (ts, p1)) (e2 : extract_csv_field line p1 = (dur, p2))
    (e3 : extract_csv_field line p2 = (status, p3)) (e4 : extract_csv_field line p3 = (g1, p4))
    (e5 : extract_csv_field line p4 = (g2, p5)) (e6 : extract_csv_field line p5 = (g3, p6))
    (hconv : strtol dur = (n, dur.length)) (hpos : 0 < dur.length) :
    parse_csv_line (some line)
      = some { timestamp := ts, duration := n, status := status, window_title := g1,
               wm_class := g2, wm_class_instance := g3,
               rp_state :=
                 if byteAt line p6 ≠ 0 then (extract_csv_field line p6).1 else [],
               rp_details :=
                 if byteAt line p6 ≠ 0 ∧ byteAt line (extract_csv_field line p6).2 ≠ 0 then
                   (extract_csv_field line (extract_csv_field line p6).2).1
                 else [] } := by
  unfold parse_csv_line
  simp only []
  rw [if_neg h0]
  simp only [e1, e2, e3, e4, e5, e6, hconv, byteAt_length]
  have hc : ¬ (dur.length = 0 ∨ ((0 : Nat) ≠ 0 ∧ (0 : Nat) ≠ 10 ∧ (0 : Nat) ≠ 13)) := by
    intro h
    rcases h with h | h
    · omega
    · exact h.1 rfl
  rw [if_neg hc]
  by_cases h6 : byteAt line p6 = 0
  · simp [h6]
  · by_cases h7 : byteAt line (extract_csv_field line p6).2 = 0
    · simp [h6, h7]
    · simp [h6, h7]

/-- `parse_csv_line` on a line of six fields: timestamp, the duration as `printf` writes it,
status, and three fields written by `csv_escape_to_buffer`. -/
theorem parse_six_field_line (ts status g1 g2 g3 : List Byte) (n : Int)
    (hts : ∀ b ∈ ts, b ≠ 0 ∧ b ≠ 34 ∧ b ≠ 44 ∧ b ≠ 10 ∧ b ≠ 13)
    (hstatus : ∀ b ∈ status, b ≠ 0 ∧ b ≠ 34 ∧ b ≠ 44 ∧ b ≠ 10 ∧ b ≠ 13)
    (h1 : ∀ b ∈ g1, b ≠ 0) (h2 : ∀ b ∈ g2, b ≠ 0) (h3 : ∀ b ∈ g3, b ≠ 0)
    (hmin : LONG_MIN ≤ n) (hmax : n ≤ LONG_MAX) :
    parse_csv_line (some (ts ++ 44 :: (printf_ld n ++ 44 :: (status ++ 44 ::
      (34 :: (double_quotes g1 ++ 34 :: 44 :: 34 :: (double_quotes g2 ++ 34 :: 44 :: 34 ::
        (double_quotes g3 ++ [34]))))))))
      = some { timestamp := ts, duration := n, status := status, window_title := g1,
               wm_class := g2, wm_class_instance := g3, rp_state := [], rp_details := [] } := by
  generalize hline : ts ++ 44 :: (printf_ld n ++ 44 :: (status ++ 44 ::
      (34 :: (double_quotes g1 ++ 34 :: 44 :: 34 :: (double_quotes g2 ++ 34 :: 44 :: 34 ::
        (double_quotes g3 ++ [34])))))) = line
  obtain ⟨e1, e2, e3, e4, e5, e6⟩ := extract_six_fields line ts (printf_ld n) status g1 g2 g3 []
    hline.symm hts (printf_ld_plain n) hstatus h1 h2 h3 (by simp)
  obtain ⟨hconv, hpos⟩ := strtol_printf_ld n hmin hmax
  have h0 : byteAt line 0 ≠ 0 := by rw [← hline]; exact byteAt_head_ne_zero ts _ hts
  have hp6 : ts.length + 1 + (printf_ld n).length + 1 + status.length + 1
      + (double_quotes g1).length + 3 + (double_quotes g2).length + 3
      + (double_quotes g3).length + 2 + (if ([] : List Byte).head? = some 44 then 1 else 0)
      = line.length := by
    rw [← hline]
    simp only [List.length_append, List.length_cons, List.length_nil, List.head?_nil]
    rw [if_neg (by simp)]
    omega
  rw [hp6] at e6
  rw [parse_csv_line_of_fields line ts (printf_ld n) status g1 g2 g3 _ _ _ _ _ _ n h0
    e1 e2 e3 e4 e5 e6 hconv hpos]
  simp [byteAt_length]

/-- `parse_csv_line` on a line of eight fields, as `emit_csv_to_buffer` writes them. -/
theorem parse_eight_field_line (ts status g1 g2 g3 g4 g5 : List Byte) (n : Int)
    (hts : ∀ b ∈ ts, b ≠ 0 ∧ b ≠ 34 ∧ b ≠ 44 ∧ b ≠ 10 ∧ b ≠ 13)
    (hstatus : ∀ b ∈ status, b ≠ 0 ∧ b ≠ 34 ∧ b ≠ 44 ∧ b ≠ 10 ∧ b ≠ 13)
    (h1 : ∀ b ∈ g1, b ≠ 0) (h2 : ∀ b ∈ g2, b ≠ 0) (h3 : ∀ b ∈ g3, b ≠ 0)
    (h4 : ∀ b ∈ g4, b ≠ 0) (h5 : ∀ b ∈ g5, b ≠ 0)
    (hmin : LONG_MIN ≤ n) (hmax : n ≤ LONG_MAX) :
    parse_csv_line (some (ts ++ 44 :: (printf_ld n ++ 44 :: (status ++ 44 ::
      (34 :: (double_quotes g1 ++ 34 :: 44 :: 34 :: (double_quotes g2 ++ 34 :: 44 :: 34 ::
        (double_quotes g3 ++ 34 :: 44 :: 34 :: (double_quotes g4 ++ 34 :: 44 :: 34 ::
          (double_quotes g5 ++ [34]))))))))))
      = some { timestamp := ts, duration := n, status := status, window_title := g1,
               wm_class := g2, wm_class_instance := g3, rp_state := g4, rp_details := g5 } := by
  generalize hline : ts ++ 44 :: (printf_ld n ++ 44 :: (status ++ 44 ::
      (34 :: (double_quotes g1 ++ 34 :: 44 :: 34 :: (double_quotes g2 ++ 34 :: 44 :: 34 ::
        (double_quotes g3 ++ 34 :: 44 :: 34 :: (double_quotes g4 ++ 34 :: 44 :: 34 ::
          (double_quotes g5 ++ [34])))))))) = line
  obtain ⟨e1, e2, e3, e4, e5, e6⟩ := extract_six_fields line ts (printf_ld n) status g1 g2 g3
    (44 :: 34 :: (double_quotes g4 ++ 34 :: 44 :: 34 :: (double_quotes g5 ++ [34])))
    hline.symm hts (printf_ld_plain n) hstatus h1 h2 h3 (by simp)
  obtain ⟨hconv, hpos⟩ := strtol_printf_ld n hmin hmax
  have h0 : byteAt line 0 ≠ 0 := by rw [← hline]; exact byteAt_head_ne_zero ts _ hts
  simp only [List.head?_cons, if_true] at e6
  generalize hp6 : ts.length + 1 + (printf_ld n).length + 1 + status.length + 1
      + (double_quotes g1).length + 3 + (double_quotes g2).length + 3
      + (double_quotes g3).length + 2 + 1 = p6 at e6
  have e7 := extract_quoted line
    (ts ++ 44 :: (printf_ld n ++ 44 :: (status ++ 44 :: (34 :: (double_quotes g1 ++ 34 :: 44 ::
      34 :: (double_quotes g2 ++ 34 :: 44 :: 34 :: (double_quotes g3 ++ [34, 44])))))))
    g4 (44 :: 34 :: (double_quotes g5 ++ [34])) p6
    (by rw [← hp6]; simp only [List.length_append, List.length_cons, List.length_nil]; omega)
    (by rw [← hline]; simp) h4 (by simp)
  simp only [List.head?_cons, if_true] at e7
  have b6 : byteAt line p6 = 34 := by
    rw [byteAt_at line
      (ts ++ 44 :: (printf_ld n ++ 44 :: (status ++ 44 :: (34 :: (double_quotes g1 ++ 34 :: 44 ::
        34 :: (double_quotes g2 ++ 34 :: 44 :: 34 :: (double_quotes g3 ++ [34, 44])))))))
      (34 :: (double_quotes g4 ++ 34 :: 44 :: 34 :: (double_quotes g5 ++ [34]))) p6
      (by rw [← hp6]; simp only [List.length_append, List.length_cons, List.length_nil]; omega)
      (by rw [← hline]; simp)]
    rfl
  have e8 := extract_quoted line
    (ts ++ 44 :: (printf_ld n ++ 44 :: (status ++ 44 :: (34 :: (double_quotes g1 ++ 34 :: 44 ::
      34 :: (double_quotes g2 ++ 34 :: 44 :: 34 :: (double_quotes g3 ++ 34 :: 44 :: 34 ::
        (double_quotes g4 ++ [34, 44]))))))))
    g5 [] (p6 + (double_quotes g4).length + 2 + 1)
    (by rw [← hp6]; simp only [List.length_append, List.length_cons, List.length_nil]; omega)
    (by rw [← hline]; simp) h5 (by simp)
  have b7 : byteAt line (p6 + (double_quotes g4).length + 2 + 1) = 34 := by
    rw [byteAt_at line
      (ts ++ 44 :: (printf_ld n ++ 44 :: (status ++ 44 :: (34 :: (double_quotes g1 ++ 34 :: 44 ::
        34 :: (double_quotes g2 ++ 34 :: 44 :: 34 :: (double_quotes g3 ++ 34 :: 44 :: 34 ::
          (double_quotes g4 ++ [34, 44]))))))))
      (34 :: (double_quotes g5 ++ [34])) (p6 + (double_quotes g4).length + 2 + 1)
      (by rw [← hp6]; simp only [List.length_append, List.length_cons, List.length_nil]; omega)
      (by rw [← hline]; simp)]
    rfl
  rw [parse_csv_line_of_fields line ts (printf_ld n) status g1 g2 g3 _ _ _ _ _ _ n h0
    e1 e2 e3 e4 e5 e6 hconv hpos]
  simp only [e7, b6, b7, e8]
  simp

theorem plain_text_spec (s : List Byte) (h : plain_text s = true) :
    ∀ b ∈ s, b ≠ 0 ∧ b ≠ 34 ∧ b ≠ 44 ∧ b ≠ 10 ∧ b ≠ 13 := by
  intro b hb
  unfold plain_text at h
  rw [List.all_eq_true] at h
  have h1 := h b hb
  simp only [Bool.and_eq_true, bne_iff_ne, ne_eq] at h1
  exact ⟨h1.1.1.1.1, h1.1.1.1.2, h1.1.1.2, h1.1.2, h1.2⟩

/-- C23: `csv_escape_to_buffer` appends a quote, the field with every quote doubled and a
quote, the field being the C string `cstr field` found at the pointer; `extract_csv_field`,
started on that text and followed by anything but a quote, returns the field; and
`parse_csv_line`, on the line made of a timestamp and a status without quote, comma, line
break or NUL, the number `n` (a `long`) as `printf` writes it, and the escaped title,
wm_class and wm_class_instance, returns TRUE with exactly those values and empty
rich-presence fields, whatever bytes the three fields contain. -/
theorem C23_csv_field_round_trip (ts status title wm_class wm_class_instance : List Byte)
    (n : Int)
    (hts : plain_text ts = true) (hstatus : plain_text status = true)
    (hmin : LONG_MIN ≤ n) (hmax : n ≤ LONG_MAX) :
    (∀ buf f, csv_escape_to_buffer buf f = buf ++ 34 :: (double_quotes (cstr f) ++ [34])) ∧
    (∀ pre f rest, rest.head? ≠ some 34 →
      (extract_csv_field (csv_escape_to_buffer pre f ++ rest) pre.length).1 = cstr f) ∧
    parse_csv_line
        (some (ts ++ [44] ++ printf_ld n ++ [44] ++ status ++ [44]
          ++ csv_escape_to_buffer [] title ++ [44] ++ csv_escape_to_buffer [] wm_class ++ [44]
          ++ csv_escape_to_buffer [] wm_class_instance))
      = some { timestamp := ts, duration := n, status := status, window_title := cstr title,
               wm_class := cstr wm_class, wm_class_instance := cstr wm_class_instance,
               rp_state := [], rp_details := [] } := by
  refine ⟨csv_escape_to_buffer_eq, ?_, ?_⟩
  · intro pre f rest hrest
    rw [extract_quoted _ pre (cstr f) rest pre.length rfl
      (by rw [csv_escape_to_buffer_eq]; simp) (cstr_no_nul f) hrest]
  · have h := parse_six_field_line ts status (cstr title) (cstr wm_class)
      (cstr wm_class_instance) n (plain_text_spec ts hts) (plain_text_spec status hstatus)
      (cstr_no_nul _) (cstr_no_nul _) (cstr_no_nul _)
      hmin hmax
    rw [← h]
    congr 2
    simp [csv_escape_to_buffer_eq]

/-- C23 (witness): the line of the test `test_parse_csv_quoted_title`, whose title is
`Say "hello"`. -/
theorem C23_csv_field_round_trip_witness :
    csv_escape_to_buffer [] (ascii "Say \"hello\"") = ascii "\"Say \"\"hello\"\"\"" ∧
    parse_csv_line
        (some (ascii "2026-01-28T10:00:00,60,active,\"Say \"\"hello\"\"\",\"App\",\"app\""))
      = some { timestamp := ascii "2026-01-28T10:00:00", duration := 60,
               status := ascii "active", window_title := ascii "Say \"hello\"",
               wm_class := ascii "App", wm_class_instance := ascii "app",
               rp_state := [], rp_details := [] } :=
  ⟨by decide,
    (C23_csv_field_round_trip (ascii "2026-01-28T10:00:00") (ascii "active")
      (ascii "Say \"hello\"") (ascii "App") (ascii "app") 60
      (by decide) (by decide) (by decide) (by decide)).2.2⟩

/-! ## Writing the activity log -/

theorem tdiv_usec_lt_one (a : Int) (h : a < 1000000) : a.tdiv G_USEC_PER_SEC < 1 := by
  unfold G_USEC_PER_SEC
  by_cases h0 : 0 ≤ a
  · rw [Int.tdiv_eq_ediv h0 (by omega)]
    omega
  · have h1 : a = -(-a) := by omega
    rw [h1, Int.neg_tdiv]
    have := Int.tdiv_nonneg (a := -a) (b := 1000000) (by omega) (by omega)
    omega

theorem tdiv_usec_ge_one (a : Int) (h : 1000000 ≤ a) :
    1 ≤ a.tdiv G_USEC_PER_SEC ∧ a.tdiv G_USEC_PER_SEC * 1000000 ≤ a ∧
    a < (a.tdiv G_USEC_PER_SEC + 1) * 1000000 := by
  unfold G_USEC_PER_SEC
  rw [Int.tdiv_eq_ediv (by omega) (by omega)]
  omega

/-- What `emit_csv_to_buffer` appends for a state with a title and at least one whole
second elapsed. -/
theorem emit_csv_record (fmt : Int → List Byte) (buf : List Byte) (st : AppState) (now : Int)
    (title : List Byte) (ht : st.current_title = some title)
    (hd : 1000000 ≤ now - st.current_start) :
    emit_csv_to_buffer fmt buf st now
      = buf ++ (cstr (fmt st.current_wall) ++ 44 ::
          (printf_ld ((now - st.current_start).tdiv G_USEC_PER_SEC) ++ 44 ::
          ((if st.is_locked = true then ascii "locked"
            else if st.is_idle = true then ascii "idle" else ascii "active") ++ 44 ::
          (34 :: (double_quotes (cstr (if (st.is_locked || st.is_idle) = true then []
              else title)) ++ 34 :: 44 ::
           34 :: (double_quotes (cstr (if (st.is_locked || st.is_idle) = true then []
              else st.current_wm_class.getD [])) ++ 34 :: 44 ::
           34 :: (double_quotes (cstr (if (st.is_locked || st.is_idle) = true then []
              else st.current_wm_class_instance.getD [])) ++ 34 :: 44 ::
           34 :: (double_quotes (cstr (if (st.is_locked || st.is_idle) = true then []
              else st.current_rp_state.getD [])) ++ 34 :: 44 ::
           34 :: (double_quotes (cstr (if (st.is_locked || st.is_idle) = true then []
              else st.current_rp_details.getD [])) ++ [34, 10]))))))))) := by
  have h1 := (tdiv_usec_ge_one _ hd).1
  unfold emit_csv_to_buffer
  rw [ht]
  simp only []
  rw [if_neg (by omega)]
  simp only [csv_escape_to_buffer_eq, List.append_assoc, List.cons_append, List.nil_append]

/-- C25: `emit_csv_to_buffer` appends nothing when the title is `NULL` or when less than one
whole second (1000000 microseconds) has elapsed since `current_start`. Otherwise it appends
one record: the timestamp text, the number `d` of whole seconds elapsed, the status and five
quoted fields, ended by a line feed. The status is `locked` when `is_locked` is set, whatever
`is_idle` is, `idle` when only `is_idle` is set, and `active` otherwise; in the first two
cases the five fields are empty whatever strings the state holds, in the third they are the
escaped title, wm_class, wm_class_instance, rp_state and rp_details, a `NULL` string counting
as empty. -/
theorem C25_emit_csv_status_and_blanking (format_iso8601 : Int → List Byte) (buf : List Byte)
    (state : AppState) (now : Int) :
    (state.current_title = none → emit_csv_to_buffer format_iso8601 buf state now = buf) ∧
    (now - state.current_start < 1000000 →
      emit_csv_to_buffer format_iso8601 buf state now = buf) ∧
    (∀ title, state.current_title = some title → 1000000 ≤ now - state.current_start →
      ∃ d : Int, 1 ≤ d ∧ d * 1000000 ≤ now - state.current_start ∧
        now - state.current_start < (d + 1) * 1000000 ∧
        (state.is_locked = true →
          emit_csv_to_buffer format_iso8601 buf state now
            = buf ++ cstr (format_iso8601 state.current_wall) ++ [44] ++ printf_ld d
              ++ ascii ",locked,\"\",\"\",\"\",\"\",\"\"\n") ∧
        (state.is_locked = false → state.is_idle = true →
          emit_csv_to_buffer format_iso8601 buf state now
            = buf ++ cstr (format_iso8601 state.current_wall) ++ [44] ++ printf_ld d
              ++ ascii ",idle,\"\",\"\",\"\",\"\",\"\"\n") ∧
        (state.is_locked = false → state.is_idle = false →
          emit_csv_to_buffer format_iso8601 buf state now
            = buf ++ cstr (format_iso8601 state.current_wall) ++ [44] ++ printf_ld d
              ++ ascii ",active," ++ csv_escape_to_buffer [] title ++ [44]
              ++ csv_escape_to_buffer [] (state.current_wm_class.getD []) ++ [44]
              ++ csv_escape_to_buffer [] (state.current_wm_class_instance.getD []) ++ [44]
              ++ csv_escape_to_buffer [] (state.current_rp_state.getD []) ++ [44]
              ++ csv_escape_to_buffer [] (state.current_rp_details.getD []) ++ [10])) := by
  refine ⟨?_, ?_, ?_⟩
  · intro h
    unfold emit_csv_to_buffer
    rw [h]
  · intro h
    have h1 := tdiv_usec_lt_one _ h
    unfold emit_csv_to_buffer
    cases state.current_title with
    | none => rfl
    | some t =>
      simp only []
      rw [if_pos h1]
  · intro title ht hd
    obtain ⟨h1, h2, h3⟩ := tdiv_usec_ge_one _ hd
    have hrec := emit_csv_record format_iso8601 buf state now title ht hd
    have hempty : double_quotes (cstr []) = [] := rfl
    have hlocked : ascii ",locked,\"\",\"\",\"\",\"\",\"\"\n"
        = 44 :: (ascii "locked" ++ [44, 34, 34, 44, 34, 34, 44, 34, 34, 44, 34, 34, 44, 34, 34,
            10]) := by decide
    have hidle : ascii ",idle,\"\",\"\",\"\",\"\",\"\"\n"
        = 44 :: (ascii "idle" ++ [44, 34, 34, 44, 34, 34, 44, 34, 34, 44, 34, 34, 44, 34, 34,
            10]) := by decide
    have hactive : ascii ",active," = 44 :: (ascii "active" ++ [44]) := by decide
    refine ⟨_, h1, h2, h3, ?_, ?_, ?_⟩
    · intro hl
      rw [hrec, hlocked]
      simp only [hl, Bool.true_or, if_true, hempty, List.append_assoc, List.cons_append,
        List.nil_append]
    · intro hl hi
      rw [hrec, hidle]
      simp only [hl, hi, Bool.or_true, if_true, hempty, Bool.false_eq_true, if_false,
        List.append_assoc, List.cons_append, List.nil_append]
    · intro hl hi
      rw [hrec, hactive]
      simp only [hl, hi, Bool.or_false, Bool.false_eq_true, if_false, csv_escape_to_buffer_eq,
        List.append_assoc, List.cons_append, List.nil_append]

/-- C25 (witness): the state of `test_emit_csv_locked`, locked, ten seconds after the start:
the record ends in `,10,locked,"","","","",""` and a line feed. -/
theorem C25_emit_csv_status_and_blanking_witness :
    emit_csv_to_buffer (fun _ => ascii "2024-01-15T10:30:00") []
        { current_title := some (ascii "Ignored Title"),
          current_wm_class := some (ascii "SomeClass"),
          current_wm_class_instance := some (ascii "someinstance"),
          current_start := 0, current_wall := 1705311000, is_locked := true, is_idle := false,
          current_rp_state := none, current_rp_details := none } 10000000
      = ascii "2024-01-15T10:30:00,10,locked,\"\",\"\",\"\",\"\",\"\"\n" ∧
    emit_csv_to_buffer (fun _ => ascii "2024-01-15T10:30:00") []
        { current_title := some (ascii "Short"), current_wm_class := none,
          current_wm_class_instance := none,
          current_start := 0, current_wall := 1705311000, is_locked := false, is_idle := false,
          current_rp_state := none, current_rp_details := none } 500000 = [] :=
  ⟨by decide,
    (C25_emit_csv_status_and_blanking (fun _ => ascii "2024-01-15T10:30:00") []
      { current_title := some (ascii "Short"), current_wm_class := none,
        current_wm_class_instance := none,
        current_start := 0, current_wall := 1705311000, is_locked := false, is_idle := false,
        current_rp_state := none, current_rp_details := none } 500000).2.1 (by decide)⟩

/-! ## Reading the activity log -/

/-- C30: the state with the title `a`, line feed, `b` and wm_class `App`, written five seconds
after its start: `emit_csv_to_buffer` writes one record, in which the quoted title holds the
line feed. `compute_day_stats` cuts the text at every line feed before it parses: the first
piece ends inside the quoted title and is parsed as a row with title `a` and empty wm_class,
the second piece is rejected. The five seconds are counted for the application with the empty
name and not for `App`; `parse_csv_line` given the whole record returns wm_class `App`. -/
theorem C30_line_break_in_title_loses_wm_class :
    emit_csv_to_buffer (fun _ => ascii "2026-01-28T10:00:00") [] two_line_title_state 5000000
      = ascii "2026-01-28T10:00:00,5,active,\"a\nb\",\"App\",\"app\",\"\",\"\"\n" ∧
    compute_day_stats
        (some (emit_csv_to_buffer (fun _ => ascii "2026-01-28T10:00:00") []
          two_line_title_state 5000000)) id
      = some { total_active_seconds := 5, total_locked_seconds := 0,
               apps := [{ wm_class := [], total_seconds := 5, titles := [(ascii "a", 5)] }] } ∧
    (csv_rows (emit_csv_to_buffer (fun _ => ascii "2026-01-28T10:00:00") []
        two_line_title_state 5000000)).map (fun r => (r.window_title, r.wm_class, r.duration))
      = [(ascii "a", [], 5)] ∧
    (parse_csv_line
        (some (ascii "2026-01-28T10:00:00,5,active,\"a\nb\",\"App\",\"app\",\"\",\"\""))).map
        (fun r => (r.window_title, r.wm_class, r.duration))
      = some (ascii "a\nb", ascii "App", 5) := by
  decide

set_option maxRecDepth 100000 in
/-- The statistics of the file of the test `test_compute_day_stats`. -/
theorem sample_csv_stats :
    compute_day_stats (some sample_csv) id
      = some { total_active_seconds := 210, total_locked_seconds := 45,
               apps := [{ wm_class := ascii "Gnome-terminal", total_seconds := 120,
                          titles := [(ascii "Terminal", 120)] },
                        { wm_class := ascii "Firefox", total_seconds := 90,
                          titles := [(ascii "Tab 1", 60), (ascii "Tab 2", 30)] }] } := by
  decide

/-! ## Aggregation of a day -/

theorem duration_sum_nil (p : CsvRow → Bool) : duration_sum p [] = 0 := rfl

theorem duration_sum_cons (p : CsvRow → Bool) (r : CsvRow) (rs : List CsvRow) :
    duration_sum p (r :: rs) = (if p r = true then r.duration else 0) + duration_sum p rs := by
  unfold duration_sum
  by_cases h : p r = true
  · simp [List.filter_cons, h]
  · simp [List.filter_cons, h]

theorem duration_sum_append (p : CsvRow → Bool) (rs ss : List CsvRow) :
    duration_sum p (rs ++ ss) = duration_sum p rs + duration_sum p ss := by
  unfold duration_sum
  simp [List.filter_append]

theorem long_add_exact (a b : Int) (h : (a + b).natAbs ≤ 2 ^ 63 - 1) :
    long_add a b = a + b := by
  unfold long_add
  omega

theorem duration_bound_cons (r : CsvRow) (rs : List CsvRow) :
    duration_bound (r :: rs) = r.duration.natAbs + duration_bound rs := by
  simp [duration_bound]

theorem duration_bound_append (rs ss : List CsvRow) :
    duration_bound (rs ++ ss) = duration_bound rs + duration_bound ss := by
  simp [duration_bound]

theorem duration_bound_filter_le (p : CsvRow → Bool) (rs : List CsvRow) :
    duration_bound (rs.filter p) ≤ duration_bound rs := by
  induction rs with
  | nil => simp
  | cons r rs ih =>
    rw [List.filter_cons, duration_bound_cons]
    split
    · rw [duration_bound_cons]; omega
    · omega

/-- A sum of the durations of some of the rows is at most `duration_bound` in absolute
value. -/
theorem duration_sum_le_bound (p : CsvRow → Bool) (rs : List CsvRow) :
    (duration_sum p rs).natAbs ≤ duration_bound rs := by
  induction rs with
  | nil => simp [duration_sum_nil, duration_bound]
  | cons r rs ih =>
    rw [duration_sum_cons, duration_bound_cons]
    split <;> omega

/-- The loop of `compute_day_stats` over the lines in terms of the rows read from them, when
the totals stay within the range of `long`. -/
theorem fold_day_stats_lines (ls : List (List Byte)) :
    ∀ acc : DayStats,
      acc.total_active_seconds.natAbs + duration_bound (ls.filterMap (fun line =>
          if byteAt line 0 = 0 then none else parse_csv_line (some line))) ≤ 2 ^ 63 - 1 →
      acc.total_locked_seconds.natAbs + duration_bound (ls.filterMap (fun line =>
          if byteAt line 0 = 0 then none else parse_csv_line (some line))) ≤ 2 ^ 63 - 1 →
      ls.foldl day_stats_line acc
        = { total_active_seconds := acc.total_active_seconds
              + duration_sum (fun r => !row_is_away r)
                  (ls.filterMap (fun line =>
                    if byteAt line 0 = 0 then none else parse_csv_line (some line))),
            total_locked_seconds := acc.total_locked_seconds
              + duration_sum row_is_away
                  (ls.filterMap (fun line =>
                    if byteAt line 0 = 0 then none else parse_csv_line (some line))),
            apps := ((ls.filterMap (fun line =>
                    if byteAt line 0 = 0 then none else parse_csv_line (some line))).filter
                  (fun r => !row_is_away r)).foldl add_app_seconds acc.apps } := by
  induction ls with
  | nil => intro acc _ _; simp [duration_sum_nil]
  | cons l ls ih =>
    intro acc hba hbl
    rw [List.foldl_cons]
    by_cases h0 : byteAt l 0 = 0
    · have hstep : day_stats_line acc l = acc := by simp [day_stats_line, h0]
      have hrows : (l :: ls).filterMap (fun line =>
          if byteAt line 0 = 0 then none else parse_csv_line (some line))
          = ls.filterMap (fun line =>
            if byteAt line 0 = 0 then none else parse_csv_line (some line)) := by
        simp [List.filterMap_cons, h0]
      rw [hrows] at hba hbl ⊢
      rw [hstep]
      exact ih acc hba hbl
    · cases hp : parse_csv_line (some l) with
      | none =>
        have hstep : day_stats_line acc l = acc := by simp [day_stats_line, h0, hp]
        have hrows : (l :: ls).filterMap (fun line =>
            if byteAt line 0 = 0 then none else parse_csv_line (some line))
            = ls.filterMap (fun line =>
              if byteAt line 0 = 0 then none else parse_csv_line (some line)) := by
          simp [List.filterMap_cons, h0, hp]
        rw [hrows] at hba hbl ⊢
        rw [hstep]
        exact ih acc hba hbl
      | some row =>
        have hrows : (l :: ls).filterMap (fun line =>
            if byteAt line 0 = 0 then none else parse_csv_line (some line))
            = row :: ls.filterMap (fun line =>
              if byteAt line 0 = 0 then none else parse_csv_line (some line)) := by
          simp [List.filterMap_cons, h0, hp]
        rw [hrows] at hba hbl ⊢
        rw [duration_bound_cons] at hba hbl
        by_cases ha : row.status = ascii "locked" ∨ row.status = ascii "idle"
        · have haway : row_is_away row = true := by
            unfold row_is_away
            rcases ha with h | h
            · simp [h]
            · simp [h]
          have hstep : day_stats_line acc l
              = { acc with
                  total_locked_seconds := acc.total_locked_seconds + row.duration } := by
            simp only [day_stats_line, h0, if_false, hp, if_pos ha]
            rw [long_add_exact _ _ (by omega)]
          rw [hstep, ih _ (by simpa using (by omega)) (by simp only []; omega)]
          simp only [duration_sum_cons, haway, List.filter_cons]
          simp
          omega
        · have haway : row_is_away row = false := by
            unfold row_is_away
            simp only [not_or] at ha
            simp [ha.1, ha.2]
          have hstep : day_stats_line acc l
              = { acc with
                  total_active_seconds := acc.total_active_seconds + row.duration
                  apps := add_app_seconds acc.apps row } := by
            simp only [day_stats_line, h0, if_false, hp, if_neg ha]
            rw [long_add_exact _ _ (by omega)]
          rw [hstep, ih _ (by simp only []; omega) (by simp only []; omega)]
          simp only [duration_sum_cons, haway, List.filter_cons]
          simp
          omega

theorem add_app_seconds_classes_same (m : List AppStat) (row : CsvRow)
    (h : row.wm_class ∈ m.map (fun a => a.wm_class)) :
    (add_app_seconds m row).map (fun a => a.wm_class) = m.map (fun a => a.wm_class) := by
  have hany : m.any (fun a => decide (a.wm_class = row.wm_class)) = true := by
    rw [List.any_eq_true]
    obtain ⟨a, ha, hc⟩ := List.mem_map.mp h
    exact ⟨a, ha, by simpa using hc⟩
  unfold add_app_seconds
  rw [if_pos hany, List.map_map]
  apply List.map_congr_left
  intro a _
  simp only [Function.comp]
  split <;> rfl

theorem add_app_seconds_classes_new (m : List AppStat) (row : CsvRow)
    (h : row.wm_class ∉ m.map (fun a => a.wm_class)) :
    add_app_seconds m row
      = m ++ [{ wm_class := row.wm_class, total_seconds := row.duration,
                titles := [(display_key row, row.duration)] }] := by
  have hany : ¬ (m.any (fun a => decide (a.wm_class = row.wm_class)) = true) := by
    rw [List.any_eq_true]
    intro ⟨a, ha, hc⟩
    apply h
    exact List.mem_map.mpr ⟨a, ha, by simpa using hc⟩
  unfold add_app_seconds
  rw [if_neg hany]

/-- The table of applications after the loop has handled the rows `rs` and then `row`, none
of them locked or idle, when the sums stay within the range of `long`: one record per
wm_class met, holding the sum of its durations. -/
theorem add_app_seconds_keeps (m : List AppStat) (rs : List CsvRow) (row : CsvRow)
    (h1 : (m.map (fun a => a.wm_class)).Nodup)
    (h2 : ∀ c, c ∈ m.map (fun a => a.wm_class) ↔ ∃ r ∈ rs, r.wm_class = c)
    (h3 : ∀ a ∈ m, a.total_seconds
      = duration_sum (fun r => decide (r.wm_class = a.wm_class)) rs)
    (hb : duration_bound (rs ++ [row]) ≤ 2 ^ 63 - 1) :
    ((add_app_seconds m row).map (fun a => a.wm_class)).Nodup ∧
    (∀ c, c ∈ (add_app_seconds m row).map (fun a => a.wm_class)
      ↔ ∃ r ∈ rs ++ [row], r.wm_class = c) ∧
    (∀ a ∈ add_app_seconds m row, a.total_seconds
      = duration_sum (fun r => decide (r.wm_class = a.wm_class)) (rs ++ [row])) := by
  by_cases hin : row.wm_class ∈ m.map (fun a => a.wm_class)
  · have hcl := add_app_seconds_classes_same m row hin
    refine ⟨by rw [hcl]; exact h1, ?_, ?_⟩
    · intro c
      rw [hcl, h2]
      constructor
      · intro ⟨r, hr, hc⟩
        exact ⟨r, List.mem_append_left _ hr, hc⟩
      · intro ⟨r, hr, hc⟩
        rcases List.mem_append.mp hr with hr | hr
        · exact ⟨r, hr, hc⟩
        · simp only [List.mem_singleton] at hr
          subst hr
          rw [← hc]
          exact (h2 _).mp hin
    · intro a ha
      have hany : m.any (fun a => decide (a.wm_class = row.wm_class)) = true := by
        rw [List.any_eq_true]
        obtain ⟨b, hb, hc⟩ := List.mem_map.mp hin
        exact ⟨b, hb, by simpa using hc⟩
      unfold add_app_seconds at ha
      rw [if_pos hany] at ha
      obtain ⟨b, hb, hab⟩ := List.mem_map.mp ha
      rw [duration_sum_append, duration_sum_cons, duration_sum_nil]
      by_cases hbc : b.wm_class = row.wm_class
      · rw [if_pos hbc] at hab
        rw [← hab]
        simp only [hbc, decide_True, if_true]
        have := h3 b hb
        rw [hbc] at this
        have hle := duration_sum_le_bound (fun r => decide (r.wm_class = row.wm_class))
          (rs ++ [row])
        rw [duration_sum_append, duration_sum_cons, duration_sum_nil] at hle
        simp only [decide_True, if_true] at hle
        rw [long_add_exact _ _ (by rw [this]; omega), this]
        omega
      · rw [if_neg hbc] at hab
        rw [← hab]
        have hne : ¬ (row.wm_class = b.wm_class) := fun h => hbc h.symm
        simp only [hne, decide_False, Bool.false_eq_true, if_false]
        rw [h3 b hb]
        omega
  · rw [add_app_seconds_classes_new m row hin]
    refine ⟨?_, ?_, ?_⟩
    · rw [List.map_append, List.nodup_append]
      refine ⟨h1, by simp, ?_⟩
      intro c hc1 hc2
      simp only [List.map_cons, List.map_nil, List.mem_singleton] at hc2
      subst hc2
      exact hin hc1
    · intro c
      rw [List.map_append, List.mem_append, h2]
      simp only [List.map_cons, List.map_nil, List.mem_singleton]
      constructor
      · intro h
        rcases h with ⟨r, hr, hc⟩ | h
        · exact ⟨r, List.mem_append_left _ hr, hc⟩
        · exact ⟨row, by simp, h.symm⟩
      · intro ⟨r, hr, hc⟩
        rcases List.mem_append.mp hr with hr | hr
        · exact Or.inl ⟨r, hr, hc⟩
        · simp only [List.mem_singleton] at hr
          subst hr
          exact Or.inr hc.symm
    · intro a ha
      rw [duration_sum_append, duration_sum_cons, duration_sum_nil]
      rcases List.mem_append.mp ha with ha | ha
      · have hne : ¬ (row.wm_class = a.wm_class) := by
          intro h
          apply hin
          rw [h]
          exact List.mem_map.mpr ⟨a, ha, rfl⟩
        simp only [hne, decide_False, Bool.false_eq_true, if_false]
        rw [h3 a ha]
        omega
      · simp only [List.mem_singleton] at ha
        subst ha
        simp only [decide_True, if_true]
        have hz : duration_sum (fun r => decide (r.wm_class = row.wm_class)) rs = 0 := by
          unfold duration_sum
          have : rs.filter (fun r => decide (r.wm_class = row.wm_class)) = [] := by
            rw [List.filter_eq_nil_iff]
            intro r hr hc
            apply hin
            rw [h2]
            exact ⟨r, hr, by simpa using hc⟩
          rw [this]
          rfl
        rw [hz]
        omega

theorem fold_add_app_seconds (rs2 : List CsvRow) :
    ∀ (m : List AppStat) (rs : List CsvRow),
      (m.map (fun a => a.wm_class)).Nodup →
      (∀ c, c ∈ m.map (fun a => a.wm_class) ↔ ∃ r ∈ rs, r.wm_class = c) →
      (∀ a ∈ m, a.total_seconds
        = duration_sum (fun r => decide (r.wm_class = a.wm_class)) rs) →
      duration_bound (rs ++ rs2) ≤ 2 ^ 63 - 1 →
      ((rs2.foldl add_app_seconds m).map (fun a => a.wm_class)).Nodup ∧
      (∀ c, c ∈ (rs2.foldl add_app_seconds m).map (fun a => a.wm_class)
        ↔ ∃ r ∈ rs ++ rs2, r.wm_class = c) ∧
      (∀ a ∈ rs2.foldl add_app_seconds m, a.total_seconds
        = duration_sum (fun r => decide (r.wm_class = a.wm_class)) (rs ++ rs2)) := by
  induction rs2 with
  | nil =>
    intro m rs h1 h2 h3 _
    simp only [List.foldl_nil, List.append_nil]
    exact ⟨h1, h2, h3⟩
  | cons r rs2 ih =>
    intro m rs h1 h2 h3 hb
    have hb1 : duration_bound (rs ++ [r]) ≤ 2 ^ 63 - 1 := by
      rw [duration_bound_append, duration_bound_cons] at hb
      rw [duration_bound_append, duration_bound_cons]
      have : duration_bound [] = 0 := rfl
      omega
    obtain ⟨k1, k2, k3⟩ := add_app_seconds_keeps m rs r h1 h2 h3 hb1
    have := ih (add_app_seconds m r) (rs ++ [r]) k1 k2 k3
      (by simpa [List.append_assoc] using hb)
    simpa [List.append_assoc] using this

theorem duration_sum_filter (p q : CsvRow → Bool) (rs : List CsvRow) :
    duration_sum p (rs.filter q) = duration_sum (fun r => q r && p r) rs := by
  unfold duration_sum
  rw [List.filter_filter]
  congr 2
  apply List.filter_congr
  intro r _
  exact Bool.and_comm _ _

theorem compare_app_stat_desc_le (a b : AppStat) :
    compare_app_stat_desc a b ≤ 0 ↔ b.total_seconds ≤ a.total_seconds := by
  unfold compare_app_stat_desc
  split
  · constructor <;> intro h <;> omega
  · split
    · constructor <;> intro h <;> omega
    · constructor <;> intro h <;> omega

/-- A list sorted by `compare_app_stat_desc` is in descending order of `total_seconds`. -/
theorem sorted_by_compare_desc (l : List AppStat) :
    (List.insertionSort (fun a b => compare_app_stat_desc a b ≤ 0) l).Pairwise
      (fun a b => b.total_seconds ≤ a.total_seconds) := by
  haveI : IsTotal AppStat (fun a b => compare_app_stat_desc a b ≤ 0) :=
    ⟨fun a b => by
      simp only [compare_app_stat_desc_le]
      omega⟩
  haveI : IsTrans AppStat (fun a b => compare_app_stat_desc a b ≤ 0) :=
    ⟨fun a b c h1 h2 => by
      simp only [compare_app_stat_desc_le] at h1 h2 ⊢
      omega⟩
  have h := List.sorted_insertionSort (fun a b : AppStat => compare_app_stat_desc a b ≤ 0) l
  unfold List.Sorted at h
  exact h.imp (fun {a b} hab => (compare_app_stat_desc_le a b).mp hab)

/-- A line whose second field does not start with a number is not a row. -/
theorem parse_csv_line_non_numeric (line : List Byte)
    (h : (strtol (extract_csv_field line (extract_csv_field line 0).2).1).2 = 0) :
    parse_csv_line (some line) = none := by
  unfold parse_csv_line
  simp only []
  split
  · rfl
  · rw [if_pos (Or.inl h)]

/-- C26: for every contents of the file in which the absolute values of the durations of the
rows sum to at most `LONG_MAX`, and every order in which the iteration over the hash table
yields its records, `compute_day_stats` returns statistics that are the aggregation of the
rows of the file (its non-empty lines on which `parse_csv_line` returns TRUE):
`total_locked_seconds` is the sum of the durations of the rows with status `locked` or
`idle`, `total_active_seconds` the sum over all other rows; `apps` has exactly one record per
wm_class met among the other rows, whose `total_seconds` is the sum of the durations of the
rows of that wm_class, and `apps` is in descending order of `total_seconds`. A line whose
duration field does not start with a number, such as the header line, is not a row. -/
theorem C26_compute_day_stats_aggregates_rows (contents : List Byte)
    (g_hash_table_iter : List AppStat → List AppStat)
    (hiter : ∀ l, (g_hash_table_iter l).Perm l)
    (hsum : (duration_bound (csv_rows contents) : Int) ≤ LONG_MAX) :
    ∃ stats, compute_day_stats (some contents) g_hash_table_iter = some stats ∧
      stats.total_locked_seconds = duration_sum row_is_away (csv_rows contents) ∧
      stats.total_active_seconds
        = duration_sum (fun r => !row_is_away r) (csv_rows contents) ∧
      (stats.apps.map (fun a => a.wm_class)).Nodup ∧
      (∀ c, c ∈ stats.apps.map (fun a => a.wm_class)
        ↔ ∃ r ∈ csv_rows contents, row_is_away r = false ∧ r.wm_class = c) ∧
      (∀ a ∈ stats.apps, a.total_seconds
        = duration_sum (fun r => !row_is_away r && decide (r.wm_class = a.wm_class))
            (csv_rows contents)) ∧
      stats.apps.Pairwise (fun a b => b.total_seconds ≤ a.total_seconds) ∧
      (∀ line, (strtol (extract_csv_field line (extract_csv_field line 0).2).1).2 = 0 →
        parse_csv_line (some line) = none) ∧
      parse_csv_line (some (ascii
        "timestamp,duration_seconds,status,window_title,wm_class,wm_class_instance")) = none := by
  have hrows : (g_strsplit_newline contents).filterMap (fun line =>
      if byteAt line 0 = 0 then none else parse_csv_line (some line)) = csv_rows contents := rfl
  have hbound : duration_bound (csv_rows contents) ≤ 2 ^ 63 - 1 := by
    simp only [LONG_MAX] at hsum
    omega
  have hfold := fold_day_stats_lines (g_strsplit_newline contents)
    { total_active_seconds := 0, total_locked_seconds := 0, apps := [] }
    (by rw [hrows]; simp only [Int.natAbs_zero]; omega)
    (by rw [hrows]; simp only [Int.natAbs_zero]; omega)
  rw [hrows] at hfold
  simp only [Int.zero_add] at hfold
  obtain ⟨k1, k2, k3⟩ := fold_add_app_seconds
    ((csv_rows contents).filter (fun r => !row_is_away r)) [] [] (by simp) (by simp) (by simp)
    (by
      have := duration_bound_filter_le (fun r => !row_is_away r) (csv_rows contents)
      simp only [List.nil_append]
      omega)
  simp only [List.nil_append] at k2 k3
  have hperm : (List.insertionSort (fun a b => compare_app_stat_desc a b ≤ 0)
      (g_hash_table_iter (((csv_rows contents).filter (fun r => !row_is_away r)).foldl
        add_app_seconds []))).Perm
      (((csv_rows contents).filter (fun r => !row_is_away r)).foldl add_app_seconds []) :=
    (List.perm_insertionSort _ _).trans (hiter _)
  refine ⟨_, rfl, ?_, ?_, ?_, ?_, ?_, ?_, parse_csv_line_non_numeric, by decide⟩
  · simp only [hfold]
  · simp only [hfold]
  · simp only [hfold]
    exact ((hperm.map _).nodup_iff).mpr k1
  · intro c
    simp only [hfold]
    rw [(hperm.map _).mem_iff, k2]
    constructor
    · intro ⟨r, hr, hc⟩
      rw [List.mem_filter] at hr
      exact ⟨r, hr.1, by simpa using hr.2, hc⟩
    · intro ⟨r, hr, ha, hc⟩
      exact ⟨r, List.mem_filter.mpr ⟨hr, by simp [ha]⟩, hc⟩
  · intro a ha
    simp only [hfold] at ha
    rw [k3 a (hperm.mem_iff.mp ha), duration_sum_filter]
  · simp only [hfold]
    exact sorted_by_compare_desc _

/-- C26 (witness): the file of the test `test_compute_day_stats`, the iteration yielding the
records in the order of their creation: 210 seconds active, 45 locked, Gnome-terminal with
120 seconds before Firefox with 90. -/
theorem C26_compute_day_stats_aggregates_rows_witness :
    (∀ l : List AppStat, (id l).Perm l) ∧
    (duration_bound (csv_rows sample_csv) : Int) ≤ LONG_MAX ∧
    ∃ stats, compute_day_stats (some sample_csv) id = some stats ∧
      stats.total_locked_seconds = duration_sum row_is_away (csv_rows sample_csv) ∧
      stats.total_active_seconds
        = duration_sum (fun r => !row_is_away r) (csv_rows sample_csv) ∧
      (stats.apps.map (fun a => a.wm_class)).Nodup :=
  ⟨fun l => List.Perm.refl l, by decide,
    (C26_compute_day_stats_aggregates_rows sample_csv id (fun l => List.Perm.refl l)
      (by decide)).elim
      fun stats h => ⟨stats, h.1, h.2.1, h.2.2.1, h.2.2.2.1⟩⟩

/-- C26 (counterexample): a log of two active rows of the application `A`, each with the
duration `LONG_MAX`. The durations sum to 18446744073709551614, more than `LONG_MAX`, which
no `long` holds; the totals `compute_day_stats` returns are -2. -/
theorem C26_two_rows_of_long_max_overflow_the_totals :
    (csv_rows overflow_csv).map (fun r => (r.duration, r.status, r.wm_class))
      = [(9223372036854775807, ascii "active", ascii "A"),
         (9223372036854775807, ascii "active", ascii "A")] ∧
    duration_sum (fun r => !row_is_away r) (csv_rows overflow_csv) = 18446744073709551614 ∧
    LONG_MAX = 9223372036854775807 ∧
    compute_day_stats (some overflow_csv) id
      = some { total_active_seconds := -2, total_locked_seconds := 0,
               apps := [{ wm_class := ascii "A", total_seconds := -2,
                          titles := [(ascii "t", -2)] }] } := by
  decide

/-! ## The report -/

set_option maxRecDepth 100000 in
/-- The report of statistics of two applications at a width of 40 columns. -/
theorem sample_report :
    print_stats_report sample_stats 2026 1 28 (some forty_columns) id
      = ascii "Activity Report for 2026-01-28\nTotal tracked:      4m 15s\n\n  1. Gnome-terminal               2m 00s\n       Terminal                   2m 00s\n\n  2. Firefox                      1m 30s\n       Tab 1                      1m 00s\n       Tab 2                         30s\n\nAway                                 45s\n" := by
  decide

set_option maxRecDepth 100000 in
/-- The same report with `top_apps = 1` and `top_titles = 1`: the second application is
counted in the line of the other applications. -/
theorem sample_report_limits :
    print_stats_report sample_stats 2026 1 28
        (some { top_apps := 1, top_titles := 1, grep_pattern := none, cols := 40 }) id
      = ascii "Activity Report for 2026-01-28\nTotal tracked:      4m 15s\n\n  1. Gnome-terminal               2m 00s\n       Terminal                   2m 00s\n\n  1 other applications            1m 30s\n\nAway                                 45s\n" := by
  decide

set_option maxRecDepth 100000 in
/-- The report of the test `test_no_line_overflow`, printed at the default width of 80
columns: both labels are cut and end in three dots, and the lines with a duration have 80
characters. -/
theorem long_label_report :
    print_stats_report long_label_stats 2026 1 28 (some test_options) id
      = ascii "Activity Report for 2026-01-28\nTotal tracked:  1h 06m 01s\n\n"
        ++ ascii "  1. " ++ List.replicate 60 88 ++ ascii "...  1h 01m 01s\n"
        ++ ascii "       " ++ List.replicate 58 89 ++ ascii "...  1h 01m 01s\n\n"
        ++ ascii "Away" ++ List.replicate 64 32 ++ ascii "      5m 00s\n" := by
  decide

end DiscordIpc
